import Mathlib

/-! UVLM steady solver: orchestration and rollup loop

A shallow embedding of `src/include/types.h`, `src/include/solver.h` and
`src/include/steady.h`.

* Working precision (`double`) is an arbitrary linearly ordered field `K`;
  evaluation is done over `ℚ`.  Rounding, overflow to infinity and NaN produced
  by arithmetic are outside the model.  Two places where a non-finite value
  decides control flow are kept: the tolerance may be `+infinity` (`⊤`), and the
  quotient of the convergence check is `⊤` when the reference norm is zero (the
  IEEE quotient is then `inf` or NaN, and both compare false under `<`).
* `std::vector` is `List`; an Eigen matrix is its two sizes and its coefficient
  function.  Indexing is total: a read outside a container yields the default
  value and a write outside it is dropped.
* `unsigned int` is `Nat` with explicit reduction modulo `2 ^ 32` where the
  source does arithmetic on it; `%` by zero is a failure (`none`).
* The header files that are not part of the sources (`wake.h`, `matrix.h`,
  `biotsavart.h`, `postproc.h`, `linear_solver.h`, `geometry.h`, Eigen) are the
  fields of `Externals`; each field returns the new value of the arguments its
  callee writes.
* Every call made by the orchestration is recorded in a ghost `trace`.
-/

namespace UVLM

/-- A counted loop `for (uint i = 0; i < n; ++i) body`. -/
def forLoop {σ : Type} (n : Nat) (body : Nat → σ → σ) (s : σ) : σ :=
  match n with
  | 0 => s
  | k + 1 => body k (forLoop k body s)

namespace Constants

/-- Modelled from the spec: `constants.h` is not among the sources; the spec has
three coordinate grids (x, y, z) per surface and `steady.h` indexes a `Vector3`
with `i_dim < NDIM`. -/
def NDIM : Nat := 3

end Constants

namespace Types

/-- Number of values of an `unsigned int`. -/
def UINT_RANGE : Nat := 2 ^ 32

/-- An `Eigen::Matrix<Real, Dynamic, Dynamic, RowMajor>`: sizes and coefficients. -/
structure MatrixX (K : Type) where
  rows : Nat
  cols : Nat
  coeff : Nat → Nat → K

/-- The call `MatrixX()`: an empty matrix. -/
instance {K : Type} [Zero K] : Inhabited (MatrixX K) := ⟨⟨0, 0, fun _ _ => 0⟩⟩

abbrev VecMatrixX (K : Type) := List (MatrixX K)
abbrev VecVecMatrixX (K : Type) := List (List (MatrixX K))
abbrev VectorX (K : Type) := List K

/-- An `Eigen::Matrix<Real, 3, 1>`. -/
structure Vector3 (K : Type) where
  x : K
  y : K
  z : K

/-- The coefficient `v(i)` of a `Vector3`. -/
def Vector3.coeff {K : Type} (v : Vector3 K) (i : Nat) : K :=
  match i with
  | 0 => v.x
  | 1 => v.y
  | _ => v.z

abbrev IntPair := Nat × Nat
abbrev VecDimensions := List IntPair

structure VMopts (K : Type) where
  ImageMethod : Bool
  Steady : Bool
  horseshoe : Bool
  KJMeth : Bool
  NewAIC : Bool
  DelTime : K
  Rollup : Bool
  NumCores : Nat
  NumSurfaces : Nat
  dt : K
  n_rollup : Nat
  rollup_tolerance : WithTop K
  rollup_aic_refresh : Nat
  iterative_solver : Bool
  iterative_tol : K
  iterative_precond : Bool

structure UVMopts (K : Type) where
  dt : K
  NumCores : Nat
  NumSurfaces : Nat
  convection_scheme : Nat
  ImageMethod : Bool
  iterative_solver : Bool
  iterative_tol : K
  iterative_precond : Bool
  convect_wake : Bool

/-- `types.h`, `UVMopts2VMopts`.  The local `VMopts vm;` is not initialised: `vm0` is
the indeterminate content it starts with, and the fields the function does not assign
keep it. -/
def UVMopts2VMopts {K : Type} (vm0 : VMopts K) (uvm : UVMopts K) : VMopts K :=
  { vm0 with
    dt := uvm.dt
    NumCores := uvm.NumCores
    NumSurfaces := uvm.NumSurfaces
    ImageMethod := uvm.ImageMethod
    iterative_solver := uvm.iterative_solver
    iterative_tol := uvm.iterative_tol
    iterative_precond := uvm.iterative_precond
    horseshoe := false
    Steady := false }

structure FlightConditions (K : Type) where
  uinf : K
  uinf_direction : Vector3 K
  rho : K
  c_ref : K

section containers

variable {K : Type}

/-- The call `v.resize(n)` of a `std::vector`: the first `n` elements are kept and
value-initialised elements are appended up to size `n`. -/
def resize {α : Type} [Inhabited α] (n : Nat) (v : List α) : List α :=
  v.take n ++ List.replicate (n - v.length) default

/-- The read `mat[i_surf][i_dim]`. -/
def at2 [Zero K] (mat : VecVecMatrixX K) (i_surf i_dim : Nat) : MatrixX K :=
  (mat.getD i_surf []).getD i_dim default

/-- The write `mat[i_surf][i_dim] = m`. -/
def set2 (mat : VecVecMatrixX K) (i_surf i_dim : Nat) (m : MatrixX K) : VecVecMatrixX K :=
  mat.set i_surf ((mat.getD i_surf []).set i_dim m)

/-- The calls `m.resize(M, N); m.setZero(M, N)`, and `MatrixX::Zero(M, N)`. -/
def MatrixX.Zero [Zero K] (M N : Nat) : MatrixX K := ⟨M, N, fun _ _ => 0⟩

/-- The update `m.array() += c`. -/
def MatrixX.array_add [Add K] (m : MatrixX K) (c : K) : MatrixX K :=
  ⟨m.rows, m.cols, fun i j => m.coeff i j + c⟩

/-- The block assignment `dst.topRows<1>() = src.bottomRows<1>()`: row 0 of `dst`
receives the last row of `src`; the sizes of `dst` are those of a block of `dst`
and do not change. -/
def MatrixX.assign_topRows_bottomRows (dst src : MatrixX K) : MatrixX K :=
  ⟨dst.rows, dst.cols, fun i j => if i = 0 then src.coeff (src.rows - 1) j else dst.coeff i j⟩

/-- The difference `a - b` of two Eigen matrices (sizes of the left operand). -/
def MatrixX.sub [Sub K] (a b : MatrixX K) : MatrixX K :=
  ⟨a.rows, a.cols, fun i j => a.coeff i j - b.coeff i j⟩

/-- Conversion of an integer value to `unsigned int`. -/
def to_uint (v : Int) : Nat := (v % (UINT_RANGE : Int)).toNat

/-- Conversion of an `unsigned int` to `int` (two's complement). -/
def to_int (v : Nat) : Int :=
  if v % UINT_RANGE < UINT_RANGE / 2 then ((v % UINT_RANGE : Nat) : Int)
  else ((v % UINT_RANGE : Nat) : Int) - (UINT_RANGE : Int)

/-- `types.h`, `allocate_VecVecMat(mat, n_dim, dimensions, correction)`.  The sizes
`int M = dimensions[i_surf].first + correction` are computed in `unsigned int` and
converted to `int`; a negative size allocates nothing. -/
def allocate_VecVecMat [Zero K] (mat : VecVecMatrixX K) (n_dim : Nat)
    (dimensions : VecDimensions) (correction : Int) : VecVecMatrixX K :=
  let n_surf := dimensions.length
  let mat := resize n_surf mat
  forLoop n_surf (fun i_surf mat =>
    let M := (to_int (to_uint ((dimensions.getD i_surf (0, 0)).1 + correction))).toNat
    let N := (to_int (to_uint ((dimensions.getD i_surf (0, 0)).2 + correction))).toNat
    let mat := mat.set i_surf (resize n_dim (mat.getD i_surf []))
    forLoop n_dim (fun i_dim mat =>
      let mat := mat.set i_surf (mat.getD i_surf [] ++ [default])
      set2 mat i_surf i_dim (MatrixX.Zero M N)) mat) mat

/-- The grids `allocate_VecVecMat(mat, n_dim, dimensions, correction)` leaves in one
surface that held `surf`: `resize(n_dim)`, then per axis one `push_back` and the
allocation of grid `i_dim`. -/
def allocated_surface [Zero K] (n_dim M N : Nat) (surf : List (MatrixX K)) : List (MatrixX K) :=
  forLoop n_dim (fun i_dim surf => (surf ++ [default]).set i_dim (MatrixX.Zero M N))
    (resize n_dim surf)

/-- `types.h`, `allocate_VecVecMat(mat, in_dimensions, correction)`: the template
overload that takes its sizes from another container. -/
def allocate_VecVecMat_from [Zero K] (mat : VecVecMatrixX K)
    (in_dimensions : VecVecMatrixX K) (correction : Int) : VecVecMatrixX K :=
  let n_surf := in_dimensions.length
  let mat := resize n_surf mat
  forLoop n_surf (fun i_surf mat =>
    let M := to_uint ((at2 in_dimensions i_surf 0).rows + correction)
    let N := to_uint ((at2 in_dimensions i_surf 0).cols + correction)
    let mat := mat.set i_surf (resize (in_dimensions.getD i_surf []).length (mat.getD i_surf []))
    forLoop (in_dimensions.getD i_surf []).length (fun i_dim mat =>
      set2 mat i_surf i_dim (MatrixX.Zero M N)) mat) mat

/-- `types.h`, `copy_VecVecMat(in, out)`. -/
def copy_VecVecMat [Zero K] (inp out : VecVecMatrixX K) : VecVecMatrixX K :=
  forLoop inp.length (fun i_surf out =>
    forLoop (inp.getD i_surf []).length (fun i_dim out =>
      set2 out i_surf i_dim (at2 inp i_surf i_dim)) out) out

/-- `types.h`, `norm_VecVec_mat(mat)`; `norm` is Eigen's `MatrixBase::norm`. -/
def norm_VecVec_mat [Zero K] [Add K] (norm : MatrixX K → K) (mat : VecVecMatrixX K) : K :=
  forLoop mat.length (fun i_surf acc =>
    forLoop (mat.getD i_surf []).length (fun i_dim acc =>
      acc + norm (at2 mat i_surf i_dim)) acc) 0

/-- The sum of the squares of the entries of a grid (Eigen's `squaredNorm()`). -/
def MatrixX.squaredNorm [Semiring K] (m : MatrixX K) : K :=
  Finset.sum (Finset.range m.rows) (fun i =>
    Finset.sum (Finset.range m.cols) (fun j => m.coeff i j * m.coeff i j))

/-- The number of grids each surface of a container holds. -/
def skeleton_VecVecMat (mat : VecVecMatrixX K) : List Nat := mat.map List.length

/-- The sizes (rows, columns) of the grids of a container of containers of grids. -/
def shape_VecVecMat (mat : VecVecMatrixX K) : List (List (Nat × Nat)) :=
  mat.map (fun surf => surf.map (fun m => (m.rows, m.cols)))

/-- The sizes (rows, columns) of the grids of a container of grids. -/
def shape_VecMat (mat : VecMatrixX K) : List (Nat × Nat) :=
  mat.map (fun m => (m.rows, m.cols))

/-- Modelled from the spec: `operator-` on two containers of grids, declared in
`typeutils.h`, which is not among the sources.  The convergence check takes the
norm of `zeta_star_now − zeta_star_previous`: the grid-by-grid difference. -/
def sub_VecVecMat [Sub K] (a b : VecVecMatrixX K) : VecVecMatrixX K :=
  List.zipWith (fun sa sb => List.zipWith MatrixX.sub sa sb) a b

end containers

end Types

namespace Mapping

open Types

/-- Modelled from the spec: `UVLM::Mapping::BilinearMapping` of `mapping.h`, which is
not among the sources.  Each collocation point is the bilinear interpolation of the
four corners of its panel at the panel centre; the grids of `out` keep their sizes. -/
def BilinearMapping {K : Type} [Field K] (inp out : List (MatrixX K)) : List (MatrixX K) :=
  forLoop inp.length (fun i_dim out =>
    let src := inp.getD i_dim default
    let dst := out.getD i_dim default
    out.set i_dim ⟨dst.rows, dst.cols, fun i j =>
      if i < dst.rows ∧ j < dst.cols then
        (src.coeff i j + src.coeff (i + 1) j + src.coeff i (j + 1) + src.coeff (i + 1) (j + 1)) / 4
      else dst.coeff i j⟩) out

end Mapping

namespace Solver

open Types

/-- `solver.h`, `UVLM::Solver::generate_colocationMesh`. -/
def generate_colocationMesh {K : Type} [Field K]
    (vortex_mesh collocation_mesh : VecVecMatrixX K) : VecVecMatrixX K :=
  let dimensions : VecDimensions := resize vortex_mesh.length []
  let dimensions := forLoop dimensions.length (fun i_surf (dimensions : VecDimensions) =>
    dimensions.set i_surf
      (to_uint (at2 vortex_mesh i_surf 0).rows, to_uint (at2 vortex_mesh i_surf 0).cols))
    dimensions
  let collocation_mesh :=
    if collocation_mesh.isEmpty then
      allocate_VecVecMat collocation_mesh Constants.NDIM dimensions (-1)
    else collocation_mesh
  forLoop dimensions.length (fun i_surf collocation_mesh =>
    collocation_mesh.set i_surf
      (Mapping.BilinearMapping (vortex_mesh.getD i_surf []) (collocation_mesh.getD i_surf [])))
    collocation_mesh

end Solver

namespace Wake

open Types

/-- Modelled from the spec: `UVLM::Wake::Horseshoe::circulation_transfer` of `wake.h`,
which is not among the sources.  The body trailing-edge circulation (last row of
`gamma`) is copied into the first `in_n_rows` rows of the wake circulation of the same
surface, into all rows when `in_n_rows = -1`. -/
def Horseshoe.circulation_transfer {K : Type} [Zero K] (gamma gamma_star : VecMatrixX K)
    (in_n_rows : Int) : VecMatrixX K :=
  forLoop gamma.length (fun i_surf gamma_star =>
    let g := gamma.getD i_surf default
    let gs := gamma_star.getD i_surf default
    let n_rows : Nat := if in_n_rows = -1 then gs.rows else in_n_rows.toNat
    gamma_star.set i_surf ⟨gs.rows, gs.cols, fun i j =>
      if i < n_rows then g.coeff (g.rows - 1) j else gs.coeff i j⟩) gamma_star

end Wake

/-- One entry of the ghost trace: a call made by the orchestration, or the start of
a rollup iteration. -/
inductive Event where
  | generate_colocationMesh
  | generate_surfaceNormal
  | solve_horseshoe
  | horseshoe_init
  | RHS (Ktotal : Nat)
  | AIC (Ktotal : Nat) (horseshoe : Bool) (aic_rows aic_cols : Nat)
  | solve_system
  | reconstruct_gamma
  | circulation_transfer (in_n_rows : Int)
  | calculate_static_forces
  | to_discretised
  | rollup_iteration (i_rollup : Nat)
  | total_induced_velocity_on_wake
  | convect
  | displace_VecVecMat
  | displace_VecMat
  | trailing_edge_rewrite
  | solve_discretised
  deriving DecidableEq, Repr

open Types in
/-- The callees of `steady.h` whose headers are not among the sources.  Each field
maps the arguments of the call to the new value of the argument(s) the callee writes. -/
structure Externals (K : Type) where
  /-- `UVLM::Geometry::generate_colocationMesh(mesh, mesh_col)`, writes `mesh_col`. -/
  generate_colocationMesh : VecVecMatrixX K → VecVecMatrixX K → VecVecMatrixX K
  /-- `UVLM::Geometry::generate_surfaceNormal(zeta, normals)`, writes `normals`. -/
  generate_surfaceNormal : VecVecMatrixX K → VecVecMatrixX K → VecVecMatrixX K
  /-- `UVLM::Wake::Horseshoe::init(zeta, zeta_star, flightconditions)`, writes `zeta_star`. -/
  horseshoe_init : VecVecMatrixX K → VecVecMatrixX K → FlightConditions K → VecVecMatrixX K
  /-- `UVLM::Matrix::RHS(zeta_col, zeta_star, uext_col, gamma_star, normals, options, rhs,
  Ktotal)`, writes `rhs`. -/
  RHS : VecVecMatrixX K → VecVecMatrixX K → VecVecMatrixX K → VecMatrixX K → VecVecMatrixX K →
    VMopts K → Nat → VectorX K
  /-- `UVLM::Matrix::AIC(Ktotal, zeta, zeta_col, zeta_star, uext_col, normals, options,
  horseshoe, aic)`, writes `aic`. -/
  AIC : Nat → VecVecMatrixX K → VecVecMatrixX K → VecVecMatrixX K → VecVecMatrixX K →
    VecVecMatrixX K → VMopts K → Bool → MatrixX K → MatrixX K
  /-- `UVLM::LinearSolver::solve_system(aic, rhs, options, gamma_flat)`, writes `gamma_flat`. -/
  solve_system : MatrixX K → VectorX K → VMopts K → VectorX K
  /-- `UVLM::Matrix::reconstruct_gamma(gamma_flat, gamma, zeta_col, zeta_star, options)`,
  writes `gamma`. -/
  reconstruct_gamma : VectorX K → VecMatrixX K → VecVecMatrixX K → VecVecMatrixX K →
    VMopts K → VecMatrixX K
  /-- `UVLM::Wake::Horseshoe::to_discretised(zeta_star, gamma_star, delta_x)`, writes
  `zeta_star` and `gamma_star`. -/
  to_discretised : VecVecMatrixX K → VecMatrixX K → K → VecVecMatrixX K × VecMatrixX K
  /-- `UVLM::BiotSavart::total_induced_velocity_on_wake(zeta, zeta_star, gamma, gamma_star,
  u_ind)`, writes `u_ind`. -/
  total_induced_velocity_on_wake : VecVecMatrixX K → VecVecMatrixX K → VecMatrixX K →
    VecMatrixX K → VecVecMatrixX K → VecVecMatrixX K
  /-- `UVLM::Wake::Discretised::convect(zeta_star, u_ind, dt)`, writes `zeta_star`. -/
  convect : VecVecMatrixX K → VecVecMatrixX K → K → VecVecMatrixX K
  /-- `UVLM::Wake::General::displace_VecVecMat(zeta_star)`, writes `zeta_star`. -/
  displace_VecVecMat : VecVecMatrixX K → VecVecMatrixX K
  /-- `UVLM::Wake::General::displace_VecMat(gamma_star)`, writes `gamma_star`. -/
  displace_VecMat : VecMatrixX K → VecMatrixX K
  /-- `UVLM::PostProc::calculate_static_forces(zeta, zeta_star, gamma, gamma_star, uext,
  forces, options, flightconditions)`, writes `forces`. -/
  calculate_static_forces : VecVecMatrixX K → VecVecMatrixX K → VecMatrixX K → VecMatrixX K →
    VecVecMatrixX K → VecVecMatrixX K → VMopts K → FlightConditions K → VecVecMatrixX K
  /-- Eigen, `MatrixBase::norm()` of a dynamic matrix. -/
  norm : MatrixX K → K
  /-- Eigen, `MatrixBase::norm()` of a `Vector3`. -/
  norm3 : Vector3 K → K

namespace Steady

open Types

/-- The in/out arguments of `UVLM::Steady::solver`, with the ghost trace. -/
structure State (K : Type) where
  zeta_star : VecVecMatrixX K
  gamma : VecMatrixX K
  gamma_star : VecMatrixX K
  forces : VecVecMatrixX K
  trace : List Event

/-- The state of the rollup loop: the in/out arguments and the local variables
declared before the loop. -/
structure RollupState (K : Type) where
  st : State K
  zeta_star_norm_first : K
  zeta_star_norm_previous : K
  zeta_star_norm : K
  zeta_star_previous : VecVecMatrixX K

section solve

variable {K : Type} [LinearOrderedField K]

/-- `steady.h`, the loop `ii += M*N` of `solve_horseshoe` that yields `Ktotal`. -/
def solve_horseshoe_Ktotal (uext_col : VecVecMatrixX K) (options : VMopts K) : Nat :=
  let n_surf := options.NumSurfaces
  forLoop n_surf (fun i_surf ii =>
    let M := to_uint (at2 uext_col i_surf 0).rows
    let N := to_uint (at2 uext_col i_surf 0).cols
    (ii + (M * N) % UINT_RANGE) % UINT_RANGE) 0

/-- `steady.h`, `UVLM::Steady::solve_horseshoe`. -/
def solve_horseshoe (ext : Externals K) (zeta zeta_col uext_col : VecVecMatrixX K)
    (st : State K) (normals : VecVecMatrixX K) (options : VMopts K)
    (flightconditions : FlightConditions K) : State K :=
  let zeta_star := ext.horseshoe_init zeta st.zeta_star flightconditions
  let Ktotal := solve_horseshoe_Ktotal uext_col options
  let rhs := ext.RHS zeta_col zeta_star uext_col st.gamma_star normals options Ktotal
  let aic : MatrixX K := MatrixX.Zero Ktotal Ktotal
  let aic_out := ext.AIC Ktotal zeta zeta_col zeta_star uext_col normals options true aic
  let gamma_flat := ext.solve_system aic_out rhs options
  let gamma := ext.reconstruct_gamma gamma_flat st.gamma zeta_col zeta_star options
  let gamma_star := Wake.Horseshoe.circulation_transfer gamma st.gamma_star (-1)
  { zeta_star := zeta_star
    gamma := gamma
    gamma_star := gamma_star
    forces := st.forces
    trace := st.trace ++ [Event.solve_horseshoe, Event.horseshoe_init, Event.RHS Ktotal,
      Event.AIC Ktotal true aic.rows aic.cols, Event.solve_system, Event.reconstruct_gamma,
      Event.circulation_transfer (-1)] }

/-- `steady.h`, the loop `ii += M*N` of `solve_discretised` that yields `Ktotal`. -/
def solve_discretised_Ktotal (uext_col : VecVecMatrixX K) (options : VMopts K) : Nat :=
  let n_surf := options.NumSurfaces
  forLoop n_surf (fun i_surf ii =>
    let M := to_uint (at2 uext_col i_surf 0).rows
    let N := to_uint (at2 uext_col i_surf 0).cols
    (ii + (M * N) % UINT_RANGE) % UINT_RANGE) 0

/-- `steady.h`, `UVLM::Steady::solve_discretised`. -/
def solve_discretised (ext : Externals K) (zeta zeta_col uext_col : VecVecMatrixX K)
    (st : State K) (normals : VecVecMatrixX K) (options : VMopts K)
    (_flightconditions : FlightConditions K) : State K :=
  let Ktotal := solve_discretised_Ktotal uext_col options
  let aic : MatrixX K := MatrixX.Zero Ktotal Ktotal
  let rhs := ext.RHS zeta_col st.zeta_star uext_col st.gamma_star normals options Ktotal
  let aic_out := ext.AIC Ktotal zeta zeta_col st.zeta_star uext_col normals options false aic
  let gamma_flat := ext.solve_system aic_out rhs options
  let gamma := ext.reconstruct_gamma gamma_flat st.gamma zeta_col st.zeta_star options
  let in_n_rows : Int := if !options.Steady then 1 else -1
  let gamma_star := Wake.Horseshoe.circulation_transfer gamma st.gamma_star in_n_rows
  { zeta_star := st.zeta_star
    gamma := gamma
    gamma_star := gamma_star
    forces := st.forces
    trace := st.trace ++ [Event.solve_discretised, Event.RHS Ktotal,
      Event.AIC Ktotal false aic.rows aic.cols, Event.solve_system, Event.reconstruct_gamma,
      Event.circulation_transfer in_n_rows] }

/-- `steady.h` lines 207-215 of `solver`: the trailing edge of `zeta` is copied into
the first row of `zeta_star`. -/
def trailing_edge_rewrite (zeta zeta_star : VecVecMatrixX K) : VecVecMatrixX K :=
  forLoop zeta.length (fun i_surf zeta_star =>
    forLoop Constants.NDIM (fun i_dim zeta_star =>
      set2 zeta_star i_surf i_dim
        ((at2 zeta_star i_surf i_dim).assign_topRows_bottomRows (at2 zeta i_surf i_dim)))
      zeta_star) zeta_star

/-- `steady.h` lines 191-198 of `solver`: the convection velocity of the background
flow is added to the induced velocity. -/
def freestream_offset (zeta : VecVecMatrixX K) (u_steady : Vector3 K)
    (u_ind : VecVecMatrixX K) : VecVecMatrixX K :=
  forLoop zeta.length (fun i_surf u_ind =>
    forLoop Constants.NDIM (fun i_dim u_ind =>
      set2 u_ind i_surf i_dim ((at2 u_ind i_surf i_dim).array_add (u_steady.coeff i_dim)))
      u_ind) u_ind

/-- `steady.h` lines 180-215 of `solver`: induced velocity, freestream offset,
convection, lattice shift and trailing-edge row rewrite of one rollup iteration. -/
def rollup_convect (ext : Externals K) (zeta : VecVecMatrixX K) (u_steady : Vector3 K)
    (options : VMopts K) (i_rollup : Nat) (st : State K) : State K :=
  let u_ind : VecVecMatrixX K := allocate_VecVecMat_from [] st.zeta_star 0
  let u_ind := ext.total_induced_velocity_on_wake zeta st.zeta_star st.gamma st.gamma_star u_ind
  let u_ind := freestream_offset zeta u_steady u_ind
  let zeta_star := ext.convect st.zeta_star u_ind options.dt
  let zeta_star := ext.displace_VecVecMat zeta_star
  let gamma_star := ext.displace_VecMat st.gamma_star
  let zeta_star := trailing_edge_rewrite zeta zeta_star
  { zeta_star := zeta_star
    gamma := st.gamma
    gamma_star := gamma_star
    forces := st.forces
    trace := st.trace ++ [Event.rollup_iteration i_rollup, Event.total_induced_velocity_on_wake,
      Event.convect, Event.displace_VecVecMat, Event.displace_VecMat,
      Event.trailing_edge_rewrite] }

/-- The value `eps` of the convergence check,
`std::abs(norm_VecVec_mat(zeta_star - zeta_star_previous))/zeta_star_norm_first`;
`⊤` stands for the non-finite quotient by a zero reference norm. -/
def rollup_eps (ext : Externals K) (zeta_star zeta_star_previous : VecVecMatrixX K)
    (zeta_star_norm_first : K) : WithTop K :=
  if zeta_star_norm_first = 0 then ⊤
  else ((|norm_VecVec_mat ext.norm (sub_VecVecMat zeta_star zeta_star_previous)|
    / zeta_star_norm_first : K) : WithTop K)

/-- `steady.h` lines 217-232 of `solver`: the periodic re-solve
`if (i_rollup%options.rollup_aic_refresh == 0)`; `%` by zero is undefined. -/
def rollup_refresh (ext : Externals K) (zeta zeta_col uext_col normals : VecVecMatrixX K)
    (options : VMopts K) (flightconditions : FlightConditions K) (i_rollup : Nat)
    (st : State K) : Option (State K) :=
  if options.rollup_aic_refresh = 0 then none
  else if i_rollup % options.rollup_aic_refresh = 0 then
    some (solve_discretised ext zeta zeta_col uext_col st normals options flightconditions)
  else some st

/-- `steady.h` lines 180-235 of `solver`: one rollup iteration up to the convergence
check. -/
def rollup_body (ext : Externals K) (zeta zeta_col uext_col normals : VecVecMatrixX K)
    (u_steady : Vector3 K) (options : VMopts K) (flightconditions : FlightConditions K)
    (i_rollup : Nat) (ls : RollupState K) : Option (RollupState K) :=
  match rollup_refresh ext zeta zeta_col uext_col normals options flightconditions i_rollup
      (rollup_convect ext zeta u_steady options i_rollup ls.st) with
  | none => none
  | some st =>
    some { st := st
           zeta_star_norm_first := ls.zeta_star_norm_first
           zeta_star_norm_previous := ls.zeta_star_norm_previous
           zeta_star_norm := norm_VecVec_mat ext.norm st.zeta_star
           zeta_star_previous := ls.zeta_star_previous }

/-- `steady.h` line 242 of `solver`: the test `eps < options.rollup_tolerance`. -/
def rollup_converged (ext : Externals K) (options : VMopts K) (ls : RollupState K) : Bool :=
  decide (rollup_eps ext ls.st.zeta_star ls.zeta_star_previous ls.zeta_star_norm_first
    < options.rollup_tolerance)

/-- `steady.h` lines 247-248 of `solver`: the state retained for the next comparison. -/
def rollup_retain (ls : RollupState K) : RollupState K :=
  { st := ls.st
    zeta_star_norm_first := ls.zeta_star_norm_first
    zeta_star_norm_previous := ls.zeta_star_norm
    zeta_star_norm := ls.zeta_star_norm
    zeta_star_previous := copy_VecVecMat ls.st.zeta_star ls.zeta_star_previous }

/-- `steady.h` lines 178-250 of `solver`: the rollup loop, entered with counter
`i_rollup` and `remaining = n_rollup - i_rollup` iterations left before the loop
condition `i_rollup < options.n_rollup` fails. -/
def rollup_loop (ext : Externals K) (zeta zeta_col uext_col normals : VecVecMatrixX K)
    (u_steady : Vector3 K) (options : VMopts K) (flightconditions : FlightConditions K) :
    Nat → Nat → RollupState K → Option (RollupState K)
  | 0, _, ls => some ls
  | remaining + 1, i_rollup, ls =>
    match rollup_body ext zeta zeta_col uext_col normals u_steady options flightconditions
        i_rollup ls with
    | none => none
    | some ls =>
      if i_rollup ≠ 0 then
        if rollup_converged ext options ls then some ls
        else
          rollup_loop ext zeta zeta_col uext_col normals u_steady options flightconditions
            remaining (i_rollup + 1) (rollup_retain ls)
      else
        rollup_loop ext zeta zeta_col uext_col normals u_steady options flightconditions
          remaining (i_rollup + 1) ls

/-- `steady.h` lines 150-175 of `solver`: wake discretisation and the locals declared
before the rollup loop. -/
def rollup_init (ext : Externals K) (uext : VecVecMatrixX K) (options : VMopts K)
    (st : State K) : Vector3 K × RollupState K :=
  let u_steady : Vector3 K :=
    ⟨(at2 uext 0 0).coeff 0 0, (at2 uext 0 1).coeff 0 0, (at2 uext 0 2).coeff 0 0⟩
  let delta_x := ext.norm3 u_steady * options.dt
  let d := ext.to_discretised st.zeta_star st.gamma_star delta_x
  let st : State K :=
    { zeta_star := d.1
      gamma := st.gamma
      gamma_star := d.2
      forces := st.forces
      trace := st.trace ++ [Event.to_discretised] }
  if options.n_rollup ≠ 0 then
    let zeta_star_norm_first := norm_VecVec_mat ext.norm st.zeta_star
    (u_steady,
      { st := st
        zeta_star_norm_first := zeta_star_norm_first
        zeta_star_norm_previous := zeta_star_norm_first
        zeta_star_norm := 0
        zeta_star_previous :=
          copy_VecVecMat st.zeta_star (allocate_VecVecMat_from [] st.zeta_star 0) })
  else
    (u_steady,
      { st := st
        zeta_star_norm_first := 0
        zeta_star_norm_previous := 0
        zeta_star_norm := 0
        zeta_star_previous := [] })

/-- The call of `UVLM::PostProc::calculate_static_forces` made by `solver`. -/
def static_forces (ext : Externals K) (zeta uext : VecVecMatrixX K) (options : VMopts K)
    (flightconditions : FlightConditions K) (st : State K) : State K :=
  { zeta_star := st.zeta_star
    gamma := st.gamma
    gamma_star := st.gamma_star
    forces := ext.calculate_static_forces zeta st.zeta_star st.gamma st.gamma_star uext
      st.forces options flightconditions
    trace := st.trace ++ [Event.calculate_static_forces] }

/-- `steady.h` lines 105-131 of `solver`: collocation meshes, normals and the
horseshoe solve. -/
def solver_horseshoe_stage (ext : Externals K) (zeta uext : VecVecMatrixX K) (st : State K)
    (options : VMopts K) (flightconditions : FlightConditions K) :
    VecVecMatrixX K × VecVecMatrixX K × VecVecMatrixX K × State K :=
  let zeta_col := ext.generate_colocationMesh zeta []
  let uext_col := ext.generate_colocationMesh uext []
  let normals := ext.generate_surfaceNormal zeta (allocate_VecVecMat_from [] zeta_col 0)
  let st : State K :=
    { zeta_star := st.zeta_star
      gamma := st.gamma
      gamma_star := st.gamma_star
      forces := st.forces
      trace := st.trace ++ [Event.generate_colocationMesh, Event.generate_colocationMesh,
        Event.generate_surfaceNormal] }
  (zeta_col, uext_col, normals,
    solve_horseshoe ext zeta zeta_col uext_col st normals options flightconditions)

/-- `steady.h`, `UVLM::Steady::solver`; `none` is the undefined `%` by zero. -/
def solver (ext : Externals K) (zeta _zeta_dot uext : VecVecMatrixX K) (st : State K)
    (options : VMopts K) (flightconditions : FlightConditions K) : Option (State K) :=
  let hs := solver_horseshoe_stage ext zeta uext st options flightconditions
  let zeta_col := hs.1
  let uext_col := hs.2.1
  let normals := hs.2.2.1
  let st := hs.2.2.2
  if options.horseshoe then
    some (static_forces ext zeta uext options flightconditions st)
  else
    let ini := rollup_init ext uext options st
    match rollup_loop ext zeta zeta_col uext_col normals ini.1 options flightconditions
        options.n_rollup 0 ini.2 with
    | none => none
    | some ls => some (static_forces ext zeta uext options flightconditions ls.st)

end solve

/-! ## The run of the rollup loop

The sequence of states of a run in which no iteration has left the loop yet, used to
name the value `eps` of each iteration, and the events one iteration logs. -/

section run

variable {K : Type} [LinearOrderedField K]

/-- Number of rollup iterations started in a trace. -/
def iterations_run (trace : List Event) : Nat :=
  trace.countP (fun e => match e with
    | Event.rollup_iteration _ => true
    | _ => false)

/-- The events logged by a call of `solve_discretised`. -/
def solve_discretised_events (uext_col : VecVecMatrixX K) (options : VMopts K) : List Event :=
  [Event.solve_discretised, Event.RHS (solve_discretised_Ktotal uext_col options),
    Event.AIC (solve_discretised_Ktotal uext_col options) false
      (solve_discretised_Ktotal uext_col options) (solve_discretised_Ktotal uext_col options),
    Event.solve_system, Event.reconstruct_gamma,
    Event.circulation_transfer (if !options.Steady then 1 else -1)]

/-- The events logged by rollup iteration `i_rollup`. -/
def rollup_events (uext_col : VecVecMatrixX K) (options : VMopts K) (i_rollup : Nat) :
    List Event :=
  [Event.rollup_iteration i_rollup, Event.total_induced_velocity_on_wake, Event.convect,
    Event.displace_VecVecMat, Event.displace_VecMat, Event.trailing_edge_rewrite]
  ++ (if i_rollup % options.rollup_aic_refresh = 0 then solve_discretised_events uext_col options
      else [])

/-- The events logged by the rollup iterations `0 .. k-1`. -/
def rollup_trace (uext_col : VecVecMatrixX K) (options : VMopts K) : Nat → List Event
  | 0 => []
  | k + 1 => rollup_trace uext_col options k ++ rollup_events uext_col options k

/-- The state at the head of iteration `i` of a run from `ini` in which no earlier
iteration has left the loop. -/
def rollup_start (ext : Externals K) (zeta zeta_col uext_col normals : VecVecMatrixX K)
    (u_steady : Vector3 K) (options : VMopts K) (flightconditions : FlightConditions K)
    (ini : RollupState K) : Nat → Option (RollupState K)
  | 0 => some ini
  | i + 1 =>
    match rollup_start ext zeta zeta_col uext_col normals u_steady options flightconditions ini i
      with
    | none => none
    | some ls =>
      match rollup_body ext zeta zeta_col uext_col normals u_steady options flightconditions
          i ls with
      | none => none
      | some ls => some (if i = 0 then ls else rollup_retain ls)

/-- The state at the convergence check of iteration `i` of such a run. -/
def rollup_check (ext : Externals K) (zeta zeta_col uext_col normals : VecVecMatrixX K)
    (u_steady : Vector3 K) (options : VMopts K) (flightconditions : FlightConditions K)
    (ini : RollupState K) (i : Nat) : Option (RollupState K) :=
  match rollup_start ext zeta zeta_col uext_col normals u_steady options flightconditions ini i
    with
  | none => none
  | some ls =>
    rollup_body ext zeta zeta_col uext_col normals u_steady options flightconditions i ls

/-- The value `eps_i` computed at iteration `i` of such a run. -/
def rollup_eps_at (ext : Externals K) (zeta zeta_col uext_col normals : VecVecMatrixX K)
    (u_steady : Vector3 K) (options : VMopts K) (flightconditions : FlightConditions K)
    (ini : RollupState K) (i : Nat) : Option (WithTop K) :=
  match rollup_check ext zeta zeta_col uext_col normals u_steady options flightconditions ini i
    with
  | none => none
  | some ls =>
    some (rollup_eps ext ls.st.zeta_star ls.zeta_star_previous ls.zeta_star_norm_first)

/-- Whether `eps_i < rollup_tolerance`. -/
def rollup_stops (ext : Externals K) (zeta zeta_col uext_col normals : VecVecMatrixX K)
    (u_steady : Vector3 K) (options : VMopts K) (flightconditions : FlightConditions K)
    (ini : RollupState K) (i : Nat) : Bool :=
  match rollup_eps_at ext zeta zeta_col uext_col normals u_steady options flightconditions
      ini i with
  | none => false
  | some eps => decide (eps < options.rollup_tolerance)

end run

/-! ## A concrete instance

Stand-ins over `ℚ` for the external callees and a one-panel input, on which the
definitions above are evaluated. -/

section demo

open Types

/-- A grid with all coefficients equal to `v`. -/
def demo_grid (rows cols : Nat) (v : ℚ) : MatrixX ℚ := ⟨rows, cols, fun _ _ => v⟩

/-- A stand-in for Eigen's matrix norm: the sum of the absolute values of the entries. -/
def demo_norm (m : MatrixX ℚ) : ℚ :=
  forLoop m.rows (fun i acc => forLoop m.cols (fun j acc => acc + |m.coeff i j|) acc) 0

/-- A stand-in for `convect` on the grids of one surface: the explicit step
`position += velocity * dt`. -/
def demo_convect_surf (dt : ℚ) : List (MatrixX ℚ) → List (MatrixX ℚ) → List (MatrixX ℚ)
  | [], _ => []
  | m :: t, [] => m :: demo_convect_surf dt t []
  | m :: t, v :: w =>
    (⟨m.rows, m.cols, fun i j => m.coeff i j + v.coeff i j * dt⟩ : MatrixX ℚ)
      :: demo_convect_surf dt t w

/-- A stand-in for `convect`. -/
def demo_convect : VecVecMatrixX ℚ → VecVecMatrixX ℚ → ℚ → VecVecMatrixX ℚ
  | [], _, _ => []
  | sz :: t, [], dt => demo_convect_surf dt sz [] :: demo_convect t [] dt
  | sz :: t, su :: w, dt => demo_convect_surf dt sz su :: demo_convect t w dt

/-- A stand-in for the lattice shift: every row moves one row down, the last is dropped. -/
def demo_displace (m : MatrixX ℚ) : MatrixX ℚ :=
  ⟨m.rows, m.cols, fun i j => m.coeff (i - 1) j⟩

/-- Stand-ins for the external callees. -/
def demo_ext : Externals ℚ where
  generate_colocationMesh := Solver.generate_colocationMesh
  generate_surfaceNormal := fun _ normals => normals
  horseshoe_init := fun _ zeta_star _ => zeta_star
  RHS := fun _ _ _ _ _ _ Ktotal => List.replicate Ktotal 0
  AIC := fun _ _ _ _ _ _ _ _ aic => aic
  solve_system := fun _ rhs _ => rhs
  reconstruct_gamma := fun _ gamma _ _ _ => gamma
  to_discretised := fun zeta_star gamma_star _ => (zeta_star, gamma_star)
  total_induced_velocity_on_wake := fun _ _ _ _ u_ind => u_ind
  convect := demo_convect
  displace_VecVecMat := fun zeta_star => zeta_star.map (fun surf => surf.map demo_displace)
  displace_VecMat := fun gamma_star => gamma_star.map demo_displace
  calculate_static_forces := fun _ _ _ _ _ forces _ _ => forces
  norm := demo_norm
  norm3 := fun v => |v.x| + |v.y| + |v.z|

/-- One surface of one panel: 2 x 2 corner points at height 0. -/
def demo_zeta : VecVecMatrixX ℚ := [[demo_grid 2 2 0, demo_grid 2 2 0, demo_grid 2 2 0]]

/-- A uniform freestream of speed 1 along x. -/
def demo_uext : VecVecMatrixX ℚ := [[demo_grid 2 2 1, demo_grid 2 2 0, demo_grid 2 2 0]]

/-- The caller's containers: a wake of 3 x 2 points at x = 1, no circulation yet. -/
def demo_state : State ℚ where
  zeta_star := [[demo_grid 3 2 1, demo_grid 3 2 0, demo_grid 3 2 0]]
  gamma := [demo_grid 1 1 0]
  gamma_star := [demo_grid 2 1 0]
  forces := []
  trace := []

/-- Options of the concrete instance. -/
def demo_options (horseshoe : Bool) (n_rollup : Nat) (rollup_tolerance : WithTop ℚ)
    (rollup_aic_refresh : Nat) : VMopts ℚ where
  ImageMethod := false
  Steady := true
  horseshoe := horseshoe
  KJMeth := false
  NewAIC := false
  DelTime := 1
  Rollup := true
  NumCores := 1
  NumSurfaces := 1
  dt := 1
  n_rollup := n_rollup
  rollup_tolerance := rollup_tolerance
  rollup_aic_refresh := rollup_aic_refresh
  iterative_solver := false
  iterative_tol := 0
  iterative_precond := false

/-- Flight conditions of the concrete instance. -/
def demo_flightconditions : FlightConditions ℚ where
  uinf := 1
  uinf_direction := ⟨1, 0, 0⟩
  rho := 1
  c_ref := 1

/-- The collocation meshes, normals and horseshoe state of the concrete instance. -/
def demo_pre : VecVecMatrixX ℚ × VecVecMatrixX ℚ × VecVecMatrixX ℚ × State ℚ :=
  solver_horseshoe_stage demo_ext demo_zeta demo_uext demo_state (demo_options false 3 0 2)
    demo_flightconditions

/-- The freestream vector and the loop state with which the concrete instance enters the
rollup loop. -/
def demo_ini : Vector3 ℚ × RollupState ℚ :=
  rollup_init demo_ext demo_uext (demo_options false 3 0 2) demo_pre.2.2.2

/-- One surface of 65536 x 65536 panels: 65537 x 65537 corner points. -/
def demo_big_mesh : VecVecMatrixX ℚ :=
  [[demo_grid 65537 65537 0, demo_grid 65537 65537 0, demo_grid 65537 65537 0]]

end demo

/-! ## Lemmas on one iteration and on the loop -/

section lemmas

variable {K : Type} [LinearOrderedField K]
variable (ext : Externals K) (zeta zeta_col uext_col normals : VecVecMatrixX K)
  (u_steady : Vector3 K) (options : VMopts K) (flightconditions : FlightConditions K)

theorem solve_discretised_trace (st : State K) :
    (solve_discretised ext zeta zeta_col uext_col st normals options flightconditions).trace
      = st.trace ++ solve_discretised_events uext_col options := rfl

theorem solve_discretised_zeta_star (st : State K) :
    (solve_discretised ext zeta zeta_col uext_col st normals options flightconditions).zeta_star
      = st.zeta_star := rfl

theorem rollup_refresh_eq (hr : options.rollup_aic_refresh ≠ 0) (i : Nat) (st : State K) :
    rollup_refresh ext zeta zeta_col uext_col normals options flightconditions i st
      = some (if i % options.rollup_aic_refresh = 0 then
          solve_discretised ext zeta zeta_col uext_col st normals options flightconditions
        else st) := by
  unfold rollup_refresh
  rw [if_neg hr]
  split <;> rfl

theorem rollup_body_eq (hr : options.rollup_aic_refresh ≠ 0) (i : Nat) (ls : RollupState K) :
    ∃ st, rollup_refresh ext zeta zeta_col uext_col normals options flightconditions i
        (rollup_convect ext zeta u_steady options i ls.st) = some st ∧
      rollup_body ext zeta zeta_col uext_col normals u_steady options flightconditions i ls
        = some { st := st
                 zeta_star_norm_first := ls.zeta_star_norm_first
                 zeta_star_norm_previous := ls.zeta_star_norm_previous
                 zeta_star_norm := norm_VecVec_mat ext.norm st.zeta_star
                 zeta_star_previous := ls.zeta_star_previous } := by
  refine ⟨_, rollup_refresh_eq ext zeta zeta_col uext_col normals options flightconditions hr i _,
    ?_⟩
  unfold rollup_body
  rw [rollup_refresh_eq ext zeta zeta_col uext_col normals options flightconditions hr]

theorem rollup_body_trace (i : Nat) (ls ls1 : RollupState K)
    (h : rollup_body ext zeta zeta_col uext_col normals u_steady options flightconditions i ls
      = some ls1) :
    ls1.st.trace = ls.st.trace ++ rollup_events uext_col options i := by
  unfold rollup_body rollup_refresh at h
  by_cases hr : options.rollup_aic_refresh = 0
  · simp [hr] at h
  · by_cases hi : i % options.rollup_aic_refresh = 0
    · simp only [hr, hi, if_true, if_false] at h
      injection h with h
      subst h
      simp [solve_discretised_trace, rollup_convect, rollup_events, hi]
    · simp only [hr, hi, if_false] at h
      injection h with h
      subst h
      simp [rollup_convect, rollup_events, hi]

theorem rollup_body_fields (i : Nat) (ls ls1 : RollupState K)
    (h : rollup_body ext zeta zeta_col uext_col normals u_steady options flightconditions i ls
      = some ls1) :
    ls1.zeta_star_norm_first = ls.zeta_star_norm_first ∧
    ls1.zeta_star_previous = ls.zeta_star_previous ∧
    ls1.zeta_star_norm_previous = ls.zeta_star_norm_previous ∧
    ls1.st.forces = ls.st.forces := by
  unfold rollup_body rollup_refresh at h
  by_cases hr : options.rollup_aic_refresh = 0
  · simp [hr] at h
  · by_cases hi : i % options.rollup_aic_refresh = 0
    · simp only [hr, hi, if_true, if_false] at h
      injection h with h
      subst h
      simp [solve_discretised, rollup_convect]
    · simp only [hr, hi, if_false] at h
      injection h with h
      subst h
      simp [rollup_convect]

theorem rollup_body_some (hr : options.rollup_aic_refresh ≠ 0) (i : Nat) (ls : RollupState K) :
    ∃ ls1, rollup_body ext zeta zeta_col uext_col normals u_steady options flightconditions i ls
      = some ls1 := by
  obtain ⟨st, -, hb⟩ := rollup_body_eq ext zeta zeta_col uext_col normals u_steady options
    flightconditions hr i ls
  exact ⟨_, hb⟩

theorem rollup_retain_st (ls : RollupState K) : (rollup_retain ls).st = ls.st := rfl

theorem rollup_start_some (hr : options.rollup_aic_refresh ≠ 0) (ini : RollupState K) (i : Nat) :
    ∃ ls, rollup_start ext zeta zeta_col uext_col normals u_steady options flightconditions
      ini i = some ls := by
  induction i with
  | zero => exact ⟨ini, rfl⟩
  | succ i ih =>
    obtain ⟨ls, hls⟩ := ih
    obtain ⟨st, -, hb⟩ := rollup_body_eq ext zeta zeta_col uext_col normals u_steady options
      flightconditions hr i ls
    simp only [rollup_start, hls, hb]
    exact ⟨_, rfl⟩

theorem rollup_check_some (hr : options.rollup_aic_refresh ≠ 0) (ini : RollupState K) (i : Nat) :
    ∃ ls, rollup_check ext zeta zeta_col uext_col normals u_steady options flightconditions
      ini i = some ls := by
  obtain ⟨ls, hls⟩ := rollup_start_some ext zeta zeta_col uext_col normals u_steady options
    flightconditions hr ini i
  obtain ⟨st, -, hb⟩ := rollup_body_eq ext zeta zeta_col uext_col normals u_steady options
    flightconditions hr i ls
  simp only [rollup_check, hls, hb]
  exact ⟨_, rfl⟩

theorem rollup_start_succ (ini : RollupState K) (i : Nat) (ls : RollupState K)
    (h : rollup_check ext zeta zeta_col uext_col normals u_steady options flightconditions
      ini i = some ls) :
    rollup_start ext zeta zeta_col uext_col normals u_steady options flightconditions
      ini (i + 1) = some (if i = 0 then ls else rollup_retain ls) := by
  unfold rollup_check at h
  cases hs : rollup_start ext zeta zeta_col uext_col normals u_steady options flightconditions
      ini i with
  | none => simp [hs] at h
  | some l0 =>
    simp only [hs] at h
    simp only [rollup_start, hs, h]

theorem rollup_stops_eq (ini : RollupState K) (i : Nat) (ls : RollupState K)
    (h : rollup_check ext zeta zeta_col uext_col normals u_steady options flightconditions
      ini i = some ls) :
    rollup_stops ext zeta zeta_col uext_col normals u_steady options flightconditions ini i
      = rollup_converged ext options ls := by
  simp only [rollup_stops, rollup_eps_at, h, rollup_converged]

/-- The run of the loop from the head of iteration `i`: it leaves at the first
iteration `k ≥ 1` whose `eps` is below the tolerance, with the state of that check, or
runs all remaining iterations. -/
theorem rollup_loop_run (hr : options.rollup_aic_refresh ≠ 0) (ini : RollupState K) :
    ∀ (remaining i : Nat) (ls : RollupState K),
      rollup_start ext zeta zeta_col uext_col normals u_steady options flightconditions ini i
        = some ls →
      (∀ j, 1 ≤ j → j < i →
        rollup_stops ext zeta zeta_col uext_col normals u_steady options flightconditions ini j
          = false) →
      (∃ k final, i ≤ k ∧ k < i + remaining ∧ 1 ≤ k ∧
          rollup_stops ext zeta zeta_col uext_col normals u_steady options flightconditions
            ini k = true ∧
          (∀ j, 1 ≤ j → j < k →
            rollup_stops ext zeta zeta_col uext_col normals u_steady options flightconditions
              ini j = false) ∧
          rollup_check ext zeta zeta_col uext_col normals u_steady options flightconditions
            ini k = some final ∧
          rollup_loop ext zeta zeta_col uext_col normals u_steady options flightconditions
            remaining i ls = some final)
      ∨ ((∀ j, 1 ≤ j → j < i + remaining →
            rollup_stops ext zeta zeta_col uext_col normals u_steady options flightconditions
              ini j = false) ∧
          ∃ final,
            rollup_start ext zeta zeta_col uext_col normals u_steady options flightconditions
              ini (i + remaining) = some final ∧
            rollup_loop ext zeta zeta_col uext_col normals u_steady options flightconditions
              remaining i ls = some final) := by
  intro remaining
  induction remaining with
  | zero =>
    intro i ls hs hno
    exact Or.inr ⟨by simpa using hno, ls, by simpa using hs, rfl⟩
  | succ n ih =>
    intro i ls hs hno
    obtain ⟨ls1, hb⟩ := rollup_body_some ext zeta zeta_col uext_col normals u_steady options
      flightconditions hr i ls
    have hc : rollup_check ext zeta zeta_col uext_col normals u_steady options flightconditions
        ini i = some ls1 := by
      simp only [rollup_check, hs]
      exact hb
    have hnext := rollup_start_succ ext zeta zeta_col uext_col normals u_steady options
      flightconditions ini i _ hc
    have hstop := rollup_stops_eq ext zeta zeta_col uext_col normals u_steady options
      flightconditions ini i _ hc
    by_cases hi : i = 0
    · subst hi
      simp only [if_true] at hnext
      have hloop : rollup_loop ext zeta zeta_col uext_col normals u_steady options
          flightconditions (n + 1) 0 ls
          = rollup_loop ext zeta zeta_col uext_col normals u_steady options flightconditions
            n 1 ls1 := by
        simp only [rollup_loop, hb]
        simp
      rcases ih 1 _ hnext (by intro j h1 h2; omega) with
        ⟨k, final, hk1, hk2, hk3, hk4, hk5, hk6, hk7⟩ | ⟨hall, final, hf1, hf2⟩
      · exact Or.inl ⟨k, final, by omega, by omega, hk3, hk4, hk5, hk6, by rw [hloop]; exact hk7⟩
      · refine Or.inr ⟨fun j h1 h2 => hall j h1 (by omega), final, ?_, by rw [hloop]; exact hf2⟩
        rw [show 0 + (n + 1) = 1 + n by omega]
        exact hf1
    · simp only [if_neg hi] at hnext
      cases hconv : rollup_converged ext options ls1 with
      | true =>
        refine Or.inl ⟨i, ls1, le_refl _, by omega, by omega, ?_, hno, hc, ?_⟩
        · rw [hstop]; exact hconv
        · simp only [rollup_loop, hb]
          simp [hi, hconv]
      | false =>
        have hloop : rollup_loop ext zeta zeta_col uext_col normals u_steady options
            flightconditions (n + 1) i ls
            = rollup_loop ext zeta zeta_col uext_col normals u_steady options flightconditions
              n (i + 1) (rollup_retain ls1) := by
          simp only [rollup_loop, hb]
          simp [hi, hconv]
        have hno1 : ∀ j, 1 ≤ j → j < i + 1 →
            rollup_stops ext zeta zeta_col uext_col normals u_steady options flightconditions
              ini j = false := by
          intro j h1 h2
          by_cases hji : j = i
          · subst hji
            rw [hstop]; exact hconv
          · exact hno j h1 (by omega)
        rcases ih (i + 1) _ hnext hno1 with
          ⟨k, final, hk1, hk2, hk3, hk4, hk5, hk6, hk7⟩ | ⟨hall, final, hf1, hf2⟩
        · exact Or.inl ⟨k, final, by omega, by omega, hk3, hk4, hk5, hk6,
            by rw [hloop]; exact hk7⟩
        · refine Or.inr ⟨fun j h1 h2 => hall j h1 (by omega), final, ?_,
            by rw [hloop]; exact hf2⟩
          rw [show i + (n + 1) = i + 1 + n by omega]
          exact hf1

theorem rollup_start_trace (ini : RollupState K) :
    ∀ (i : Nat) (ls : RollupState K),
      rollup_start ext zeta zeta_col uext_col normals u_steady options flightconditions ini i
        = some ls →
      ls.st.trace = ini.st.trace ++ rollup_trace uext_col options i ∧
      ls.zeta_star_norm_first = ini.zeta_star_norm_first ∧
      ls.st.forces = ini.st.forces := by
  intro i
  induction i with
  | zero =>
    intro ls h
    simp only [rollup_start, Option.some.injEq] at h
    subst h
    simp [rollup_trace]
  | succ i ih =>
    intro ls h
    simp only [rollup_start] at h
    cases hs : rollup_start ext zeta zeta_col uext_col normals u_steady options flightconditions
        ini i with
    | none => simp [hs] at h
    | some l0 =>
      simp only [hs] at h
      cases hb : rollup_body ext zeta zeta_col uext_col normals u_steady options
          flightconditions i l0 with
      | none => simp [hb] at h
      | some l1 =>
        simp only [hb, Option.some.injEq] at h
        obtain ⟨t0, f0, g0⟩ := ih l0 hs
        have t1 := rollup_body_trace ext zeta zeta_col uext_col normals u_steady options
          flightconditions i l0 l1 hb
        obtain ⟨f1, -, -, g1⟩ := rollup_body_fields ext zeta zeta_col uext_col normals u_steady
          options flightconditions i l0 l1 hb
        subst h
        by_cases hi : i = 0
        · simp [hi, rollup_trace, t1, t0, f1, f0, g1, g0]
        · simp [hi, rollup_trace, rollup_retain, t1, t0, f1, f0, g1, g0]

theorem rollup_check_trace (ini : RollupState K) (i : Nat) (ls : RollupState K)
    (h : rollup_check ext zeta zeta_col uext_col normals u_steady options flightconditions
      ini i = some ls) :
    ls.st.trace = ini.st.trace ++ rollup_trace uext_col options (i + 1) ∧
    ls.zeta_star_norm_first = ini.zeta_star_norm_first ∧
    ls.st.forces = ini.st.forces := by
  unfold rollup_check at h
  cases hs : rollup_start ext zeta zeta_col uext_col normals u_steady options flightconditions
      ini i with
  | none => simp [hs] at h
  | some l0 =>
    simp only [hs] at h
    obtain ⟨t0, f0, g0⟩ := rollup_start_trace ext zeta zeta_col uext_col normals u_steady options
      flightconditions ini i l0 hs
    have t1 := rollup_body_trace ext zeta zeta_col uext_col normals u_steady options
      flightconditions i l0 ls h
    obtain ⟨f1, -, -, g1⟩ := rollup_body_fields ext zeta zeta_col uext_col normals u_steady
      options flightconditions i l0 ls h
    simp [rollup_trace, t1, t0, f1, f0, g1, g0]

theorem iterations_run_append (a b : List Event) :
    iterations_run (a ++ b) = iterations_run a + iterations_run b := by
  simp [iterations_run, List.countP_append]

theorem iterations_run_rollup_events (i : Nat) :
    iterations_run (rollup_events uext_col options i) = 1 := by
  unfold rollup_events
  split <;> simp [iterations_run, solve_discretised_events, List.countP_cons]

theorem iterations_run_rollup_trace (k : Nat) :
    iterations_run (rollup_trace uext_col options k) = k := by
  induction k with
  | zero => simp [rollup_trace, iterations_run]
  | succ k ih =>
    rw [rollup_trace, iterations_run_append, ih, iterations_run_rollup_events]

theorem count_forces_rollup_trace (k : Nat) :
    (rollup_trace uext_col options k).count Event.calculate_static_forces = 0 := by
  induction k with
  | zero => simp [rollup_trace]
  | succ k ih =>
    rw [rollup_trace, List.count_append, ih]
    unfold rollup_events
    split <;> simp [solve_discretised_events, List.count_cons]

theorem rollup_stops_true_iff (ini : RollupState K) (i : Nat) :
    rollup_stops ext zeta zeta_col uext_col normals u_steady options flightconditions ini i = true
      ↔ ∃ eps, rollup_eps_at ext zeta zeta_col uext_col normals u_steady options
          flightconditions ini i = some eps ∧ eps < options.rollup_tolerance := by
  unfold rollup_stops
  cases rollup_eps_at ext zeta zeta_col uext_col normals u_steady options flightconditions ini i
    <;> simp

theorem rollup_stops_false_iff (ini : RollupState K) (i : Nat) :
    rollup_stops ext zeta zeta_col uext_col normals u_steady options flightconditions ini i
        = false
      ↔ ∀ eps, rollup_eps_at ext zeta zeta_col uext_col normals u_steady options
          flightconditions ini i = some eps → ¬ eps < options.rollup_tolerance := by
  unfold rollup_stops
  cases rollup_eps_at ext zeta zeta_col uext_col normals u_steady options flightconditions ini i
    <;> simp

theorem rollup_eps_at_some (hr : options.rollup_aic_refresh ≠ 0) (ini : RollupState K)
    (i : Nat) :
    ∃ eps, rollup_eps_at ext zeta zeta_col uext_col normals u_steady options flightconditions
      ini i = some eps := by
  obtain ⟨ls, hls⟩ := rollup_check_some ext zeta zeta_col uext_col normals u_steady options
    flightconditions hr ini i
  refine ⟨rollup_eps ext ls.st.zeta_star ls.zeta_star_previous ls.zeta_star_norm_first, ?_⟩
  simp only [rollup_eps_at, hls]

theorem solver_eq_of_loop (zeta_dot uext : VecVecMatrixX K) (st : State K)
    (h : options.horseshoe = false) (final : RollupState K)
    (hl : rollup_loop ext zeta
      (solver_horseshoe_stage ext zeta uext st options flightconditions).1
      (solver_horseshoe_stage ext zeta uext st options flightconditions).2.1
      (solver_horseshoe_stage ext zeta uext st options flightconditions).2.2.1
      (rollup_init ext uext options
        (solver_horseshoe_stage ext zeta uext st options flightconditions).2.2.2).1
      options flightconditions options.n_rollup 0
      (rollup_init ext uext options
        (solver_horseshoe_stage ext zeta uext st options flightconditions).2.2.2).2
      = some final) :
    solver ext zeta zeta_dot uext st options flightconditions
      = some (static_forces ext zeta uext options flightconditions final.st) := by
  simp only [solver, h, hl]
  simp

theorem rollup_init_trace (uext : VecVecMatrixX K) (st : State K) :
    (rollup_init ext uext options st).2.st.trace = st.trace ++ [Event.to_discretised] := by
  unfold rollup_init
  split <;> rfl

theorem horseshoe_stage_count_forces (uext : VecVecMatrixX K) (st : State K) :
    (solver_horseshoe_stage ext zeta uext st options flightconditions).2.2.2.trace.count
        Event.calculate_static_forces
      = st.trace.count Event.calculate_static_forces := by
  simp [solver_horseshoe_stage, solve_horseshoe, List.count_append, List.count_cons]

theorem forLoop_invariant {σ : Type} (P : σ → Prop) (n : Nat) (body : Nat → σ → σ) (s : σ)
    (h0 : P s) (hstep : ∀ i s, i < n → P s → P (body i s)) : P (forLoop n body s) := by
  induction n with
  | zero => exact h0
  | succ n ih =>
    exact hstep n _ (Nat.lt_succ_self n) (ih (fun i s hi hs => hstep i s (Nat.lt_succ_of_lt hi) hs))

theorem norm_VecVec_mat_nonneg (norm : MatrixX K → K) (hnorm : ∀ m, 0 ≤ norm m)
    (mat : VecVecMatrixX K) : 0 ≤ norm_VecVec_mat norm mat := by
  unfold norm_VecVec_mat
  apply forLoop_invariant (fun acc : K => 0 ≤ acc)
  · exact le_refl 0
  · intro i acc _ hacc
    apply forLoop_invariant (fun acc : K => 0 ≤ acc)
    · exact hacc
    · intro j acc _ hacc
      exact add_nonneg hacc (hnorm _)

theorem rollup_init_first_nonneg (hnorm : ∀ m, 0 ≤ ext.norm m) (uext : VecVecMatrixX K)
    (st : State K) : 0 ≤ (rollup_init ext uext options st).2.zeta_star_norm_first := by
  unfold rollup_init
  split
  · exact norm_VecVec_mat_nonneg ext.norm hnorm _
  · exact le_refl 0

theorem rollup_eps_not_lt_zero (zeta_star zeta_star_previous : VecVecMatrixX K) (first : K)
    (hfirst : 0 ≤ first) : ¬ rollup_eps ext zeta_star zeta_star_previous first < 0 := by
  unfold rollup_eps
  split
  · exact not_top_lt
  · rw [← WithTop.coe_zero, WithTop.coe_lt_coe]
    exact not_lt.mpr (div_nonneg (abs_nonneg _) hfirst)

theorem rollup_eps_lt_top (zeta_star zeta_star_previous : VecVecMatrixX K) (first : K)
    (hfirst : first ≠ 0) : rollup_eps ext zeta_star zeta_star_previous first < ⊤ := by
  unfold rollup_eps
  rw [if_neg hfirst]
  exact WithTop.coe_lt_top _

theorem rollup_eps_at_eq (ini : RollupState K) (i : Nat) (e : WithTop K)
    (h : rollup_eps_at ext zeta zeta_col uext_col normals u_steady options flightconditions
      ini i = some e) :
    ∃ ls, rollup_check ext zeta zeta_col uext_col normals u_steady options flightconditions
        ini i = some ls ∧
      e = rollup_eps ext ls.st.zeta_star ls.zeta_star_previous ini.zeta_star_norm_first := by
  unfold rollup_eps_at at h
  cases hc : rollup_check ext zeta zeta_col uext_col normals u_steady options flightconditions
      ini i with
  | none => simp [hc] at h
  | some ls =>
    simp only [hc, Option.some.injEq] at h
    obtain ⟨-, hf, -⟩ := rollup_check_trace ext zeta zeta_col uext_col normals u_steady options
      flightconditions ini i ls hc
    exact ⟨ls, rfl, by rw [← h, hf]⟩

theorem rollup_events_iteration (i j : Nat)
    (h : Event.rollup_iteration j ∈ rollup_events uext_col options i) : j = i := by
  unfold rollup_events at h
  split at h <;> simpa [solve_discretised_events] using h

theorem demo_norm_nonneg (m : MatrixX ℚ) : 0 ≤ demo_ext.norm m := by
  show 0 ≤ demo_norm m
  unfold demo_norm
  apply forLoop_invariant (fun acc : ℚ => 0 ≤ acc)
  · exact le_refl 0
  · intro i acc _ hacc
    apply forLoop_invariant (fun acc : ℚ => 0 ≤ acc)
    · exact hacc
    · intro j acc _ hacc
      exact add_nonneg hacc (abs_nonneg _)

theorem rollup_check_inv (ini : RollupState K) (i : Nat) (final : RollupState K)
    (h : rollup_check ext zeta zeta_col uext_col normals u_steady options flightconditions
      ini i = some final) :
    ∃ l0, rollup_start ext zeta zeta_col uext_col normals u_steady options flightconditions
        ini i = some l0 ∧
      rollup_body ext zeta zeta_col uext_col normals u_steady options flightconditions i l0
        = some final := by
  unfold rollup_check at h
  cases hs : rollup_start ext zeta zeta_col uext_col normals u_steady options flightconditions
      ini i with
  | none => simp [hs] at h
  | some l0 =>
    simp only [hs] at h
    exact ⟨l0, rfl, h⟩

theorem to_uint_natCast (n : Nat) : to_uint (n : Int) = n % UINT_RANGE := by
  simp only [to_uint, UINT_RANGE]
  omega

theorem Ktotal_loop_eq (uext_col : VecVecMatrixX K) (n : Nat) :
    forLoop n (fun i_surf ii =>
        (ii + (to_uint (at2 uext_col i_surf 0).rows * to_uint (at2 uext_col i_surf 0).cols)
          % UINT_RANGE) % UINT_RANGE) 0
      = (Finset.sum (Finset.range n)
          (fun i => (at2 uext_col i 0).rows * (at2 uext_col i 0).cols)) % UINT_RANGE := by
  induction n with
  | zero => simp [forLoop]
  | succ n ih =>
    rw [forLoop, ih, Finset.sum_range_succ, to_uint_natCast, to_uint_natCast,
      ← Nat.mul_mod, ← Nat.add_mod]

theorem sum_range_getD_eq_take {α : Type} (g : α → Nat) (d : α) :
    ∀ (l : List α) (n : Nat), n ≤ l.length →
      Finset.sum (Finset.range n) (fun i => g (l.getD i d)) = ((l.take n).map g).sum := by
  intro l
  induction l with
  | nil =>
    intro n hn
    have : n = 0 := by simpa using hn
    subst this
    simp
  | cons a t ih =>
    intro n hn
    cases n with
    | zero => simp
    | succ m =>
      rw [Finset.sum_range_succ']
      have hm : m ≤ t.length := by simpa using hn
      simp only [List.getD_cons_succ, List.getD_cons_zero, List.take_succ_cons, List.map_cons,
        List.sum_cons]
      rw [ih m hm, Nat.add_comm]

end lemmas

/-! ## Lemmas on loops over the elements of a container -/

section containers

open Types

set_option linter.unusedSectionVars false

variable {K : Type} [LinearOrderedField K]

theorem getD_set_eq {α : Type} (l : List α) (i : Nat) (a d : α) (h : i < l.length) :
    (l.set i a).getD i d = a := by
  simp [List.getD_eq_getElem?_getD, List.getElem?_set, h]

theorem getD_set_ne {α : Type} (l : List α) (i j : Nat) (a d : α) (h : i ≠ j) :
    (l.set i a).getD j d = l.getD j d := by
  simp [List.getD_eq_getElem?_getD, List.getElem?_set, h]

theorem set_of_length_le {α : Type} (l : List α) (i : Nat) (a : α) (h : l.length ≤ i) :
    l.set i a = l := by
  apply List.ext_getElem?
  intro j
  rw [List.getElem?_set]
  split
  · next hij =>
    subst hij
    rw [if_neg (by omega)]
    exact (List.getElem?_eq_none h).symm
  · rfl

theorem set_set_same {α : Type} (l : List α) (i : Nat) (a b : α) :
    (l.set i a).set i b = l.set i b := by
  simp

theorem forLoop_set_length {α : Type} (F : Nat → List α → α) (n : Nat) (l : List α) :
    (forLoop n (fun i l => l.set i (F i l)) l).length = l.length := by
  induction n with
  | zero => rfl
  | succ n ih => simp [forLoop, ih]

/-- A loop whose iteration `i` rewrites element `i` from its old value: element `j` of the
result. -/
theorem forLoop_set_getD {α : Type} (F : Nat → α → α) (d : α) (n : Nat) (l : List α) (j : Nat) :
    (forLoop n (fun i l => l.set i (F i (l.getD i d))) l).getD j d
      = if j < n ∧ j < l.length then F j (l.getD j d) else l.getD j d := by
  induction n with
  | zero => simp [forLoop]
  | succ n ih =>
    have hlen := forLoop_set_length (fun i l => F i (l.getD i d)) n l
    simp only [forLoop]
    by_cases hjn : j = n
    · subst hjn
      rw [if_neg (by omega)] at ih
      by_cases hjl : j < l.length
      · rw [getD_set_eq _ _ _ _ (by rw [hlen]; exact hjl), ih, if_pos ⟨by omega, hjl⟩]
      · rw [set_of_length_le _ _ _ (by rw [hlen]; omega), ih, if_neg (by omega)]
    · rw [getD_set_ne _ _ _ _ _ (Ne.symm hjn), ih]
      by_cases hc : j < n ∧ j < l.length
      · rw [if_pos hc, if_pos ⟨by omega, hc.2⟩]
      · rw [if_neg hc, if_neg (by omega)]

/-- A loop all of whose iterations rewrite the same element `i`. -/
theorem forLoop_set_fixed {α : Type} (G : Nat → α → α) (d : α) (i : Nat) (n : Nat)
    (l : List α) :
    forLoop n (fun k l => l.set i (G k (l.getD i d))) l
      = l.set i (forLoop n G (l.getD i d)) := by
  by_cases hi : i < l.length
  · induction n with
    | zero =>
      simp only [forLoop]
      apply List.ext_getElem?
      intro j
      rw [List.getElem?_set]
      split
      · next hij =>
        subst hij
        simp [List.getD_eq_getElem?_getD, List.getElem?_eq_getElem hi]
      · rfl
    | succ n ih =>
      simp only [forLoop]
      rw [ih, getD_set_eq _ _ _ _ hi, set_set_same]
  · have hall : ∀ m, forLoop m (fun k l => l.set i (G k (l.getD i d))) l = l := by
      intro m
      induction m with
      | zero => rfl
      | succ m ih =>
        simp only [forLoop]
        rw [ih, set_of_length_le _ _ _ (by omega)]
    rw [hall, set_of_length_le _ _ _ (by omega)]

theorem set2_set (mat : VecVecMatrixX K) (i i_dim : Nat) (A : List (MatrixX K))
    (m : MatrixX K) :
    set2 (mat.set i A) i i_dim m = mat.set i (A.set i_dim m) := by
  unfold set2
  by_cases hi : i < mat.length
  · rw [getD_set_eq _ _ _ _ hi, set_set_same]
  · rw [set_of_length_le mat i A (by omega), set_of_length_le mat i _ (by omega),
      set_of_length_le mat i _ (by omega)]

theorem resize_length {α : Type} [Inhabited α] (n : Nat) (l : List α) :
    (resize n l).length = n := by
  simp only [resize, List.length_append, List.length_take, List.length_replicate]
  omega

theorem resize_nil_getD {α : Type} [Inhabited α] (n i : Nat) :
    (resize n ([] : List α)).getD i default = default := by
  simp only [resize, List.take_nil, List.nil_append, List.length_nil, Nat.sub_zero]
  rw [List.getD_eq_getElem?_getD]
  by_cases hi : i < n
  · rw [List.getElem?_eq_getElem (by simpa using hi)]
    simp
  · rw [List.getElem?_eq_none (by simpa using hi)]
    rfl

theorem allocate_VecVecMat_eq (mat : VecVecMatrixX K) (n_dim : Nat) (dimensions : VecDimensions)
    (correction : Int) :
    allocate_VecVecMat mat n_dim dimensions correction
      = forLoop dimensions.length (fun i_surf mat =>
          mat.set i_surf (allocated_surface n_dim
            (to_int (to_uint ((dimensions.getD i_surf (0, 0)).1 + correction))).toNat
            (to_int (to_uint ((dimensions.getD i_surf (0, 0)).2 + correction))).toNat
            (mat.getD i_surf []))) (resize dimensions.length mat) := by
  simp only [allocate_VecVecMat]
  congr 1
  funext i_surf mat
  have hinner : ∀ (Z : MatrixX K) (m1 : VecVecMatrixX K),
      forLoop n_dim (fun i_dim mat =>
          set2 (mat.set i_surf (mat.getD i_surf [] ++ [default])) i_surf i_dim Z) m1
        = m1.set i_surf (forLoop n_dim (fun i_dim surf => (surf ++ [default]).set i_dim Z)
            (m1.getD i_surf [])) := by
    intro Z m1
    rw [← forLoop_set_fixed (fun i_dim surf => (surf ++ [default]).set i_dim Z) [] i_surf n_dim m1]
    congr 1
    funext i_dim m2
    exact set2_set m2 i_surf i_dim _ Z
  rw [hinner]
  unfold allocated_surface
  by_cases hi : i_surf < mat.length
  · rw [getD_set_eq _ _ _ _ hi, set_set_same]
  · rw [set_of_length_le mat i_surf _ (by omega), set_of_length_le mat i_surf _ (by omega),
      set_of_length_le mat i_surf _ (by omega)]

theorem allocate_VecVecMat_length (mat : VecVecMatrixX K) (n_dim : Nat)
    (dimensions : VecDimensions) (correction : Int) :
    (allocate_VecVecMat mat n_dim dimensions correction).length = dimensions.length := by
  rw [allocate_VecVecMat_eq, forLoop_set_length (fun i_surf mat => allocated_surface n_dim
    (to_int (to_uint ((dimensions.getD i_surf (0, 0)).1 + correction))).toNat
    (to_int (to_uint ((dimensions.getD i_surf (0, 0)).2 + correction))).toNat
    (mat.getD i_surf [])), resize_length]

theorem allocate_VecVecMat_getD (mat : VecVecMatrixX K) (n_dim : Nat)
    (dimensions : VecDimensions) (correction : Int) (i : Nat) (hi : i < dimensions.length) :
    (allocate_VecVecMat mat n_dim dimensions correction).getD i []
      = allocated_surface n_dim
          (to_int (to_uint ((dimensions.getD i (0, 0)).1 + correction))).toNat
          (to_int (to_uint ((dimensions.getD i (0, 0)).2 + correction))).toNat
          ((resize dimensions.length mat).getD i []) := by
  rw [allocate_VecVecMat_eq, forLoop_set_getD (fun i_surf surf => allocated_surface n_dim
    (to_int (to_uint ((dimensions.getD i_surf (0, 0)).1 + correction))).toNat
    (to_int (to_uint ((dimensions.getD i_surf (0, 0)).2 + correction))).toNat surf),
    if_pos ⟨hi, by rw [resize_length]; exact hi⟩]

theorem BilinearMapping_length (inp out : List (MatrixX K)) :
    (Mapping.BilinearMapping inp out).length = out.length := by
  unfold Mapping.BilinearMapping
  apply forLoop_invariant (fun l : List (MatrixX K) => l.length = out.length)
  · rfl
  · intro i l _ hl
    simpa using hl

theorem BilinearMapping_sizes (inp out : List (MatrixX K)) (j : Nat) :
    ((Mapping.BilinearMapping inp out).getD j default).rows = (out.getD j default).rows ∧
    ((Mapping.BilinearMapping inp out).getD j default).cols = (out.getD j default).cols := by
  have h := forLoop_set_getD (fun (i_dim : Nat) (dst : MatrixX K) =>
    (⟨dst.rows, dst.cols, fun i j =>
      if i < dst.rows ∧ j < dst.cols then
        ((inp.getD i_dim default).coeff i j + (inp.getD i_dim default).coeff (i + 1) j
          + (inp.getD i_dim default).coeff i (j + 1)
          + (inp.getD i_dim default).coeff (i + 1) (j + 1)) / 4
      else dst.coeff i j⟩ : MatrixX K)) default inp.length out j
  have heq : Mapping.BilinearMapping inp out
      = forLoop inp.length (fun i l => l.set i ((fun (i_dim : Nat) (dst : MatrixX K) =>
    (⟨dst.rows, dst.cols, fun i j =>
      if i < dst.rows ∧ j < dst.cols then
        ((inp.getD i_dim default).coeff i j + (inp.getD i_dim default).coeff (i + 1) j
          + (inp.getD i_dim default).coeff i (j + 1)
          + (inp.getD i_dim default).coeff (i + 1) (j + 1)) / 4
      else dst.coeff i j⟩ : MatrixX K)) i (l.getD i default))) out := rfl
  rw [heq, h]
  split <;> exact ⟨rfl, rfl⟩

theorem to_int_to_uint_pred (m : Nat) (hm : m < 2 ^ 31) :
    (to_int (to_uint (((to_uint ((m + 1 : Nat) : Int) : Nat) : Int) + (-1)))).toNat = m := by
  have h1 : to_uint ((m + 1 : Nat) : Int) = m + 1 := by
    rw [to_uint_natCast]
    simp only [UINT_RANGE]
    omega
  rw [h1]
  have h2 : to_uint (((m + 1 : Nat) : Int) + (-1)) = m := by
    simp only [to_uint, UINT_RANGE]
    omega
  rw [h2]
  simp only [to_int, UINT_RANGE]
  split <;> omega

theorem allocated_surface_first (M N : Nat) :
    ((allocated_surface Constants.NDIM M N ([] : List (MatrixX K))).getD 0 default).rows = M ∧
    ((allocated_surface Constants.NDIM M N ([] : List (MatrixX K))).getD 0 default).cols = N := by
  simp [allocated_surface, Constants.NDIM, forLoop, resize, MatrixX.Zero]

/-- The sizes `generate_colocationMesh` gives, from an empty output container, to the
first grid of each surface, and the number of surfaces. -/
theorem generate_colocationMesh_sizes (vortex_mesh : VecVecMatrixX K) :
    (Solver.generate_colocationMesh vortex_mesh []).length = vortex_mesh.length ∧
    ∀ i, i < vortex_mesh.length →
      (at2 (Solver.generate_colocationMesh vortex_mesh []) i 0).rows
        = (to_int (to_uint (((to_uint (at2 vortex_mesh i 0).rows : Nat) : Int) + (-1)))).toNat ∧
      (at2 (Solver.generate_colocationMesh vortex_mesh []) i 0).cols
        = (to_int (to_uint (((to_uint (at2 vortex_mesh i 0).cols : Nat) : Int) + (-1)))).toNat := by
  have hdl : ∀ (l : VecDimensions), (forLoop l.length (fun i_surf (dimensions : VecDimensions) =>
      dimensions.set i_surf
        (to_uint (at2 vortex_mesh i_surf 0).rows, to_uint (at2 vortex_mesh i_surf 0).cols))
      l).length = l.length := fun l =>
    forLoop_set_length (fun i_surf (_ : VecDimensions) =>
      (to_uint (at2 vortex_mesh i_surf 0).rows, to_uint (at2 vortex_mesh i_surf 0).cols)) _ l
  have hdg : ∀ (l : VecDimensions) (i : Nat), i < l.length →
      (forLoop l.length (fun i_surf (dimensions : VecDimensions) =>
        dimensions.set i_surf
          (to_uint (at2 vortex_mesh i_surf 0).rows, to_uint (at2 vortex_mesh i_surf 0).cols))
        l).getD i (0, 0)
      = (to_uint (at2 vortex_mesh i 0).rows, to_uint (at2 vortex_mesh i 0).cols) := by
    intro l i hi
    have h := forLoop_set_getD (fun i_surf (_ : IntPair) =>
      (to_uint (at2 vortex_mesh i_surf 0).rows, to_uint (at2 vortex_mesh i_surf 0).cols))
      (0, 0) l.length l i
    rw [if_pos ⟨hi, hi⟩] at h
    exact h
  have hrl : (resize vortex_mesh.length ([] : VecDimensions)).length = vortex_mesh.length :=
    resize_length _ _
  simp only [Solver.generate_colocationMesh, List.isEmpty_nil, if_true]
  rw [hdl, hrl]
  have hlen : (forLoop vortex_mesh.length (fun i_surf (collocation_mesh : VecVecMatrixX K) =>
      collocation_mesh.set i_surf
        (Mapping.BilinearMapping (vortex_mesh.getD i_surf []) (collocation_mesh.getD i_surf [])))
      (allocate_VecVecMat [] Constants.NDIM
        (forLoop vortex_mesh.length (fun i_surf (dimensions : VecDimensions) =>
          dimensions.set i_surf
            (to_uint (at2 vortex_mesh i_surf 0).rows, to_uint (at2 vortex_mesh i_surf 0).cols))
          (resize vortex_mesh.length [])) (-1))).length = vortex_mesh.length := by
    rw [forLoop_set_length (fun i_surf (collocation_mesh : VecVecMatrixX K) =>
      Mapping.BilinearMapping (vortex_mesh.getD i_surf []) (collocation_mesh.getD i_surf [])),
      allocate_VecVecMat_length]
    have := hdl (resize vortex_mesh.length ([] : VecDimensions))
    rw [hrl] at this
    exact this
  refine ⟨hlen, ?_⟩
  intro i hi
  have hd1 := hdl (resize vortex_mesh.length ([] : VecDimensions))
  rw [hrl] at hd1
  have hd2 := hdg (resize vortex_mesh.length ([] : VecDimensions)) i (by rw [hrl]; exact hi)
  rw [hrl] at hd2
  have hget := forLoop_set_getD (fun i_surf (surf : List (MatrixX K)) =>
      Mapping.BilinearMapping (vortex_mesh.getD i_surf []) surf) [] vortex_mesh.length
    (allocate_VecVecMat [] Constants.NDIM
        (forLoop vortex_mesh.length (fun i_surf (dimensions : VecDimensions) =>
          dimensions.set i_surf
            (to_uint (at2 vortex_mesh i_surf 0).rows, to_uint (at2 vortex_mesh i_surf 0).cols))
          (resize vortex_mesh.length [])) (-1)) i
  rw [if_pos ⟨hi, by rw [allocate_VecVecMat_length, hd1]; exact hi⟩,
    allocate_VecVecMat_getD _ _ _ _ i (by rw [hd1]; exact hi), hd2, hd1] at hget
  have hnil : (resize vortex_mesh.length ([] : VecVecMatrixX K)).getD i [] = [] :=
    resize_nil_getD vortex_mesh.length i
  rw [hnil] at hget
  have hat : ∀ X : VecVecMatrixX K, at2 X i 0 = (X.getD i []).getD 0 default := fun _ => rfl
  rw [hat (forLoop _ _ _), hget]
  have hb := BilinearMapping_sizes (vortex_mesh.getD i [])
    (allocated_surface Constants.NDIM
      (to_int (to_uint (((to_uint (at2 vortex_mesh i 0).rows : Nat) : Int) + (-1)))).toNat
      (to_int (to_uint (((to_uint (at2 vortex_mesh i 0).cols : Nat) : Int) + (-1)))).toNat
      ([] : List (MatrixX K))) 0
  have ha := allocated_surface_first (K := K)
    (to_int (to_uint (((to_uint (at2 vortex_mesh i 0).rows : Nat) : Int) + (-1)))).toNat
    (to_int (to_uint (((to_uint (at2 vortex_mesh i 0).cols : Nat) : Int) + (-1)))).toNat
  exact ⟨hb.1.trans ha.1, hb.2.trans ha.2⟩

theorem map_set_same {α β : Type} (f : α → β) (l : List α) (i : Nat) (a d : α)
    (h : f a = f (l.getD i d)) : (l.set i a).map f = l.map f := by
  by_cases hi : i < l.length
  · rw [List.map_set]
    apply List.ext_getElem?
    intro j
    rw [List.getElem?_set]
    split
    · next hij =>
      subst hij
      rw [h]
      simp [hi, List.getD_eq_getElem?_getD, List.getElem?_eq_getElem hi]
    · rfl
  · rw [set_of_length_le l i a (by omega)]

theorem shape_set2 (mat : VecVecMatrixX K) (i_surf i_dim : Nat) (m : MatrixX K)
    (hrows : m.rows = (at2 mat i_surf i_dim).rows)
    (hcols : m.cols = (at2 mat i_surf i_dim).cols) :
    shape_VecVecMat (set2 mat i_surf i_dim m) = shape_VecVecMat mat := by
  unfold shape_VecVecMat set2
  apply map_set_same _ _ _ _ []
  apply map_set_same _ _ _ _ default
  unfold at2 at hrows hcols
  rw [hrows, hcols]

theorem trailing_edge_rewrite_shape (zeta zeta_star : VecVecMatrixX K) :
    shape_VecVecMat (trailing_edge_rewrite zeta zeta_star) = shape_VecVecMat zeta_star := by
  unfold trailing_edge_rewrite
  apply forLoop_invariant (fun zs : VecVecMatrixX K =>
    shape_VecVecMat zs = shape_VecVecMat zeta_star)
  · rfl
  · intro i_surf zs _ hzs
    apply forLoop_invariant (fun zs : VecVecMatrixX K =>
      shape_VecVecMat zs = shape_VecVecMat zeta_star)
    · exact hzs
    · intro i_dim zs _ hzs
      rw [shape_set2 zs i_surf i_dim
        ((at2 zs i_surf i_dim).assign_topRows_bottomRows (at2 zeta i_surf i_dim)) rfl rfl]
      exact hzs

theorem circulation_transfer_shape (gamma gamma_star : VecMatrixX K) (in_n_rows : Int) :
    shape_VecMat (Wake.Horseshoe.circulation_transfer gamma gamma_star in_n_rows)
      = shape_VecMat gamma_star := by
  unfold Wake.Horseshoe.circulation_transfer
  apply forLoop_invariant (fun gs : VecMatrixX K => shape_VecMat gs = shape_VecMat gamma_star)
  · rfl
  · intro i_surf gs _ hgs
    rw [← hgs]
    unfold shape_VecMat
    exact map_set_same _ _ _ _ default rfl

theorem rollup_body_shape (ext : Externals K) (zeta zeta_col uext_col normals : VecVecMatrixX K)
    (u_steady : Vector3 K) (options : VMopts K) (flightconditions : FlightConditions K)
    (hconvect : ∀ zs u dt, shape_VecVecMat (ext.convect zs u dt) = shape_VecVecMat zs)
    (hdisplace : ∀ zs, shape_VecVecMat (ext.displace_VecVecMat zs) = shape_VecVecMat zs)
    (hdisplace_gamma : ∀ gs, shape_VecMat (ext.displace_VecMat gs) = shape_VecMat gs)
    (i : Nat) (ls ls1 : RollupState K)
    (h : rollup_body ext zeta zeta_col uext_col normals u_steady options flightconditions i ls
      = some ls1) :
    shape_VecVecMat ls1.st.zeta_star = shape_VecVecMat ls.st.zeta_star ∧
    shape_VecMat ls1.st.gamma_star = shape_VecMat ls.st.gamma_star := by
  have hz : shape_VecVecMat (rollup_convect ext zeta u_steady options i ls.st).zeta_star
      = shape_VecVecMat ls.st.zeta_star := by
    simp only [rollup_convect]
    rw [trailing_edge_rewrite_shape, hdisplace, hconvect]
  have hg : shape_VecMat (rollup_convect ext zeta u_steady options i ls.st).gamma_star
      = shape_VecMat ls.st.gamma_star := by
    simp only [rollup_convect]
    rw [hdisplace_gamma]
  unfold rollup_body rollup_refresh at h
  by_cases hr : options.rollup_aic_refresh = 0
  · simp [hr] at h
  · by_cases hi : i % options.rollup_aic_refresh = 0
    · simp only [hr, hi, if_true, if_false] at h
      injection h with h
      subst h
      refine ⟨hz, ?_⟩
      simp only [solve_discretised]
      rw [circulation_transfer_shape, hg]
    · simp only [hr, hi, if_false] at h
      injection h with h
      subst h
      exact ⟨hz, hg⟩

theorem rollup_loop_shape (ext : Externals K) (zeta zeta_col uext_col normals : VecVecMatrixX K)
    (u_steady : Vector3 K) (options : VMopts K) (flightconditions : FlightConditions K)
    (hconvect : ∀ zs u dt, shape_VecVecMat (ext.convect zs u dt) = shape_VecVecMat zs)
    (hdisplace : ∀ zs, shape_VecVecMat (ext.displace_VecVecMat zs) = shape_VecVecMat zs)
    (hdisplace_gamma : ∀ gs, shape_VecMat (ext.displace_VecMat gs) = shape_VecMat gs)
    (hr : options.rollup_aic_refresh ≠ 0) :
    ∀ (remaining i : Nat) (ls : RollupState K),
      ∃ final, rollup_loop ext zeta zeta_col uext_col normals u_steady options flightconditions
          remaining i ls = some final ∧
        shape_VecVecMat final.st.zeta_star = shape_VecVecMat ls.st.zeta_star ∧
        shape_VecMat final.st.gamma_star = shape_VecMat ls.st.gamma_star := by
  intro remaining
  induction remaining with
  | zero =>
    intro i ls
    exact ⟨ls, rfl, rfl, rfl⟩
  | succ n ih =>
    intro i ls
    obtain ⟨ls1, hb⟩ := rollup_body_some ext zeta zeta_col uext_col normals u_steady options
      flightconditions hr i ls
    obtain ⟨hz, hg⟩ := rollup_body_shape ext zeta zeta_col uext_col normals u_steady options
      flightconditions hconvect hdisplace hdisplace_gamma i ls ls1 hb
    simp only [rollup_loop, hb]
    by_cases hi : i = 0
    · obtain ⟨final, hf, fz, fg⟩ := ih (i + 1) ls1
      refine ⟨final, ?_, fz.trans hz, fg.trans hg⟩
      simp only [hi, ne_eq, not_true_eq_false, if_false]
      rw [hi] at hf
      exact hf
    · cases hconv : rollup_converged ext options ls1 with
      | true =>
        refine ⟨ls1, ?_, hz, hg⟩
        simp [hi]
      | false =>
        obtain ⟨final, hf, fz, fg⟩ := ih (i + 1) (rollup_retain ls1)
        refine ⟨final, ?_, fz.trans hz, fg.trans hg⟩
        simp only [ne_eq, hi, not_false_eq_true, if_true]
        simpa using hf

theorem trailing_edge_rewrite_eq (zeta zeta_star : VecVecMatrixX K) :
    trailing_edge_rewrite zeta zeta_star
      = forLoop zeta.length (fun i_surf zs =>
          zs.set i_surf (forLoop Constants.NDIM (fun i_dim surf =>
            surf.set i_dim
              ((surf.getD i_dim default).assign_topRows_bottomRows (at2 zeta i_surf i_dim)))
            (zs.getD i_surf []))) zeta_star := by
  unfold trailing_edge_rewrite
  congr 1
  funext i_surf zs
  exact forLoop_set_fixed (fun i_dim (surf : List (MatrixX K)) =>
    surf.set i_dim
      ((surf.getD i_dim default).assign_topRows_bottomRows (at2 zeta i_surf i_dim)))
    [] i_surf Constants.NDIM zs

theorem trailing_edge_rewrite_surface_length (zeta zeta_star : VecVecMatrixX K) (s : Nat) :
    ((trailing_edge_rewrite zeta zeta_star).getD s []).length
      = (zeta_star.getD s []).length := by
  rw [trailing_edge_rewrite_eq, forLoop_set_getD (fun i_surf (surf0 : List (MatrixX K)) =>
    forLoop Constants.NDIM (fun i_dim surf =>
      surf.set i_dim
        ((surf.getD i_dim default).assign_topRows_bottomRows (at2 zeta i_surf i_dim))) surf0)]
  split
  · exact forLoop_set_length (fun i_dim (surf : List (MatrixX K)) =>
      (surf.getD i_dim default).assign_topRows_bottomRows (at2 zeta s i_dim)) _ _
  · rfl

/-- After the row rewrite, every grid `(s, d)` of the wake with `s < zeta.size()` and
`d < NDIM` is its old value with row 0 replaced by the last row of `zeta[s][d]`. -/
theorem trailing_edge_rewrite_at2 (zeta zeta_star : VecVecMatrixX K) (s d : Nat)
    (hs : s < zeta.length) (hd : d < Constants.NDIM)
    (hgrid : d < (zeta_star.getD s []).length) :
    at2 (trailing_edge_rewrite zeta zeta_star) s d
      = (at2 zeta_star s d).assign_topRows_bottomRows (at2 zeta s d) := by
  have hslen : s < zeta_star.length := by
    by_contra hc
    rw [List.getD_eq_getElem?_getD, List.getElem?_eq_none (by omega)] at hgrid
    simp at hgrid
  unfold at2
  rw [trailing_edge_rewrite_eq, forLoop_set_getD (fun i_surf (surf0 : List (MatrixX K)) =>
    forLoop Constants.NDIM (fun i_dim surf =>
      surf.set i_dim
        ((surf.getD i_dim default).assign_topRows_bottomRows (at2 zeta i_surf i_dim))) surf0),
    if_pos ⟨hs, hslen⟩,
    forLoop_set_getD (fun i_dim (m : MatrixX K) =>
      m.assign_topRows_bottomRows (at2 zeta s i_dim)) default,
    if_pos ⟨hd, hgrid⟩]
  rfl

theorem rollup_body_first_row (ext : Externals K)
    (zeta zeta_col uext_col normals : VecVecMatrixX K) (u_steady : Vector3 K)
    (options : VMopts K) (flightconditions : FlightConditions K)
    (i : Nat) (ls ls1 : RollupState K)
    (h : rollup_body ext zeta zeta_col uext_col normals u_steady options flightconditions i ls
      = some ls1)
    (s d : Nat) (hs : s < zeta.length) (hd : d < Constants.NDIM)
    (hgrid : d < (ls1.st.zeta_star.getD s []).length) (j : Nat) :
    (at2 ls1.st.zeta_star s d).coeff 0 j
      = (at2 zeta s d).coeff ((at2 zeta s d).rows - 1) j := by
  have hz : ls1.st.zeta_star = (rollup_convect ext zeta u_steady options i ls.st).zeta_star := by
    unfold rollup_body rollup_refresh at h
    by_cases hr : options.rollup_aic_refresh = 0
    · simp [hr] at h
    · by_cases hi : i % options.rollup_aic_refresh = 0
      · simp only [hr, hi, if_true, if_false] at h
        injection h with h
        subst h
        rfl
      · simp only [hr, hi, if_false] at h
        injection h with h
        subst h
        rfl
  rw [hz] at hgrid ⊢
  simp only [rollup_convect] at hgrid ⊢
  rw [trailing_edge_rewrite_surface_length] at hgrid
  rw [trailing_edge_rewrite_at2 zeta _ s d hs hd hgrid]
  simp [MatrixX.assign_topRows_bottomRows]

theorem demo_convect_surf_shape (dt : ℚ) :
    ∀ sz su : List (MatrixX ℚ),
      (demo_convect_surf dt sz su).map (fun m => (m.rows, m.cols))
        = sz.map (fun m => (m.rows, m.cols)) := by
  intro sz
  induction sz with
  | nil => intro su; cases su <;> rfl
  | cons m t ih =>
    intro su
    cases su with
    | nil => simp only [demo_convect_surf, List.map_cons, ih]
    | cons v w => simp only [demo_convect_surf, List.map_cons, ih]

theorem demo_convect_shape (zs u : VecVecMatrixX ℚ) (dt : ℚ) :
    shape_VecVecMat (demo_ext.convect zs u dt) = shape_VecVecMat zs := by
  show shape_VecVecMat (demo_convect zs u dt) = shape_VecVecMat zs
  induction zs generalizing u with
  | nil => cases u <;> rfl
  | cons sz t ih =>
    cases u with
    | nil =>
      simp only [demo_convect, shape_VecVecMat, List.map_cons, demo_convect_surf_shape]
      exact congrArg _ (ih [])
    | cons su w =>
      simp only [demo_convect, shape_VecVecMat, List.map_cons, demo_convect_surf_shape]
      exact congrArg _ (ih w)

theorem demo_displace_VecVecMat_shape (zs : VecVecMatrixX ℚ) :
    shape_VecVecMat (demo_ext.displace_VecVecMat zs) = shape_VecVecMat zs := by
  show shape_VecVecMat (zs.map (fun surf => surf.map demo_displace)) = shape_VecVecMat zs
  simp only [shape_VecVecMat, List.map_map]
  apply List.map_congr_left
  intro surf _
  simp only [Function.comp, List.map_map]
  rfl

theorem demo_displace_VecMat_shape (gs : VecMatrixX ℚ) :
    shape_VecMat (demo_ext.displace_VecMat gs) = shape_VecMat gs := by
  show shape_VecMat (gs.map demo_displace) = shape_VecMat gs
  simp only [shape_VecMat, List.map_map]
  rfl

theorem circulation_transfer_getD (gamma gamma_star : VecMatrixX K) (in_n_rows : Int)
    (s : Nat) (hs : s < gamma.length) (hgs : s < gamma_star.length) :
    (Wake.Horseshoe.circulation_transfer gamma gamma_star in_n_rows).getD s default
      = ⟨(gamma_star.getD s default).rows, (gamma_star.getD s default).cols, fun i j =>
          if i < (if in_n_rows = -1 then (gamma_star.getD s default).rows
              else in_n_rows.toNat) then
            (gamma.getD s default).coeff ((gamma.getD s default).rows - 1) j
          else (gamma_star.getD s default).coeff i j⟩ := by
  have heq : Wake.Horseshoe.circulation_transfer gamma gamma_star in_n_rows
      = forLoop gamma.length (fun i_surf (l : VecMatrixX K) =>
          l.set i_surf ((fun (i_surf : Nat) (gs : MatrixX K) =>
            (⟨gs.rows, gs.cols, fun i j =>
              if i < (if in_n_rows = -1 then gs.rows else in_n_rows.toNat) then
                (gamma.getD i_surf default).coeff ((gamma.getD i_surf default).rows - 1) j
              else gs.coeff i j⟩ : MatrixX K)) i_surf (l.getD i_surf default))) gamma_star := rfl
  rw [heq, forLoop_set_getD (fun (i_surf : Nat) (gs : MatrixX K) =>
      (⟨gs.rows, gs.cols, fun i j =>
        if i < (if in_n_rows = -1 then gs.rows else in_n_rows.toNat) then
          (gamma.getD i_surf default).coeff ((gamma.getD i_surf default).rows - 1) j
        else gs.coeff i j⟩ : MatrixX K)) default, if_pos ⟨hs, hgs⟩]

theorem rollup_body_zeta_star (ext : Externals K)
    (zeta zeta_col uext_col normals : VecVecMatrixX K) (u_steady : Vector3 K)
    (options : VMopts K) (flightconditions : FlightConditions K)
    (i : Nat) (ls ls1 : RollupState K)
    (h : rollup_body ext zeta zeta_col uext_col normals u_steady options flightconditions i ls
      = some ls1) :
    ls1.st.zeta_star = (rollup_convect ext zeta u_steady options i ls.st).zeta_star := by
  unfold rollup_body rollup_refresh at h
  by_cases hr : options.rollup_aic_refresh = 0
  · simp [hr] at h
  · by_cases hi : i % options.rollup_aic_refresh = 0
    · simp only [hr, hi, if_true, if_false] at h
      injection h with h
      subst h
      rfl
    · simp only [hr, hi, if_false] at h
      injection h with h
      subst h
      rfl

theorem ext_getD {α : Type} (d : α) (a b : List α) (hlen : a.length = b.length)
    (h : ∀ j, j < b.length → a.getD j d = b.getD j d) : a = b := by
  apply List.ext_getElem hlen
  intro j h1 h2
  have := h j h2
  rw [List.getD_eq_getElem?_getD, List.getD_eq_getElem?_getD, List.getElem?_eq_getElem h1,
    List.getElem?_eq_getElem h2] at this
  simpa using this

theorem skeleton_length (a b : VecVecMatrixX K)
    (h : skeleton_VecVecMat a = skeleton_VecVecMat b) : a.length = b.length := by
  have := congrArg List.length h
  simpa [skeleton_VecVecMat] using this

theorem skeleton_getD (a b : VecVecMatrixX K)
    (h : skeleton_VecVecMat a = skeleton_VecVecMat b) (s : Nat) :
    (a.getD s []).length = (b.getD s []).length := by
  have hl := skeleton_length a b h
  have := congrArg (fun l => l.getD s 0) h
  simp only [skeleton_VecVecMat, List.getD_eq_getElem?_getD, List.getElem?_map] at this
  rw [List.getD_eq_getElem?_getD, List.getD_eq_getElem?_getD]
  by_cases hs : s < a.length
  · rw [List.getElem?_eq_getElem hs, List.getElem?_eq_getElem (by omega)] at this ⊢
    simpa using this
  · rw [List.getElem?_eq_none (by omega), List.getElem?_eq_none (by omega)]

theorem skeleton_ext (a b : VecVecMatrixX K) (hlen : a.length = b.length)
    (h : ∀ s, s < b.length → (a.getD s []).length = (b.getD s []).length) :
    skeleton_VecVecMat a = skeleton_VecVecMat b := by
  unfold skeleton_VecVecMat
  apply List.ext_getElem (by simpa using hlen)
  intro j h1 h2
  have h1' : j < a.length := by simpa using h1
  have h2' : j < b.length := by simpa using h2
  have := h j h2'
  rw [List.getD_eq_getElem?_getD, List.getD_eq_getElem?_getD, List.getElem?_eq_getElem h1',
    List.getElem?_eq_getElem h2'] at this
  simpa using this

theorem skeleton_of_shape (a b : VecVecMatrixX K)
    (h : shape_VecVecMat a = shape_VecVecMat b) :
    skeleton_VecVecMat a = skeleton_VecVecMat b := by
  have := congrArg (List.map List.length) h
  simp only [shape_VecVecMat, List.map_map] at this
  have hf : (List.length ∘ fun surf : List (MatrixX K) =>
      List.map (fun m => (m.rows, m.cols)) surf) = List.length := by
    funext surf
    simp
  rw [hf] at this
  exact this

/-- Copying a list element by element into a list of the same length gives the list. -/
theorem forLoop_copy {α : Type} (d : α) (src dst : List α) (hlen : dst.length = src.length) :
    forLoop src.length (fun j l => l.set j (src.getD j d)) dst = src := by
  apply ext_getD d
  · rw [forLoop_set_length (fun j _ => src.getD j d), hlen]
  · intro j hj
    have := forLoop_set_getD (fun j (_ : α) => src.getD j d) d src.length dst j
    rw [if_pos ⟨hj, by omega⟩] at this
    exact this

/-- `copy_VecVecMat(in, out)` leaves `out` equal to `in` when `out` has the surfaces and
the grids per surface of `in`. -/
theorem copy_VecVecMat_eq (inp out : VecVecMatrixX K)
    (h : skeleton_VecVecMat out = skeleton_VecVecMat inp) : copy_VecVecMat inp out = inp := by
  have heq : copy_VecVecMat inp out
      = forLoop inp.length (fun i_surf (zs : VecVecMatrixX K) =>
          zs.set i_surf (forLoop (inp.getD i_surf []).length (fun i_dim surf =>
            surf.set i_dim ((inp.getD i_surf []).getD i_dim default))
            (zs.getD i_surf []))) out := by
    unfold copy_VecVecMat
    congr 1
    funext i_surf zs
    exact forLoop_set_fixed (fun i_dim (surf : List (MatrixX K)) =>
      surf.set i_dim ((inp.getD i_surf []).getD i_dim default)) [] i_surf
      (inp.getD i_surf []).length zs
  have hlen := skeleton_length out inp h
  rw [heq]
  apply ext_getD []
  · rw [forLoop_set_length (fun i_surf (zs : VecVecMatrixX K) =>
      forLoop (inp.getD i_surf []).length (fun i_dim surf =>
        surf.set i_dim ((inp.getD i_surf []).getD i_dim default)) (zs.getD i_surf [])), hlen]
  · intro s hs
    rw [forLoop_set_getD (fun i_surf (surf0 : List (MatrixX K)) =>
      forLoop (inp.getD i_surf []).length (fun i_dim surf =>
        surf.set i_dim ((inp.getD i_surf []).getD i_dim default)) surf0) [],
      if_pos ⟨hs, by omega⟩]
    exact forLoop_copy default (inp.getD s []) (out.getD s []) (skeleton_getD out inp h s)

theorem allocate_VecVecMat_from_skeleton (mat inp : VecVecMatrixX K) (correction : Int) :
    skeleton_VecVecMat (allocate_VecVecMat_from mat inp correction)
      = skeleton_VecVecMat inp := by
  have heq : allocate_VecVecMat_from mat inp correction
      = forLoop inp.length (fun i_surf (zs : VecVecMatrixX K) =>
          zs.set i_surf (forLoop (inp.getD i_surf []).length (fun i_dim surf =>
            surf.set i_dim (MatrixX.Zero
              (to_uint ((at2 inp i_surf 0).rows + correction))
              (to_uint ((at2 inp i_surf 0).cols + correction))))
            (resize (inp.getD i_surf []).length (zs.getD i_surf []))))
          (resize inp.length mat) := by
    simp only [allocate_VecVecMat_from]
    congr 1
    funext i_surf zs
    have hinner : ∀ (Z : MatrixX K) (k : Nat) (m1 : VecVecMatrixX K),
        forLoop k (fun i_dim mat => set2 mat i_surf i_dim Z) m1
          = m1.set i_surf (forLoop k (fun i_dim surf => surf.set i_dim Z)
              (m1.getD i_surf [])) := fun Z k m1 =>
      forLoop_set_fixed (fun i_dim (surf : List (MatrixX K)) => surf.set i_dim Z) []
        i_surf k m1
    rw [hinner]
    by_cases hi : i_surf < zs.length
    · rw [getD_set_eq _ _ _ _ hi, set_set_same]
    · rw [set_of_length_le zs i_surf _ (by omega), set_of_length_le zs i_surf _ (by omega),
        set_of_length_le zs i_surf _ (by omega)]
  rw [heq]
  apply skeleton_ext
  · rw [forLoop_set_length (fun i_surf (zs : VecVecMatrixX K) =>
      forLoop (inp.getD i_surf []).length (fun i_dim surf =>
        surf.set i_dim (MatrixX.Zero
          (to_uint ((at2 inp i_surf 0).rows + correction))
          (to_uint ((at2 inp i_surf 0).cols + correction))))
        (resize (inp.getD i_surf []).length (zs.getD i_surf []))), resize_length]
  · intro s hs
    rw [forLoop_set_getD (fun i_surf (surf0 : List (MatrixX K)) =>
      forLoop (inp.getD i_surf []).length (fun i_dim surf =>
        surf.set i_dim (MatrixX.Zero
          (to_uint ((at2 inp i_surf 0).rows + correction))
          (to_uint ((at2 inp i_surf 0).cols + correction))))
        (resize (inp.getD i_surf []).length surf0)) [],
      if_pos ⟨hs, by rw [resize_length]; exact hs⟩,
      forLoop_set_length (fun i_dim (_ : List (MatrixX K)) => MatrixX.Zero
          (to_uint ((at2 inp s 0).rows + correction))
          (to_uint ((at2 inp s 0).cols + correction))), resize_length]

theorem rollup_init_previous (ext : Externals K) (uext : VecVecMatrixX K)
    (options : VMopts K) (st : State K) (hn : options.n_rollup ≠ 0) :
    (rollup_init ext uext options st).2.zeta_star_previous
      = (rollup_init ext uext options st).2.st.zeta_star ∧
    (rollup_init ext uext options st).2.zeta_star_norm_first
      = norm_VecVec_mat ext.norm (rollup_init ext uext options st).2.st.zeta_star := by
  simp only [rollup_init, hn, ne_eq, not_false_eq_true, if_true, and_true]
  exact copy_VecVecMat_eq _ _ (allocate_VecVecMat_from_skeleton _ _ _)

theorem sum_range_getD_eq_take_map {α : Type} (g : α → K) (d : α) :
    ∀ (l : List α) (n : Nat), n ≤ l.length →
      Finset.sum (Finset.range n) (fun i => g (l.getD i d)) = ((l.take n).map g).sum := by
  intro l
  induction l with
  | nil =>
    intro n hn
    have : n = 0 := by simpa using hn
    subst this
    simp
  | cons a t ih =>
    intro n hn
    cases n with
    | zero => simp
    | succ m =>
      rw [Finset.sum_range_succ']
      have hm : m ≤ t.length := by simpa using hn
      simp only [List.getD_cons_succ, List.getD_cons_zero, List.take_succ_cons, List.map_cons,
        List.sum_cons]
      rw [ih m hm, add_comm]

theorem forLoop_add (g : Nat → K) (n : Nat) (a : K) :
    forLoop n (fun j acc => acc + g j) a = a + Finset.sum (Finset.range n) g := by
  induction n with
  | zero => simp [forLoop]
  | succ n ih => rw [forLoop, ih, Finset.sum_range_succ, add_assoc]

theorem forLoop_add_list {α : Type} (f : α → K) (d : α) (l : List α) (a : K) :
    forLoop l.length (fun j acc => acc + f (l.getD j d)) a = a + (l.map f).sum := by
  rw [forLoop_add (fun j => f (l.getD j d)), sum_range_getD_eq_take_map f d l l.length (le_refl _),
    List.take_length]

theorem norm_VecVec_mat_eq_sum (norm : MatrixX K → K) (mat : VecVecMatrixX K) :
    norm_VecVec_mat norm mat = (mat.map (fun surf => (surf.map norm).sum)).sum := by
  unfold norm_VecVec_mat
  have hinner : (fun (i_surf : Nat) (acc : K) =>
      forLoop (mat.getD i_surf []).length (fun i_dim acc =>
        acc + norm (at2 mat i_surf i_dim)) acc)
      = fun i_surf acc => acc + (fun surf : List (MatrixX K) => (surf.map norm).sum)
          (mat.getD i_surf []) := by
    funext i_surf acc
    exact forLoop_add_list norm default (mat.getD i_surf []) acc
  rw [hinner, forLoop_add_list (fun surf : List (MatrixX K) => (surf.map norm).sum) [] mat 0,
    zero_add]

theorem list_sum_eq_zero_iff_of_nonneg (l : List K) (h : ∀ x ∈ l, 0 ≤ x) :
    l.sum = 0 ↔ ∀ x ∈ l, x = 0 := by
  induction l with
  | nil => simp
  | cons a t ih =>
    have ha : 0 ≤ a := h a (List.mem_cons_self a t)
    have ht : ∀ x ∈ t, 0 ≤ x := fun x hx => h x (List.mem_cons_of_mem a hx)
    have hts : 0 ≤ t.sum := List.sum_nonneg ht
    rw [List.sum_cons]
    constructor
    · intro hsum
      have ha0 : a = 0 := le_antisymm (by linarith) ha
      have ht0 : t.sum = 0 := by linarith
      intro x hx
      rcases List.mem_cons.1 hx with hx | hx
      · rw [hx, ha0]
      · exact (ih ht).1 ht0 x hx
    · intro hall
      rw [hall a (List.mem_cons_self a t), (ih ht).2 (fun x hx => hall x (List.mem_cons_of_mem a hx)),
        add_zero]

theorem squaredNorm_nonneg (m : MatrixX K) : 0 ≤ m.squaredNorm :=
  Finset.sum_nonneg (fun _ _ => Finset.sum_nonneg (fun _ _ => mul_self_nonneg _))

theorem squaredNorm_eq_zero_iff (m : MatrixX K) :
    m.squaredNorm = 0 ↔ ∀ i j, i < m.rows → j < m.cols → m.coeff i j = 0 := by
  unfold MatrixX.squaredNorm
  rw [Finset.sum_eq_zero_iff_of_nonneg
    (fun _ _ => Finset.sum_nonneg (fun _ _ => mul_self_nonneg _))]
  constructor
  · intro h i j hi hj
    have h1 := h i (Finset.mem_range.2 hi)
    rw [Finset.sum_eq_zero_iff_of_nonneg (fun _ _ => mul_self_nonneg _)] at h1
    exact mul_self_eq_zero.1 (h1 j (Finset.mem_range.2 hj))
  · intro h i hi
    rw [Finset.sum_eq_zero_iff_of_nonneg (fun _ _ => mul_self_nonneg _)]
    intro j hj
    rw [h i j (Finset.mem_range.1 hi) (Finset.mem_range.1 hj), mul_zero]

/-- A loop that appends one element and rewrites element `j` in each iteration. -/
theorem forLoop_push_set {α : Type} (Z d : α) :
    ∀ (k : Nat) (l : List α), k ≤ l.length →
      forLoop k (fun j l => (l ++ [d]).set j Z) l
        = forLoop k (fun j l => l.set j Z) l ++ List.replicate k d := by
  intro k
  induction k with
  | zero => intro l _; simp [forLoop]
  | succ k ih =>
    intro l hk
    have hlen : (forLoop k (fun j (l : List α) => l.set j Z) l).length = l.length :=
      forLoop_set_length (fun _ _ => Z) k l
    simp only [forLoop]
    rw [ih l (by omega), List.append_assoc, List.set_append_left _ _ (by rw [hlen]; omega),
      List.replicate_succ']

theorem forLoop_set_const {α : Type} (Z : α) (l : List α) :
    forLoop l.length (fun j l => l.set j Z) l = List.replicate l.length Z := by
  apply ext_getD Z
  · rw [forLoop_set_length (fun _ _ => Z), List.length_replicate]
  · intro j hj
    rw [List.length_replicate] at hj
    have := forLoop_set_getD (fun _ (_ : α) => Z) Z l.length l j
    rw [if_pos ⟨hj, hj⟩] at this
    rw [this, List.getD_eq_getElem?_getD, List.getElem?_replicate_of_lt hj]
    rfl

/-- The grids `allocate_VecVecMat(mat, n_dim, dimensions, correction)` leaves in a
surface: `n_dim` zero grids followed by `n_dim` empty grids. -/
theorem allocated_surface_eq (n_dim M N : Nat) (surf : List (MatrixX K)) :
    allocated_surface n_dim M N surf
      = List.replicate n_dim (MatrixX.Zero M N) ++ List.replicate n_dim default := by
  unfold allocated_surface
  have hlen : (resize n_dim surf).length = n_dim := resize_length n_dim surf
  rw [forLoop_push_set (MatrixX.Zero M N) default n_dim _ (by rw [hlen])]
  have := forLoop_set_const (MatrixX.Zero M N : MatrixX K) (resize n_dim surf)
  rw [hlen] at this
  rw [this]

theorem to_int_to_uint_of_range (v : Int) (h0 : 0 ≤ v) (h1 : v < 2 ^ 31) :
    (to_int (to_uint v)).toNat = v.toNat := by
  have h2 : to_uint v = v.toNat := by
    simp only [to_uint, UINT_RANGE]
    omega
  rw [h2]
  simp only [to_int, UINT_RANGE]
  split <;> omega

section previous

variable (ext : Externals K) (zeta zeta_col uext_col normals : VecVecMatrixX K)
  (u_steady : Vector3 K) (options : VMopts K) (flightconditions : FlightConditions K)

theorem rollup_body_wake_shape
    (hconvect : ∀ zs u dt, shape_VecVecMat (ext.convect zs u dt) = shape_VecVecMat zs)
    (hdisplace : ∀ zs, shape_VecVecMat (ext.displace_VecVecMat zs) = shape_VecVecMat zs)
    (i : Nat) (ls ls1 : RollupState K)
    (h : rollup_body ext zeta zeta_col uext_col normals u_steady options flightconditions i ls
      = some ls1) :
    shape_VecVecMat ls1.st.zeta_star = shape_VecVecMat ls.st.zeta_star := by
  rw [rollup_body_zeta_star ext zeta zeta_col uext_col normals u_steady options
    flightconditions i ls ls1 h]
  simp only [rollup_convect]
  rw [trailing_edge_rewrite_shape, hdisplace, hconvect]

theorem rollup_start_succ_cases (ini : RollupState K) (i : Nat) (final : RollupState K)
    (h : rollup_start ext zeta zeta_col uext_col normals u_steady options flightconditions
      ini (i + 1) = some final) :
    ∃ l0 l1, rollup_start ext zeta zeta_col uext_col normals u_steady options flightconditions
        ini i = some l0 ∧
      rollup_body ext zeta zeta_col uext_col normals u_steady options flightconditions i l0
        = some l1 ∧ final = if i = 0 then l1 else rollup_retain l1 := by
  simp only [rollup_start] at h
  cases hs : rollup_start ext zeta zeta_col uext_col normals u_steady options flightconditions
      ini i with
  | none => simp [hs] at h
  | some l0 =>
    simp only [hs] at h
    cases hb : rollup_body ext zeta zeta_col uext_col normals u_steady options
        flightconditions i l0 with
    | none => simp [hb] at h
    | some l1 =>
      simp only [hb, Option.some.injEq] at h
      exact ⟨l0, l1, rfl, hb, h.symm⟩

/-- Along a run, the wake keeps its shape and `zeta_star_previous` keeps the surfaces and
grids per surface of the wake. -/
theorem rollup_start_skeleton
    (hconvect : ∀ zs u dt, shape_VecVecMat (ext.convect zs u dt) = shape_VecVecMat zs)
    (hdisplace : ∀ zs, shape_VecVecMat (ext.displace_VecVecMat zs) = shape_VecVecMat zs)
    (ini : RollupState K)
    (hini : skeleton_VecVecMat ini.zeta_star_previous = skeleton_VecVecMat ini.st.zeta_star) :
    ∀ (i : Nat) (ls : RollupState K),
      rollup_start ext zeta zeta_col uext_col normals u_steady options flightconditions ini i
        = some ls →
      shape_VecVecMat ls.st.zeta_star = shape_VecVecMat ini.st.zeta_star ∧
      skeleton_VecVecMat ls.zeta_star_previous = skeleton_VecVecMat ini.st.zeta_star := by
  intro i
  induction i with
  | zero =>
    intro ls h
    simp only [rollup_start, Option.some.injEq] at h
    subst h
    exact ⟨rfl, hini⟩
  | succ i ih =>
    intro ls h
    obtain ⟨l0, l1, h0, hb, hls⟩ := rollup_start_succ_cases ext zeta zeta_col uext_col normals
      u_steady options flightconditions ini i ls h
    obtain ⟨hz0, hp0⟩ := ih l0 h0
    have hz1 := rollup_body_wake_shape ext zeta zeta_col uext_col normals u_steady options
      flightconditions hconvect hdisplace i l0 l1 hb
    obtain ⟨-, hp1, -, -⟩ := rollup_body_fields ext zeta zeta_col uext_col normals u_steady
      options flightconditions i l0 l1 hb
    have hsk1 : skeleton_VecVecMat l1.zeta_star_previous = skeleton_VecVecMat l1.st.zeta_star := by
      rw [hp1, hp0]
      exact (skeleton_of_shape _ _ (hz1.trans hz0)).symm
    by_cases hi : i = 0
    · rw [if_pos hi] at hls
      subst hls
      exact ⟨hz1.trans hz0, by rw [hp1]; exact hp0⟩
    · rw [if_neg hi] at hls
      subst hls
      refine ⟨hz1.trans hz0, ?_⟩
      simp only [rollup_retain]
      rw [copy_VecVecMat_eq _ _ hsk1]
      exact skeleton_of_shape _ _ (hz1.trans hz0)

theorem rollup_check_previous_one (ini : RollupState K) (ls : RollupState K)
    (h : rollup_check ext zeta zeta_col uext_col normals u_steady options flightconditions
      ini 1 = some ls) :
    ls.zeta_star_previous = ini.zeta_star_previous := by
  obtain ⟨l, hl, hb⟩ := rollup_check_inv ext zeta zeta_col uext_col normals u_steady options
    flightconditions ini 1 ls h
  obtain ⟨l0, l1, h0, hb0, hl1⟩ := rollup_start_succ_cases ext zeta zeta_col uext_col normals
    u_steady options flightconditions ini 0 l hl
  simp only [rollup_start, Option.some.injEq] at h0
  subst h0
  rw [if_pos rfl] at hl1
  subst hl1
  obtain ⟨-, hp, -, -⟩ := rollup_body_fields ext zeta zeta_col uext_col normals u_steady
    options flightconditions 1 l ls hb
  obtain ⟨-, hp0, -, -⟩ := rollup_body_fields ext zeta zeta_col uext_col normals u_steady
    options flightconditions 0 ini l hb0
  rw [hp, hp0]

theorem rollup_check_previous_succ (ini : RollupState K) (m : Nat) (hm : m ≠ 0)
    (ls lsp : RollupState K)
    (h : rollup_check ext zeta zeta_col uext_col normals u_steady options flightconditions
      ini (m + 1) = some ls)
    (hp : rollup_check ext zeta zeta_col uext_col normals u_steady options flightconditions
      ini m = some lsp) :
    ls.zeta_star_previous = copy_VecVecMat lsp.st.zeta_star lsp.zeta_star_previous ∧
    ∃ l0, rollup_start ext zeta zeta_col uext_col normals u_steady options flightconditions
        ini m = some l0 ∧
      rollup_body ext zeta zeta_col uext_col normals u_steady options flightconditions m l0
        = some lsp := by
  obtain ⟨l, hl, hb⟩ := rollup_check_inv ext zeta zeta_col uext_col normals u_steady options
    flightconditions ini (m + 1) ls h
  obtain ⟨l0, l1, h0, hb0, hl1⟩ := rollup_start_succ_cases ext zeta zeta_col uext_col normals
    u_steady options flightconditions ini m l hl
  obtain ⟨l0p, h0p, hbp⟩ := rollup_check_inv ext zeta zeta_col uext_col normals u_steady options
    flightconditions ini m lsp hp
  rw [h0] at h0p
  injection h0p with h0p
  subst h0p
  rw [hb0] at hbp
  injection hbp with hbp
  subst hbp
  rw [if_neg hm] at hl1
  subst hl1
  obtain ⟨-, hprev, -, -⟩ := rollup_body_fields ext zeta zeta_col uext_col normals u_steady
    options flightconditions (m + 1) _ ls hb
  exact ⟨by rw [hprev]; rfl, l0, h0, hb0⟩

/-- Along a run the wake keeps the shape it had when the loop was entered. -/
theorem rollup_start_shape
    (hconvect : ∀ zs u dt, shape_VecVecMat (ext.convect zs u dt) = shape_VecVecMat zs)
    (hdisplace : ∀ zs, shape_VecVecMat (ext.displace_VecVecMat zs) = shape_VecVecMat zs)
    (ini : RollupState K) :
    ∀ (i : Nat) (ls : RollupState K),
      rollup_start ext zeta zeta_col uext_col normals u_steady options flightconditions ini i
        = some ls →
      shape_VecVecMat ls.st.zeta_star = shape_VecVecMat ini.st.zeta_star := by
  intro i
  induction i with
  | zero =>
    intro ls h
    simp only [rollup_start, Option.some.injEq] at h
    subst h
    rfl
  | succ i ih =>
    intro ls h
    obtain ⟨l0, l1, h0, hb, hls⟩ := rollup_start_succ_cases ext zeta zeta_col uext_col normals
      u_steady options flightconditions ini i ls h
    have hz1 := rollup_body_wake_shape ext zeta zeta_col uext_col normals u_steady options
      flightconditions hconvect hdisplace i l0 l1 hb
    have hst : ls.st = l1.st := by
      rw [hls]
      split <;> rfl
    rw [hst]
    exact hz1.trans (ih l0 h0)

/-- The last iteration of a non-horseshoe solve with `n_rollup ≥ 1`: the forces are
computed on the state the body of some iteration `k` produced from the state at its
head. -/
theorem solver_last_iteration (zeta_dot uext : VecVecMatrixX K) (st : State K)
    (h : options.horseshoe = false) (hr : options.rollup_aic_refresh ≠ 0)
    (hn : 1 ≤ options.n_rollup) :
    ∃ (k : Nat) (l0 l1 : RollupState K),
      rollup_start ext zeta
        (solver_horseshoe_stage ext zeta uext st options flightconditions).1
        (solver_horseshoe_stage ext zeta uext st options flightconditions).2.1
        (solver_horseshoe_stage ext zeta uext st options flightconditions).2.2.1
        (rollup_init ext uext options
          (solver_horseshoe_stage ext zeta uext st options flightconditions).2.2.2).1
        options flightconditions
        (rollup_init ext uext options
          (solver_horseshoe_stage ext zeta uext st options flightconditions).2.2.2).2 k
        = some l0 ∧
      rollup_body ext zeta
        (solver_horseshoe_stage ext zeta uext st options flightconditions).1
        (solver_horseshoe_stage ext zeta uext st options flightconditions).2.1
        (solver_horseshoe_stage ext zeta uext st options flightconditions).2.2.1
        (rollup_init ext uext options
          (solver_horseshoe_stage ext zeta uext st options flightconditions).2.2.2).1
        options flightconditions k l0 = some l1 ∧
      solver ext zeta zeta_dot uext st options flightconditions
        = some (static_forces ext zeta uext options flightconditions l1.st) := by
  rcases rollup_loop_run ext zeta _ _ _ _ options flightconditions hr
      (rollup_init ext uext options
        (solver_horseshoe_stage ext zeta uext st options flightconditions).2.2.2).2
      options.n_rollup 0 _ rfl (by intro j h1 h2; omega) with
    ⟨i, final, -, -, -, -, -, hcheck, hloop⟩ | ⟨-, final, hstart, hloop⟩
  · obtain ⟨l0, h0, hb⟩ := rollup_check_inv ext zeta _ _ _ _ options flightconditions _ i final
      hcheck
    exact ⟨i, l0, final, h0, hb,
      solver_eq_of_loop ext zeta options flightconditions zeta_dot uext st h final hloop⟩
  · rw [Nat.zero_add] at hstart
    obtain ⟨m, hm⟩ : ∃ m, options.n_rollup = m + 1 := ⟨options.n_rollup - 1, by omega⟩
    rw [hm] at hstart
    obtain ⟨l0, l1, h0, hb, hls⟩ := rollup_start_succ_cases ext zeta _ _ _ _ options
      flightconditions _ m final hstart
    have hst : final.st = l1.st := by
      rw [hls]
      split <;> rfl
    refine ⟨m, l0, l1, h0, hb, ?_⟩
    rw [← hst]
    exact solver_eq_of_loop ext zeta options flightconditions zeta_dot uext st h final hloop

end previous

end containers

/-! ## The claims on `UVLM::Steady::solver` -/

section claims

open Types

variable {K : Type} [LinearOrderedField K]

/-- C1: with `options.horseshoe = true`, `solver` runs `solve_horseshoe`, calls
`calculate_static_forces` exactly once and returns.  The wake geometry and the
circulations handed to the force computation and left to the caller are the ones
`solve_horseshoe` produced, and the calls made are exactly the listed ones: no
`to_discretised`, `convect`, `displace_VecVecMat`, `displace_VecMat`, `solve_discretised`
and no rollup iteration. -/
theorem C1_horseshoe_only (ext : Externals K) (zeta zeta_dot uext : VecVecMatrixX K)
    (st : State K) (options : VMopts K) (flightconditions : FlightConditions K)
    (h : options.horseshoe = true) :
    ∃ hs r : State K,
      hs = (solver_horseshoe_stage ext zeta uext st options flightconditions).2.2.2 ∧
      hs = solve_horseshoe ext zeta (ext.generate_colocationMesh zeta [])
        (ext.generate_colocationMesh uext [])
        { zeta_star := st.zeta_star
          gamma := st.gamma
          gamma_star := st.gamma_star
          forces := st.forces
          trace := st.trace ++ [Event.generate_colocationMesh, Event.generate_colocationMesh,
            Event.generate_surfaceNormal] }
        (ext.generate_surfaceNormal zeta
          (allocate_VecVecMat_from [] (ext.generate_colocationMesh zeta []) 0))
        options flightconditions ∧
      solver ext zeta zeta_dot uext st options flightconditions = some r ∧
      r.zeta_star = hs.zeta_star ∧ r.gamma = hs.gamma ∧ r.gamma_star = hs.gamma_star ∧
      r.forces = ext.calculate_static_forces zeta hs.zeta_star hs.gamma hs.gamma_star uext
        st.forces options flightconditions ∧
      r.trace = hs.trace ++ [Event.calculate_static_forces] ∧
      r.trace = st.trace ++
        [Event.generate_colocationMesh, Event.generate_colocationMesh,
          Event.generate_surfaceNormal, Event.solve_horseshoe, Event.horseshoe_init,
          Event.RHS (solve_horseshoe_Ktotal (ext.generate_colocationMesh uext []) options),
          Event.AIC (solve_horseshoe_Ktotal (ext.generate_colocationMesh uext []) options) true
            (solve_horseshoe_Ktotal (ext.generate_colocationMesh uext []) options)
            (solve_horseshoe_Ktotal (ext.generate_colocationMesh uext []) options),
          Event.solve_system, Event.reconstruct_gamma, Event.circulation_transfer (-1),
          Event.calculate_static_forces] ∧
      r.trace.count Event.calculate_static_forces
        = st.trace.count Event.calculate_static_forces + 1 ∧
      r.trace.count Event.to_discretised = st.trace.count Event.to_discretised ∧
      r.trace.count Event.convect = st.trace.count Event.convect ∧
      r.trace.count Event.displace_VecVecMat = st.trace.count Event.displace_VecVecMat ∧
      r.trace.count Event.displace_VecMat = st.trace.count Event.displace_VecMat ∧
      r.trace.count Event.solve_discretised = st.trace.count Event.solve_discretised ∧
      iterations_run r.trace = iterations_run st.trace := by
  refine ⟨(solver_horseshoe_stage ext zeta uext st options flightconditions).2.2.2,
    static_forces ext zeta uext options flightconditions
      (solver_horseshoe_stage ext zeta uext st options flightconditions).2.2.2,
    rfl, rfl, ?_, rfl, rfl, rfl, rfl, rfl, ?_⟩
  · simp only [solver, h, if_true]
  · have ht : (static_forces ext zeta uext options flightconditions
        (solver_horseshoe_stage ext zeta uext st options flightconditions).2.2.2).trace
        = st.trace ++
        [Event.generate_colocationMesh, Event.generate_colocationMesh,
          Event.generate_surfaceNormal, Event.solve_horseshoe, Event.horseshoe_init,
          Event.RHS (solve_horseshoe_Ktotal (ext.generate_colocationMesh uext []) options),
          Event.AIC (solve_horseshoe_Ktotal (ext.generate_colocationMesh uext []) options) true
            (solve_horseshoe_Ktotal (ext.generate_colocationMesh uext []) options)
            (solve_horseshoe_Ktotal (ext.generate_colocationMesh uext []) options),
          Event.solve_system, Event.reconstruct_gamma, Event.circulation_transfer (-1),
          Event.calculate_static_forces] := by
      simp [static_forces, solver_horseshoe_stage, solve_horseshoe, MatrixX.Zero]
    rw [ht]
    refine ⟨rfl, ?_, ?_, ?_, ?_, ?_, ?_, ?_⟩ <;>
      simp [List.count_append, List.count_cons, iterations_run, List.countP_append,
        List.countP_cons]

/-- C1, evaluated on the concrete instance. -/
theorem C1_horseshoe_only_witness :
    (demo_options true 3 0 1).horseshoe = true ∧
    ∃ r : State ℚ,
      solver demo_ext demo_zeta [] demo_uext demo_state (demo_options true 3 0 1)
        demo_flightconditions = some r ∧
      r.trace.count Event.calculate_static_forces = 1 ∧
      r.trace.count Event.to_discretised = 0 ∧
      iterations_run r.trace = 0 := by
  obtain ⟨hs, r, -, -, hr, -, -, -, -, -, -, hf, hd, -, -, -, -, hi⟩ :=
    C1_horseshoe_only demo_ext demo_zeta [] demo_uext demo_state (demo_options true 3 0 1)
      demo_flightconditions rfl
  exact ⟨rfl, r, hr, by simpa [demo_state] using hf, by simpa [demo_state] using hd,
    by simpa [demo_state, iterations_run] using hi⟩

/-- C2: with `options.horseshoe = false` and `options.n_rollup = 0`, `solver` executes
no rollup iteration.  After `to_discretised` the only call is `calculate_static_forces`:
the `zeta_star` and `gamma_star` passed to it and returned are the output of
`to_discretised`, and `gamma` is the horseshoe solution. -/
theorem C2_no_rollup (ext : Externals K) (zeta zeta_dot uext : VecVecMatrixX K)
    (st : State K) (options : VMopts K) (flightconditions : FlightConditions K)
    (h : options.horseshoe = false) (hn : options.n_rollup = 0) :
    ∃ (hs r : State K) (d : VecVecMatrixX K × VecMatrixX K),
      hs = (solver_horseshoe_stage ext zeta uext st options flightconditions).2.2.2 ∧
      d = ext.to_discretised hs.zeta_star hs.gamma_star
        (ext.norm3 ⟨(at2 uext 0 0).coeff 0 0, (at2 uext 0 1).coeff 0 0, (at2 uext 0 2).coeff 0 0⟩
          * options.dt) ∧
      solver ext zeta zeta_dot uext st options flightconditions = some r ∧
      r.zeta_star = d.1 ∧ r.gamma_star = d.2 ∧ r.gamma = hs.gamma ∧
      r.forces = ext.calculate_static_forces zeta d.1 hs.gamma d.2 uext st.forces options
        flightconditions ∧
      r.trace = hs.trace ++ [Event.to_discretised, Event.calculate_static_forces] ∧
      iterations_run r.trace = iterations_run hs.trace ∧
      r.trace.count Event.total_induced_velocity_on_wake
        = hs.trace.count Event.total_induced_velocity_on_wake ∧
      r.trace.count Event.convect = hs.trace.count Event.convect ∧
      r.trace.count Event.displace_VecVecMat = hs.trace.count Event.displace_VecVecMat ∧
      r.trace.count Event.displace_VecMat = hs.trace.count Event.displace_VecMat ∧
      r.trace.count Event.trailing_edge_rewrite = hs.trace.count Event.trailing_edge_rewrite ∧
      r.trace.count Event.solve_discretised = hs.trace.count Event.solve_discretised := by
  have hsol : solver ext zeta zeta_dot uext st options flightconditions
      = some (static_forces ext zeta uext options flightconditions
          (rollup_init ext uext options
            (solver_horseshoe_stage ext zeta uext st options flightconditions).2.2.2).2.st) := by
    simp only [solver, h, hn, rollup_loop]
    simp
  have hini : (rollup_init ext uext options
      (solver_horseshoe_stage ext zeta uext st options flightconditions).2.2.2).2.st
      = { zeta_star := (ext.to_discretised
            (solver_horseshoe_stage ext zeta uext st options flightconditions).2.2.2.zeta_star
            (solver_horseshoe_stage ext zeta uext st options flightconditions).2.2.2.gamma_star
            (ext.norm3 ⟨(at2 uext 0 0).coeff 0 0, (at2 uext 0 1).coeff 0 0,
              (at2 uext 0 2).coeff 0 0⟩ * options.dt)).1
          gamma := (solver_horseshoe_stage ext zeta uext st options flightconditions).2.2.2.gamma
          gamma_star := (ext.to_discretised
            (solver_horseshoe_stage ext zeta uext st options flightconditions).2.2.2.zeta_star
            (solver_horseshoe_stage ext zeta uext st options flightconditions).2.2.2.gamma_star
            (ext.norm3 ⟨(at2 uext 0 0).coeff 0 0, (at2 uext 0 1).coeff 0 0,
              (at2 uext 0 2).coeff 0 0⟩ * options.dt)).2
          forces :=
            (solver_horseshoe_stage ext zeta uext st options flightconditions).2.2.2.forces
          trace :=
            (solver_horseshoe_stage ext zeta uext st options flightconditions).2.2.2.trace
              ++ [Event.to_discretised] } := by
    simp only [rollup_init, hn]
    simp
  refine ⟨(solver_horseshoe_stage ext zeta uext st options flightconditions).2.2.2, _, _,
    rfl, rfl, hsol, ?_⟩
  rw [hini]
  have hforces : (solver_horseshoe_stage ext zeta uext st options flightconditions).2.2.2.forces
      = st.forces := rfl
  refine ⟨rfl, rfl, rfl, ?_, ?_, ?_⟩
  · simp [static_forces, hforces]
  · simp [static_forces]
  · refine ⟨?_, ?_, ?_, ?_, ?_, ?_, ?_⟩ <;>
      simp [static_forces, List.count_append, List.count_cons, iterations_run,
        List.countP_append, List.countP_cons]

/-- C2, evaluated on the concrete instance. -/
theorem C2_no_rollup_witness :
    (demo_options false 0 0 1).horseshoe = false ∧ (demo_options false 0 0 1).n_rollup = 0 ∧
    ∃ r : State ℚ,
      solver demo_ext demo_zeta [] demo_uext demo_state (demo_options false 0 0 1)
        demo_flightconditions = some r ∧
      r.zeta_star = demo_state.zeta_star := by
  obtain ⟨hs, r, d, h1, h2, hr, hz, -⟩ :=
    C2_no_rollup demo_ext demo_zeta [] demo_uext demo_state (demo_options false 0 0 1)
      demo_flightconditions rfl rfl
  refine ⟨rfl, rfl, r, hr, ?_⟩
  rw [hz, h2, h1]
  rfl

/-- C3: with `options.horseshoe = false` (and the refresh period at least 1, as the
options require) the rollup loop returns after `k ≤ n_rollup` iterations, where `k` is
fixed by the stop rule on the values `eps_i` computed at the iterations `i ≥ 1`: if
`i` is the least index with `1 ≤ i < n_rollup` and `eps_i < rollup_tolerance` then
`k = i + 1` and the loop leaves with the state of that check; if there is no such index
then `k = n_rollup`.  Iteration 0 is never a stopping point, and in both cases
`calculate_static_forces` is called once, on the last state. -/
theorem C3_rollup_iteration_count (ext : Externals K) (zeta zeta_dot uext : VecVecMatrixX K)
    (st : State K) (options : VMopts K) (flightconditions : FlightConditions K)
    (h : options.horseshoe = false) (hr : 1 ≤ options.rollup_aic_refresh) :
    let pre := solver_horseshoe_stage ext zeta uext st options flightconditions
    let ini := rollup_init ext uext options pre.2.2.2
    let eps := rollup_eps_at ext zeta pre.1 pre.2.1 pre.2.2.1 ini.1 options flightconditions ini.2
    (∀ i, ∃ e, eps i = some e) ∧
    ∃ (k : Nat) (final : RollupState K) (r : State K),
      rollup_loop ext zeta pre.1 pre.2.1 pre.2.2.1 ini.1 options flightconditions
        options.n_rollup 0 ini.2 = some final ∧
      k ≤ options.n_rollup ∧
      final.st.trace = ini.2.st.trace ++ rollup_trace pre.2.1 options k ∧
      iterations_run final.st.trace = iterations_run ini.2.st.trace + k ∧
      ((∃ i, 1 ≤ i ∧ i < options.n_rollup ∧
          (∃ e, eps i = some e ∧ e < options.rollup_tolerance) ∧
          (∀ j, 1 ≤ j → j < i → ∀ e, eps j = some e → ¬ e < options.rollup_tolerance) ∧
          k = i + 1 ∧
          rollup_check ext zeta pre.1 pre.2.1 pre.2.2.1 ini.1 options flightconditions ini.2 i
            = some final)
        ∨ ((∀ j, 1 ≤ j → j < options.n_rollup →
              ∀ e, eps j = some e → ¬ e < options.rollup_tolerance) ∧
            k = options.n_rollup ∧
            rollup_start ext zeta pre.1 pre.2.1 pre.2.2.1 ini.1 options flightconditions ini.2
              options.n_rollup = some final)) ∧
      solver ext zeta zeta_dot uext st options flightconditions = some r ∧
      r = static_forces ext zeta uext options flightconditions final.st ∧
      r.forces = ext.calculate_static_forces zeta final.st.zeta_star final.st.gamma
        final.st.gamma_star uext st.forces options flightconditions ∧
      r.trace = final.st.trace ++ [Event.calculate_static_forces] ∧
      r.trace.count Event.calculate_static_forces
        = st.trace.count Event.calculate_static_forces + 1 := by
  intro pre ini eps
  have hr0 : options.rollup_aic_refresh ≠ 0 := by omega
  refine ⟨fun i => rollup_eps_at_some ext zeta pre.1 pre.2.1 pre.2.2.1 ini.1 options
    flightconditions hr0 ini.2 i, ?_⟩
  have hcount : ∀ k, (ini.2.st.trace ++ rollup_trace pre.2.1 options k
        ++ [Event.calculate_static_forces]).count Event.calculate_static_forces
      = st.trace.count Event.calculate_static_forces + 1 := by
    intro k
    rw [List.count_append, List.count_append, count_forces_rollup_trace,
      rollup_init_trace, List.count_append, horseshoe_stage_count_forces]
    simp
  have hforces : ini.2.st.forces = st.forces := by
    show (rollup_init ext uext options pre.2.2.2).2.st.forces = st.forces
    unfold rollup_init
    split <;> rfl
  rcases rollup_loop_run ext zeta pre.1 pre.2.1 pre.2.2.1 ini.1 options flightconditions hr0
      ini.2 options.n_rollup 0 ini.2 rfl (by intro j h1 h2; omega) with
    ⟨i, final, -, hi2, hi3, hstop, hno, hcheck, hloop⟩ | ⟨hall, final, hstart, hloop⟩
  · obtain ⟨ht, -, hf⟩ := rollup_check_trace ext zeta pre.1 pre.2.1 pre.2.2.1 ini.1 options
      flightconditions ini.2 i final hcheck
    refine ⟨i + 1, final, static_forces ext zeta uext options flightconditions final.st,
      hloop, by omega, ht, ?_, Or.inl ⟨i, hi3, by omega, ?_, ?_, rfl, hcheck⟩,
      solver_eq_of_loop ext zeta options flightconditions zeta_dot uext st h final hloop,
      rfl, ?_, rfl, ?_⟩
    · rw [ht, iterations_run_append, iterations_run_rollup_trace]
    · exact (rollup_stops_true_iff ext zeta pre.1 pre.2.1 pre.2.2.1 ini.1 options
        flightconditions ini.2 i).1 hstop
    · intro j h1 h2
      exact (rollup_stops_false_iff ext zeta pre.1 pre.2.1 pre.2.2.1 ini.1 options
        flightconditions ini.2 j).1 (hno j h1 h2)
    · simp only [static_forces]
      rw [hf, hforces]
    · simp only [static_forces]
      rw [ht]
      exact hcount (i + 1)
  · rw [Nat.zero_add] at hstart
    obtain ⟨ht, -, hf⟩ := rollup_start_trace ext zeta pre.1 pre.2.1 pre.2.2.1 ini.1 options
      flightconditions ini.2 options.n_rollup final hstart
    refine ⟨options.n_rollup, final,
      static_forces ext zeta uext options flightconditions final.st,
      hloop, le_refl _, ht, ?_, Or.inr ⟨?_, rfl, hstart⟩,
      solver_eq_of_loop ext zeta options flightconditions zeta_dot uext st h final hloop,
      rfl, ?_, rfl, ?_⟩
    · rw [ht, iterations_run_append, iterations_run_rollup_trace]
    · intro j h1 h2
      exact (rollup_stops_false_iff ext zeta pre.1 pre.2.1 pre.2.2.1 ini.1 options
        flightconditions ini.2 j).1 (hall j h1 (by omega))
    · simp only [static_forces]
      rw [hf, hforces]
    · simp only [static_forces]
      rw [ht]
      exact hcount options.n_rollup

/-- C3, evaluated on the concrete instance. -/
theorem C3_rollup_iteration_count_witness :
    (demo_options false 3 0 2).horseshoe = false ∧
    1 ≤ (demo_options false 3 0 2).rollup_aic_refresh ∧
    ∃ (k : Nat) (r : State ℚ), k ≤ 3 ∧
      solver demo_ext demo_zeta [] demo_uext demo_state (demo_options false 3 0 2)
        demo_flightconditions = some r ∧
      r.trace.count Event.calculate_static_forces = 1 := by
  obtain ⟨-, k, final, r, -, hk, -, -, -, hr, -, -, -, hc⟩ :=
    C3_rollup_iteration_count demo_ext demo_zeta [] demo_uext demo_state
      (demo_options false 3 0 2) demo_flightconditions rfl (by decide)
  exact ⟨rfl, by decide, k, r, hk, hr, by simpa [demo_state] using hc⟩

/-- C4: with `options.horseshoe = false`, `n_rollup ≥ 2`, a positive reference norm
`zeta_star_norm_first` and `rollup_tolerance = +infinity`, the comparison of iteration 1
passes and the loop leaves there: exactly the iterations 0 and 1 are executed. -/
theorem C4_infinite_tolerance (ext : Externals K) (zeta zeta_dot uext : VecVecMatrixX K)
    (st : State K) (options : VMopts K) (flightconditions : FlightConditions K)
    (h : options.horseshoe = false) (hr : 1 ≤ options.rollup_aic_refresh)
    (hn : 2 ≤ options.n_rollup) (htol : options.rollup_tolerance = ⊤) :
    let pre := solver_horseshoe_stage ext zeta uext st options flightconditions
    let ini := rollup_init ext uext options pre.2.2.2
    0 < ini.2.zeta_star_norm_first →
    ∃ (final : RollupState K) (r : State K) (e : WithTop K),
      rollup_eps_at ext zeta pre.1 pre.2.1 pre.2.2.1 ini.1 options flightconditions ini.2 1
        = some e ∧
      e < options.rollup_tolerance ∧
      rollup_loop ext zeta pre.1 pre.2.1 pre.2.2.1 ini.1 options flightconditions
        options.n_rollup 0 ini.2 = some final ∧
      rollup_check ext zeta pre.1 pre.2.1 pre.2.2.1 ini.1 options flightconditions ini.2 1
        = some final ∧
      final.st.trace = ini.2.st.trace
        ++ (rollup_events pre.2.1 options 0 ++ rollup_events pre.2.1 options 1) ∧
      iterations_run final.st.trace = iterations_run ini.2.st.trace + 2 ∧
      (∀ i, Event.rollup_iteration i
          ∈ rollup_events pre.2.1 options 0 ++ rollup_events pre.2.1 options 1 →
        i = 0 ∨ i = 1) ∧
      solver ext zeta zeta_dot uext st options flightconditions = some r ∧
      r = static_forces ext zeta uext options flightconditions final.st := by
  intro pre ini hpos
  have hr0 : options.rollup_aic_refresh ≠ 0 := by omega
  obtain ⟨e, he⟩ := rollup_eps_at_some ext zeta pre.1 pre.2.1 pre.2.2.1 ini.1 options
    flightconditions hr0 ini.2 1
  obtain ⟨ls1, hls1, hee⟩ := rollup_eps_at_eq ext zeta pre.1 pre.2.1 pre.2.2.1 ini.1 options
    flightconditions ini.2 1 e he
  have hlt : e < options.rollup_tolerance := by
    rw [htol, hee]
    exact rollup_eps_lt_top ext _ _ _ (ne_of_gt hpos)
  have hstop1 : rollup_stops ext zeta pre.1 pre.2.1 pre.2.2.1 ini.1 options flightconditions
      ini.2 1 = true :=
    (rollup_stops_true_iff ext zeta pre.1 pre.2.1 pre.2.2.1 ini.1 options flightconditions
      ini.2 1).2 ⟨e, he, hlt⟩
  have hmem : ∀ i, Event.rollup_iteration i
      ∈ rollup_events pre.2.1 options 0 ++ rollup_events pre.2.1 options 1 → i = 0 ∨ i = 1 := by
    intro i hi
    rcases List.mem_append.1 hi with hi | hi
    · exact Or.inl (rollup_events_iteration pre.2.1 options 0 i hi)
    · exact Or.inr (rollup_events_iteration pre.2.1 options 1 i hi)
  rcases rollup_loop_run ext zeta pre.1 pre.2.1 pre.2.2.1 ini.1 options flightconditions hr0
      ini.2 options.n_rollup 0 ini.2 rfl (by intro j h1 h2; omega) with
    ⟨i, final, -, hi2, hi3, hstop, hno, hcheck, hloop⟩ | ⟨hall, final, hstart, hloop⟩
  · have hi1 : i = 1 := by
      by_contra hne
      have := hno 1 (le_refl 1) (by omega)
      rw [hstop1] at this
      exact Bool.noConfusion this
    subst hi1
    obtain ⟨ht, -, -⟩ := rollup_check_trace ext zeta pre.1 pre.2.1 pre.2.2.1 ini.1 options
      flightconditions ini.2 1 final hcheck
    have ht2 : final.st.trace = ini.2.st.trace
        ++ (rollup_events pre.2.1 options 0 ++ rollup_events pre.2.1 options 1) := by
      rw [ht]
      simp [rollup_trace]
    refine ⟨final, static_forces ext zeta uext options flightconditions final.st, e, he, hlt,
      hloop, hcheck, ht2, ?_, hmem,
      solver_eq_of_loop ext zeta options flightconditions zeta_dot uext st h final hloop, rfl⟩
    rw [ht, iterations_run_append, iterations_run_rollup_trace]
  · have := hall 1 (le_refl 1) (by omega)
    rw [hstop1] at this
    exact Bool.noConfusion this

/-- C4, evaluated on the concrete instance. -/
theorem C4_infinite_tolerance_witness :
    (demo_options false 5 ⊤ 2).horseshoe = false ∧
    1 ≤ (demo_options false 5 ⊤ 2).rollup_aic_refresh ∧
    2 ≤ (demo_options false 5 ⊤ 2).n_rollup ∧
    (demo_options false 5 ⊤ 2).rollup_tolerance = ⊤ ∧
    (0 : ℚ) < (rollup_init demo_ext demo_uext (demo_options false 5 ⊤ 2)
      (solver_horseshoe_stage demo_ext demo_zeta demo_uext demo_state (demo_options false 5 ⊤ 2)
        demo_flightconditions).2.2.2).2.zeta_star_norm_first ∧
    ∃ r : State ℚ,
      solver demo_ext demo_zeta [] demo_uext demo_state (demo_options false 5 ⊤ 2)
        demo_flightconditions = some r ∧
      iterations_run r.trace = 2 := by
  have hpos : (0 : ℚ) < (rollup_init demo_ext demo_uext (demo_options false 5 ⊤ 2)
      (solver_horseshoe_stage demo_ext demo_zeta demo_uext demo_state (demo_options false 5 ⊤ 2)
        demo_flightconditions).2.2.2).2.zeta_star_norm_first := by
    simp [rollup_init, solver_horseshoe_stage, solve_horseshoe, demo_ext, demo_options,
      demo_state, norm_VecVec_mat, forLoop, demo_norm, demo_grid, at2]
    norm_num
  obtain ⟨final, r, e, -, -, -, -, ht, hi, -, hr, hrf⟩ :=
    C4_infinite_tolerance demo_ext demo_zeta [] demo_uext demo_state (demo_options false 5 ⊤ 2)
      demo_flightconditions rfl (by decide) (by decide) rfl hpos
  refine ⟨rfl, by decide, by decide, rfl, hpos, r, hr, ?_⟩
  rw [hrf]
  simp only [static_forces]
  rw [iterations_run_append, hi, rollup_init_trace]
  simp [iterations_run, solver_horseshoe_stage, solve_horseshoe, demo_state,
    List.countP_append, List.countP_cons]

/-- C5: with `options.horseshoe = false` and `rollup_tolerance = 0` (the matrix norm
being non-negative), no `eps` is below the tolerance, the loop never takes the early
exit and its body is executed exactly `n_rollup` times. -/
theorem C5_zero_tolerance (ext : Externals K) (zeta zeta_dot uext : VecVecMatrixX K)
    (st : State K) (options : VMopts K) (flightconditions : FlightConditions K)
    (h : options.horseshoe = false) (hr : 1 ≤ options.rollup_aic_refresh)
    (htol : options.rollup_tolerance = 0) (hnorm : ∀ m, 0 ≤ ext.norm m) :
    let pre := solver_horseshoe_stage ext zeta uext st options flightconditions
    let ini := rollup_init ext uext options pre.2.2.2
    let eps := rollup_eps_at ext zeta pre.1 pre.2.1 pre.2.2.1 ini.1 options flightconditions ini.2
    (∀ i, ∃ e, eps i = some e ∧ 0 ≤ e ∧ ¬ e < options.rollup_tolerance) ∧
    ∃ (final : RollupState K) (r : State K),
      rollup_loop ext zeta pre.1 pre.2.1 pre.2.2.1 ini.1 options flightconditions
        options.n_rollup 0 ini.2 = some final ∧
      rollup_start ext zeta pre.1 pre.2.1 pre.2.2.1 ini.1 options flightconditions ini.2
        options.n_rollup = some final ∧
      final.st.trace = ini.2.st.trace ++ rollup_trace pre.2.1 options options.n_rollup ∧
      iterations_run final.st.trace = iterations_run ini.2.st.trace + options.n_rollup ∧
      solver ext zeta zeta_dot uext st options flightconditions = some r ∧
      r = static_forces ext zeta uext options flightconditions final.st := by
  intro pre ini eps
  have hr0 : options.rollup_aic_refresh ≠ 0 := by omega
  have hfirst : 0 ≤ ini.2.zeta_star_norm_first :=
    rollup_init_first_nonneg ext options hnorm uext pre.2.2.2
  have hnot : ∀ i e, eps i = some e → ¬ e < options.rollup_tolerance := by
    intro i e he
    obtain ⟨ls, -, hee⟩ := rollup_eps_at_eq ext zeta pre.1 pre.2.1 pre.2.2.1 ini.1 options
      flightconditions ini.2 i e he
    rw [htol, hee]
    exact rollup_eps_not_lt_zero ext _ _ _ hfirst
  refine ⟨?_, ?_⟩
  · intro i
    obtain ⟨e, he⟩ := rollup_eps_at_some ext zeta pre.1 pre.2.1 pre.2.2.1 ini.1 options
      flightconditions hr0 ini.2 i
    have hn := hnot i e he
    rw [htol] at hn
    exact ⟨e, he, not_lt.mp hn, by rw [htol]; exact hn⟩
  · rcases rollup_loop_run ext zeta pre.1 pre.2.1 pre.2.2.1 ini.1 options flightconditions hr0
        ini.2 options.n_rollup 0 ini.2 rfl (by intro j h1 h2; omega) with
      ⟨i, final, -, hi2, hi3, hstop, hno, hcheck, hloop⟩ | ⟨hall, final, hstart, hloop⟩
    · obtain ⟨e, he, hlt⟩ := (rollup_stops_true_iff ext zeta pre.1 pre.2.1 pre.2.2.1 ini.1
        options flightconditions ini.2 i).1 hstop
      exact absurd hlt (hnot i e he)
    · rw [Nat.zero_add] at hstart
      obtain ⟨ht, -, -⟩ := rollup_start_trace ext zeta pre.1 pre.2.1 pre.2.2.1 ini.1 options
        flightconditions ini.2 options.n_rollup final hstart
      refine ⟨final, static_forces ext zeta uext options flightconditions final.st, hloop,
        hstart, ht, ?_,
        solver_eq_of_loop ext zeta options flightconditions zeta_dot uext st h final hloop, rfl⟩
      rw [ht, iterations_run_append, iterations_run_rollup_trace]

/-- C5, evaluated on the concrete instance. -/
theorem C5_zero_tolerance_witness :
    (demo_options false 3 0 2).horseshoe = false ∧
    1 ≤ (demo_options false 3 0 2).rollup_aic_refresh ∧
    (demo_options false 3 0 2).rollup_tolerance = 0 ∧
    (∀ m, 0 ≤ demo_ext.norm m) ∧
    ∃ r : State ℚ,
      solver demo_ext demo_zeta [] demo_uext demo_state (demo_options false 3 0 2)
        demo_flightconditions = some r ∧
      iterations_run r.trace = 3 := by
  obtain ⟨-, final, r, -, -, -, hi, hr, hrf⟩ :=
    C5_zero_tolerance demo_ext demo_zeta [] demo_uext demo_state (demo_options false 3 0 2)
      demo_flightconditions rfl (by decide) rfl demo_norm_nonneg
  refine ⟨rfl, by decide, rfl, demo_norm_nonneg, r, hr, ?_⟩
  rw [hrf]
  simp only [static_forces]
  rw [iterations_run_append, hi, rollup_init_trace]
  simp [iterations_run, solver_horseshoe_stage, solve_horseshoe, demo_state, demo_options,
    List.countP_append, List.countP_cons]

/-- C7: the unknown count `Ktotal` of `solve_horseshoe` and the one of
`solve_discretised` are the same number: the sum over the surfaces `i < NumSurfaces` of
`rows(uext_col[i][0]) * cols(uext_col[i][0])` in `unsigned int` arithmetic, that is the
sum over all surfaces when `NumSurfaces` is their number and over the first `NumSurfaces`
of them when it is smaller.  In both solves the circulation returned is the one
reconstructed from the solution of the system whose right-hand side is built for
`Ktotal` unknowns and whose matrix is `AIC` applied to `Ktotal` and to the zero matrix
allocated as `Ktotal x Ktotal`. -/
theorem C7_Ktotal (uext_col : VecVecMatrixX K) (options : VMopts K) :
    solve_horseshoe_Ktotal uext_col options = solve_discretised_Ktotal uext_col options ∧
    solve_horseshoe_Ktotal uext_col options
      = (Finset.sum (Finset.range options.NumSurfaces)
          (fun i => (at2 uext_col i 0).rows * (at2 uext_col i 0).cols)) % 2 ^ 32 ∧
    (options.NumSurfaces = uext_col.length →
      solve_horseshoe_Ktotal uext_col options
        = (uext_col.map (fun surf =>
            (surf.getD 0 default).rows * (surf.getD 0 default).cols)).sum % 2 ^ 32) ∧
    (options.NumSurfaces ≤ uext_col.length →
      solve_horseshoe_Ktotal uext_col options
        = ((uext_col.take options.NumSurfaces).map (fun surf =>
            (surf.getD 0 default).rows * (surf.getD 0 default).cols)).sum % 2 ^ 32) ∧
    (∀ (ext : Externals K) (zeta zeta_col normals : VecVecMatrixX K) (st : State K)
        (flightconditions : FlightConditions K),
      (solve_horseshoe ext zeta zeta_col uext_col st normals options flightconditions).trace
        = st.trace ++ [Event.solve_horseshoe, Event.horseshoe_init,
            Event.RHS (solve_horseshoe_Ktotal uext_col options),
            Event.AIC (solve_horseshoe_Ktotal uext_col options) true
              (solve_horseshoe_Ktotal uext_col options) (solve_horseshoe_Ktotal uext_col options),
            Event.solve_system, Event.reconstruct_gamma, Event.circulation_transfer (-1)] ∧
      (solve_discretised ext zeta zeta_col uext_col st normals options flightconditions).trace
        = st.trace ++ [Event.solve_discretised,
            Event.RHS (solve_discretised_Ktotal uext_col options),
            Event.AIC (solve_discretised_Ktotal uext_col options) false
              (solve_discretised_Ktotal uext_col options)
              (solve_discretised_Ktotal uext_col options),
            Event.solve_system, Event.reconstruct_gamma,
            Event.circulation_transfer (if !options.Steady then 1 else -1)] ∧
      (solve_horseshoe ext zeta zeta_col uext_col st normals options flightconditions).zeta_star
        = ext.horseshoe_init zeta st.zeta_star flightconditions ∧
      (solve_horseshoe ext zeta zeta_col uext_col st normals options flightconditions).gamma
        = ext.reconstruct_gamma
            (ext.solve_system
              (ext.AIC (solve_horseshoe_Ktotal uext_col options) zeta zeta_col
                (ext.horseshoe_init zeta st.zeta_star flightconditions) uext_col normals options
                true
                (MatrixX.Zero (solve_horseshoe_Ktotal uext_col options)
                  (solve_horseshoe_Ktotal uext_col options)))
              (ext.RHS zeta_col (ext.horseshoe_init zeta st.zeta_star flightconditions) uext_col
                st.gamma_star normals options (solve_horseshoe_Ktotal uext_col options))
              options)
            st.gamma zeta_col (ext.horseshoe_init zeta st.zeta_star flightconditions) options ∧
      (solve_discretised ext zeta zeta_col uext_col st normals options flightconditions).gamma
        = ext.reconstruct_gamma
            (ext.solve_system
              (ext.AIC (solve_discretised_Ktotal uext_col options) zeta zeta_col st.zeta_star
                uext_col normals options false
                (MatrixX.Zero (solve_discretised_Ktotal uext_col options)
                  (solve_discretised_Ktotal uext_col options)))
              (ext.RHS zeta_col st.zeta_star uext_col st.gamma_star normals options
                (solve_discretised_Ktotal uext_col options))
              options)
            st.gamma zeta_col st.zeta_star options) ∧
    (∀ k : Nat, (MatrixX.Zero k k : MatrixX K).rows = k ∧ (MatrixX.Zero k k : MatrixX K).cols = k ∧
      ∀ i j, (MatrixX.Zero k k : MatrixX K).coeff i j = 0) := by
  have hsum : solve_horseshoe_Ktotal uext_col options
      = (Finset.sum (Finset.range options.NumSurfaces)
          (fun i => (at2 uext_col i 0).rows * (at2 uext_col i 0).cols)) % 2 ^ 32 :=
    Ktotal_loop_eq uext_col options.NumSurfaces
  have htake : options.NumSurfaces ≤ uext_col.length →
      solve_horseshoe_Ktotal uext_col options
        = ((uext_col.take options.NumSurfaces).map (fun surf =>
            (surf.getD 0 default).rows * (surf.getD 0 default).cols)).sum % 2 ^ 32 := by
    intro hle
    rw [hsum, ← sum_range_getD_eq_take
      (fun surf : List (MatrixX K) => (surf.getD 0 default).rows * (surf.getD 0 default).cols)
      [] uext_col options.NumSurfaces hle]
    rfl
  refine ⟨rfl, hsum, ?_, htake,
    fun ext zeta zeta_col normals st flightconditions => ⟨rfl, rfl, rfl, rfl, rfl⟩,
    fun k => ⟨rfl, rfl, fun _ _ => rfl⟩⟩
  intro heq
  have := htake (le_of_eq heq)
  rw [heq, List.take_length] at this
  rw [this]

/-- C7, evaluated on the collocation grids of the concrete instance: one unknown, and
the two solves hand `AIC` the count 1 and a 1 x 1 zero matrix. -/
theorem C7_Ktotal_witness :
    (demo_options false 3 0 2).NumSurfaces
      ≤ (Solver.generate_colocationMesh demo_uext ([] : VecVecMatrixX ℚ)).length ∧
    solve_horseshoe_Ktotal (Solver.generate_colocationMesh demo_uext ([] : VecVecMatrixX ℚ))
        (demo_options false 3 0 2)
      = ((Solver.generate_colocationMesh demo_uext ([] : VecVecMatrixX ℚ)).map (fun surf =>
          (surf.getD 0 default).rows * (surf.getD 0 default).cols)).sum % 2 ^ 32 ∧
    solve_horseshoe_Ktotal (Solver.generate_colocationMesh demo_uext ([] : VecVecMatrixX ℚ))
        (demo_options false 3 0 2) = 1 ∧
    (solve_horseshoe demo_ext demo_zeta demo_pre.1
        (Solver.generate_colocationMesh demo_uext ([] : VecVecMatrixX ℚ)) demo_state
        demo_pre.2.2.1 (demo_options false 3 0 2) demo_flightconditions).gamma
      = demo_ext.reconstruct_gamma
          (demo_ext.solve_system
            (demo_ext.AIC 1 demo_zeta demo_pre.1 demo_state.zeta_star
              (Solver.generate_colocationMesh demo_uext ([] : VecVecMatrixX ℚ)) demo_pre.2.2.1
              (demo_options false 3 0 2) true (MatrixX.Zero 1 1))
            (demo_ext.RHS demo_pre.1 demo_state.zeta_star
              (Solver.generate_colocationMesh demo_uext ([] : VecVecMatrixX ℚ))
              demo_state.gamma_star demo_pre.2.2.1 (demo_options false 3 0 2) 1)
            (demo_options false 3 0 2))
          demo_state.gamma demo_pre.1 demo_state.zeta_star (demo_options false 3 0 2) ∧
    (solve_discretised demo_ext demo_zeta demo_pre.1
        (Solver.generate_colocationMesh demo_uext ([] : VecVecMatrixX ℚ)) demo_state
        demo_pre.2.2.1 (demo_options false 3 0 2) demo_flightconditions).gamma
      = demo_ext.reconstruct_gamma
          (demo_ext.solve_system
            (demo_ext.AIC 1 demo_zeta demo_pre.1 demo_state.zeta_star
              (Solver.generate_colocationMesh demo_uext ([] : VecVecMatrixX ℚ)) demo_pre.2.2.1
              (demo_options false 3 0 2) false (MatrixX.Zero 1 1))
            (demo_ext.RHS demo_pre.1 demo_state.zeta_star
              (Solver.generate_colocationMesh demo_uext ([] : VecVecMatrixX ℚ))
              demo_state.gamma_star demo_pre.2.2.1 (demo_options false 3 0 2) 1)
            (demo_options false 3 0 2))
          demo_state.gamma demo_pre.1 demo_state.zeta_star (demo_options false 3 0 2) := by
  have hK : solve_horseshoe_Ktotal
      (Solver.generate_colocationMesh demo_uext ([] : VecVecMatrixX ℚ))
      (demo_options false 3 0 2) = 1 := by decide
  have hKd : solve_discretised_Ktotal
      (Solver.generate_colocationMesh demo_uext ([] : VecVecMatrixX ℚ))
      (demo_options false 3 0 2) = 1 := by decide
  have hC := C7_Ktotal (Solver.generate_colocationMesh demo_uext ([] : VecVecMatrixX ℚ))
    (demo_options false 3 0 2)
  have hflow := hC.2.2.2.2.1 demo_ext demo_zeta demo_pre.1 demo_pre.2.2.1 demo_state
    demo_flightconditions
  refine ⟨by decide, (hC.2.2.2.1 (by decide)).trans (by decide), hK, ?_, ?_⟩
  · have h := hflow.2.2.2.1
    rw [hK] at h
    exact h
  · have h := hflow.2.2.2.2
    rw [hKd] at h
    exact h

/-- C8, as stated, fails on a mesh of one surface with 65536 x 65536 panels: the corner
grids are 65537 x 65537, the first collocation grid is 65536 x 65536, but `Ktotal`,
computed in `unsigned int`, is 0 while the panel count is `2 ^ 32`. -/
theorem C8_counterexample :
    (at2 demo_big_mesh 0 0).rows = 65536 + 1 ∧ (at2 demo_big_mesh 0 0).cols = 65536 + 1 ∧
    (at2 (Solver.generate_colocationMesh demo_big_mesh []) 0 0).rows = 65536 ∧
    (at2 (Solver.generate_colocationMesh demo_big_mesh []) 0 0).cols = 65536 ∧
    solve_horseshoe_Ktotal (Solver.generate_colocationMesh demo_big_mesh [])
      (demo_options false 3 0 1) = 0 ∧
    solve_horseshoe_Ktotal (Solver.generate_colocationMesh demo_big_mesh [])
      (demo_options false 3 0 1) ≠ 65536 * 65536 := by
  decide

/-- C8 (amended): for a mesh whose corner grids have size `(M i + 1) x (N i + 1)` with
`M i, N i < 2 ^ 31`, `generate_colocationMesh` called with an empty output container
returns one entry per surface whose first grid has size `M i x N i`, and `Ktotal`
computed from these grids is the sum of the panel counts `M i * N i` modulo `2 ^ 32`,
hence the sum itself when it is below `2 ^ 32`. -/
theorem C8_panel_count (vortex_mesh : VecVecMatrixX K) (M N : Nat → Nat) (options : VMopts K)
    (hvalid : ∀ i, i < vortex_mesh.length →
      (at2 vortex_mesh i 0).rows = M i + 1 ∧ (at2 vortex_mesh i 0).cols = N i + 1)
    (hsize : ∀ i, i < vortex_mesh.length → M i < 2 ^ 31 ∧ N i < 2 ^ 31)
    (hsurf : options.NumSurfaces = vortex_mesh.length) :
    (Solver.generate_colocationMesh vortex_mesh []).length = vortex_mesh.length ∧
    (∀ i, i < vortex_mesh.length →
      (at2 (Solver.generate_colocationMesh vortex_mesh []) i 0).rows = M i ∧
      (at2 (Solver.generate_colocationMesh vortex_mesh []) i 0).cols = N i) ∧
    solve_horseshoe_Ktotal (Solver.generate_colocationMesh vortex_mesh []) options
      = (Finset.sum (Finset.range vortex_mesh.length) (fun i => M i * N i)) % 2 ^ 32 ∧
    (Finset.sum (Finset.range vortex_mesh.length) (fun i => M i * N i) < 2 ^ 32 →
      solve_horseshoe_Ktotal (Solver.generate_colocationMesh vortex_mesh []) options
        = Finset.sum (Finset.range vortex_mesh.length) (fun i => M i * N i)) := by
  obtain ⟨hlen, hsz⟩ := generate_colocationMesh_sizes vortex_mesh
  have hgrid : ∀ i, i < vortex_mesh.length →
      (at2 (Solver.generate_colocationMesh vortex_mesh []) i 0).rows = M i ∧
      (at2 (Solver.generate_colocationMesh vortex_mesh []) i 0).cols = N i := by
    intro i hi
    obtain ⟨h1, h2⟩ := hsz i hi
    obtain ⟨v1, v2⟩ := hvalid i hi
    obtain ⟨s1, s2⟩ := hsize i hi
    rw [h1, h2, v1, v2]
    exact ⟨to_int_to_uint_pred (M i) s1, to_int_to_uint_pred (N i) s2⟩
  have hK : solve_horseshoe_Ktotal (Solver.generate_colocationMesh vortex_mesh []) options
      = (Finset.sum (Finset.range vortex_mesh.length) (fun i => M i * N i)) % 2 ^ 32 := by
    have h := Ktotal_loop_eq (Solver.generate_colocationMesh vortex_mesh []) options.NumSurfaces
    rw [hsurf] at h
    have hs : Finset.sum (Finset.range vortex_mesh.length)
        (fun i => (at2 (Solver.generate_colocationMesh vortex_mesh []) i 0).rows
          * (at2 (Solver.generate_colocationMesh vortex_mesh []) i 0).cols)
        = Finset.sum (Finset.range vortex_mesh.length) (fun i => M i * N i) := by
      apply Finset.sum_congr rfl
      intro i hi
      obtain ⟨g1, g2⟩ := hgrid i (Finset.mem_range.1 hi)
      rw [g1, g2]
    rw [hs] at h
    unfold solve_horseshoe_Ktotal
    rw [hsurf]
    exact h
  exact ⟨hlen, hgrid, hK, fun hlt => by rw [hK]; exact Nat.mod_eq_of_lt hlt⟩

/-- C8 (amended), evaluated on the one-panel mesh of the concrete instance. -/
theorem C8_panel_count_witness :
    (∀ i, i < demo_zeta.length →
      (at2 demo_zeta i 0).rows = (fun _ => 1) i + 1 ∧
      (at2 demo_zeta i 0).cols = (fun _ => 1) i + 1) ∧
    (∀ i, i < demo_zeta.length → (fun _ : Nat => 1) i < 2 ^ 31 ∧ (fun _ : Nat => 1) i < 2 ^ 31) ∧
    (demo_options false 3 0 1).NumSurfaces = demo_zeta.length ∧
    solve_horseshoe_Ktotal (Solver.generate_colocationMesh demo_zeta [])
      (demo_options false 3 0 1) = 1 := by
  have hv : ∀ i, i < demo_zeta.length →
      (at2 demo_zeta i 0).rows = (fun _ => 1) i + 1 ∧
      (at2 demo_zeta i 0).cols = (fun _ => 1) i + 1 := by
    intro i hi
    have h0 : i = 0 := by
      simp only [demo_zeta, List.length_singleton] at hi
      omega
    subst h0
    exact ⟨rfl, rfl⟩
  have hs : ∀ i, i < demo_zeta.length →
      (fun _ : Nat => 1) i < 2 ^ 31 ∧ (fun _ : Nat => 1) i < 2 ^ 31 :=
    fun _ _ => ⟨by norm_num, by norm_num⟩
  have h := (C8_panel_count demo_zeta (fun _ => 1) (fun _ => 1) (demo_options false 3 0 1)
    hv hs rfl).2.2.1
  refine ⟨hv, hs, rfl, ?_⟩
  rw [h]
  decide

/-- C9: provided `convect`, `displace_VecVecMat` and `displace_VecMat` return grids of
the sizes they were given, every rollup iteration leaves every grid of `zeta_star` and
of `gamma_star` with the number of rows and columns it had before, and so does the whole
run of the loop; the trailing-edge row rewrite keeps the sizes of every grid by itself. -/
theorem C9_wake_shape_invariant (ext : Externals K)
    (zeta zeta_col uext_col normals : VecVecMatrixX K) (u_steady : Vector3 K)
    (options : VMopts K) (flightconditions : FlightConditions K)
    (hconvect : ∀ zs u dt, shape_VecVecMat (ext.convect zs u dt) = shape_VecVecMat zs)
    (hdisplace : ∀ zs, shape_VecVecMat (ext.displace_VecVecMat zs) = shape_VecVecMat zs)
    (hdisplace_gamma : ∀ gs, shape_VecMat (ext.displace_VecMat gs) = shape_VecMat gs)
    (hr : 1 ≤ options.rollup_aic_refresh) :
    (∀ zeta_star : VecVecMatrixX K,
      shape_VecVecMat (trailing_edge_rewrite zeta zeta_star) = shape_VecVecMat zeta_star) ∧
    (∀ (i : Nat) (ls : RollupState K),
      ∃ ls1, rollup_body ext zeta zeta_col uext_col normals u_steady options flightconditions
          i ls = some ls1 ∧
        shape_VecVecMat ls1.st.zeta_star = shape_VecVecMat ls.st.zeta_star ∧
        shape_VecMat ls1.st.gamma_star = shape_VecMat ls.st.gamma_star) ∧
    (∀ (remaining i : Nat) (ls : RollupState K),
      ∃ final, rollup_loop ext zeta zeta_col uext_col normals u_steady options flightconditions
          remaining i ls = some final ∧
        shape_VecVecMat final.st.zeta_star = shape_VecVecMat ls.st.zeta_star ∧
        shape_VecMat final.st.gamma_star = shape_VecMat ls.st.gamma_star) := by
  have hr0 : options.rollup_aic_refresh ≠ 0 := by omega
  refine ⟨trailing_edge_rewrite_shape zeta, ?_,
    rollup_loop_shape ext zeta zeta_col uext_col normals u_steady options flightconditions
      hconvect hdisplace hdisplace_gamma hr0⟩
  intro i ls
  obtain ⟨ls1, hb⟩ := rollup_body_some ext zeta zeta_col uext_col normals u_steady options
    flightconditions hr0 i ls
  exact ⟨ls1, hb, rollup_body_shape ext zeta zeta_col uext_col normals u_steady options
    flightconditions hconvect hdisplace hdisplace_gamma i ls ls1 hb⟩

/-- C9, evaluated on the concrete instance: three iterations from the caller's wake. -/
theorem C9_wake_shape_invariant_witness :
    (∀ zs u dt, shape_VecVecMat (demo_ext.convect zs u dt) = shape_VecVecMat zs) ∧
    (∀ zs, shape_VecVecMat (demo_ext.displace_VecVecMat zs) = shape_VecVecMat zs) ∧
    (∀ gs, shape_VecMat (demo_ext.displace_VecMat gs) = shape_VecMat gs) ∧
    1 ≤ (demo_options false 3 0 2).rollup_aic_refresh ∧
    ∃ final, rollup_loop demo_ext demo_zeta [] [] [] ⟨1, 0, 0⟩ (demo_options false 3 0 2)
        demo_flightconditions 3 0 ⟨demo_state, 6, 6, 0, demo_state.zeta_star⟩ = some final ∧
      shape_VecVecMat final.st.zeta_star = [[(3, 2), (3, 2), (3, 2)]] ∧
      shape_VecMat final.st.gamma_star = [(2, 1)] :=
  ⟨demo_convect_shape, demo_displace_VecVecMat_shape, demo_displace_VecMat_shape, by decide,
    (C9_wake_shape_invariant demo_ext demo_zeta [] [] [] ⟨1, 0, 0⟩ (demo_options false 3 0 2)
      demo_flightconditions demo_convect_shape demo_displace_VecVecMat_shape
      demo_displace_VecMat_shape (by decide)).2.2 3 0 ⟨demo_state, 6, 6, 0, demo_state.zeta_star⟩⟩

/-- C10: provided `convect` and `displace_VecVecMat` return grids of the shape they
were given, at the end of every executed rollup iteration the wake has the shape it
started the iteration with and, for every surface `s < zeta.size()` and coordinate
`d < NDIM` whose grid the wake held at the start of the iteration, the first row of
`zeta_star[s][d]` equals the last row of `zeta[s][d]` entry for entry, whatever the
induced velocity and `dt` were; hence this holds for the wake returned by a non-horseshoe
solve that executed at least one iteration, for the grids of the freshly discretised
wake. -/
theorem C10_trailing_edge_continuity (ext : Externals K)
    (zeta zeta_dot uext : VecVecMatrixX K) (st : State K)
    (options : VMopts K) (flightconditions : FlightConditions K)
    (hconvect : ∀ zs u dt, shape_VecVecMat (ext.convect zs u dt) = shape_VecVecMat zs)
    (hdisplace : ∀ zs, shape_VecVecMat (ext.displace_VecVecMat zs) = shape_VecVecMat zs)
    (hr : 1 ≤ options.rollup_aic_refresh) :
    (∀ (zeta_col uext_col normals : VecVecMatrixX K) (u_steady : Vector3 K) (i : Nat)
        (ls : RollupState K),
      ∃ ls1, rollup_body ext zeta zeta_col uext_col normals u_steady options flightconditions
          i ls = some ls1 ∧
        shape_VecVecMat ls1.st.zeta_star = shape_VecVecMat ls.st.zeta_star ∧
        ∀ s d, s < zeta.length → d < Constants.NDIM →
          d < (ls.st.zeta_star.getD s []).length →
          d < (ls1.st.zeta_star.getD s []).length ∧
          ∀ j, (at2 ls1.st.zeta_star s d).coeff 0 j
            = (at2 zeta s d).coeff ((at2 zeta s d).rows - 1) j) ∧
    (options.horseshoe = false → 1 ≤ options.n_rollup →
      ∃ res, solver ext zeta zeta_dot uext st options flightconditions = some res ∧
        shape_VecVecMat res.zeta_star
          = shape_VecVecMat (rollup_init ext uext options
              (solver_horseshoe_stage ext zeta uext st options
                flightconditions).2.2.2).2.st.zeta_star ∧
        ∀ s d, s < zeta.length → d < Constants.NDIM →
          d < ((rollup_init ext uext options
              (solver_horseshoe_stage ext zeta uext st options
                flightconditions).2.2.2).2.st.zeta_star.getD s []).length →
          d < (res.zeta_star.getD s []).length ∧
          ∀ j, (at2 res.zeta_star s d).coeff 0 j
            = (at2 zeta s d).coeff ((at2 zeta s d).rows - 1) j) := by
  have hr0 : options.rollup_aic_refresh ≠ 0 := by omega
  have hbody : ∀ (zeta_col uext_col normals : VecVecMatrixX K) (u_steady : Vector3 K)
      (i : Nat) (ls ls1 : RollupState K),
      rollup_body ext zeta zeta_col uext_col normals u_steady options flightconditions i ls
        = some ls1 →
      shape_VecVecMat ls1.st.zeta_star = shape_VecVecMat ls.st.zeta_star ∧
      ∀ s d, s < zeta.length → d < Constants.NDIM →
        d < (ls.st.zeta_star.getD s []).length →
        d < (ls1.st.zeta_star.getD s []).length ∧
        ∀ j, (at2 ls1.st.zeta_star s d).coeff 0 j
          = (at2 zeta s d).coeff ((at2 zeta s d).rows - 1) j := by
    intro zeta_col uext_col normals u_steady i ls ls1 hb
    have hshape := rollup_body_wake_shape ext zeta zeta_col uext_col normals u_steady options
      flightconditions hconvect hdisplace i ls ls1 hb
    refine ⟨hshape, ?_⟩
    intro s d hs hd hgrid
    have hgrid1 : d < (ls1.st.zeta_star.getD s []).length := by
      rw [skeleton_getD _ _ (skeleton_of_shape _ _ hshape) s]
      exact hgrid
    exact ⟨hgrid1, fun j => rollup_body_first_row ext zeta zeta_col uext_col normals u_steady
      options flightconditions i ls ls1 hb s d hs hd hgrid1 j⟩
  refine ⟨?_, ?_⟩
  · intro zeta_col uext_col normals u_steady i ls
    obtain ⟨ls1, hb⟩ := rollup_body_some ext zeta zeta_col uext_col normals u_steady options
      flightconditions hr0 i ls
    exact ⟨ls1, hb, hbody zeta_col uext_col normals u_steady i ls ls1 hb⟩
  · intro h hn
    obtain ⟨k, l0, l1, h0, hb, hsol⟩ := solver_last_iteration ext zeta options flightconditions
      zeta_dot uext st h hr0 hn
    have hs0 := rollup_start_shape ext zeta _ _ _ _ options flightconditions hconvect
      hdisplace _ k l0 h0
    obtain ⟨hs1, hrow⟩ := hbody _ _ _ _ k l0 l1 hb
    refine ⟨_, hsol, ?_, ?_⟩
    · exact hs1.trans hs0
    · intro s d hs hd hgrid
      refine hrow s d hs hd ?_
      rw [skeleton_getD _ _ (skeleton_of_shape _ _ hs0) s]
      exact hgrid

/-- C10, evaluated on the concrete instance: the wake returned after three iterations
still holds its x grid, whose first row is the x coordinate 0 of the trailing edge. -/
theorem C10_trailing_edge_continuity_witness :
    (∀ zs u dt, shape_VecVecMat (demo_ext.convect zs u dt) = shape_VecVecMat zs) ∧
    (∀ zs, shape_VecVecMat (demo_ext.displace_VecVecMat zs) = shape_VecVecMat zs) ∧
    1 ≤ (demo_options false 3 0 2).rollup_aic_refresh ∧
    (demo_options false 3 0 2).horseshoe = false ∧
    1 ≤ (demo_options false 3 0 2).n_rollup ∧
    0 < demo_zeta.length ∧ 0 < Constants.NDIM ∧
    0 < (demo_ini.2.st.zeta_star.getD 0 []).length ∧
    ∃ res, solver demo_ext demo_zeta [] demo_uext demo_state (demo_options false 3 0 2)
        demo_flightconditions = some res ∧
      shape_VecVecMat res.zeta_star = [[(3, 2), (3, 2), (3, 2)]] ∧
      0 < (res.zeta_star.getD 0 []).length ∧
      ∀ j, (at2 res.zeta_star 0 0).coeff 0 j = 0 := by
  obtain ⟨res, hsol, hshape, hrow⟩ :=
    (C10_trailing_edge_continuity demo_ext demo_zeta [] demo_uext demo_state
      (demo_options false 3 0 2) demo_flightconditions demo_convect_shape
      demo_displace_VecVecMat_shape (by decide)).2 rfl (by decide)
  have hg : 0 < (demo_ini.2.st.zeta_star.getD 0 []).length := by decide
  obtain ⟨hlen, hfirst⟩ := hrow 0 0 (by decide) (by decide) hg
  refine ⟨demo_convect_shape, demo_displace_VecVecMat_shape, by decide, rfl, by decide,
    by decide, by decide, hg, res, hsol, ?_, hlen, ?_⟩
  · rw [hshape]
    decide
  · intro j
    rw [hfirst j]
    rfl

/-- C11: `solve_discretised` calls `circulation_transfer` with row count 1 (only the
newest wake row is written) when `options.Steady` is false and with row count -1 (all
wake rows) when it is true; `solve_horseshoe` always calls it in the all-rows form.  In
both solves the call comes after `reconstruct_gamma` and receives the circulation that
call produced: the `gamma` returned is the output of `reconstruct_gamma` on the solution
of the linear system, and the `gamma_star` returned is the transfer of that output. -/
theorem C11_circulation_transfer_mode (ext : Externals K)
    (zeta zeta_col uext_col normals : VecVecMatrixX K) (st : State K) (options : VMopts K)
    (flightconditions : FlightConditions K) :
    (solve_discretised ext zeta zeta_col uext_col st normals options flightconditions).gamma
      = ext.reconstruct_gamma
          (ext.solve_system
            (ext.AIC (solve_discretised_Ktotal uext_col options) zeta zeta_col st.zeta_star
              uext_col normals options false
              (MatrixX.Zero (solve_discretised_Ktotal uext_col options)
                (solve_discretised_Ktotal uext_col options)))
            (ext.RHS zeta_col st.zeta_star uext_col st.gamma_star normals options
              (solve_discretised_Ktotal uext_col options)) options)
          st.gamma zeta_col st.zeta_star options ∧
    (options.Steady = false →
      (solve_discretised ext zeta zeta_col uext_col st normals options
          flightconditions).gamma_star
        = Wake.Horseshoe.circulation_transfer
            (solve_discretised ext zeta zeta_col uext_col st normals options
              flightconditions).gamma st.gamma_star 1 ∧
      ∃ calls, (solve_discretised ext zeta zeta_col uext_col st normals options
          flightconditions).trace
        = st.trace ++ calls ++ [Event.reconstruct_gamma, Event.circulation_transfer 1] ∧
        Event.reconstruct_gamma ∉ calls ∧ ∀ n, Event.circulation_transfer n ∉ calls) ∧
    (options.Steady = true →
      (solve_discretised ext zeta zeta_col uext_col st normals options
          flightconditions).gamma_star
        = Wake.Horseshoe.circulation_transfer
            (solve_discretised ext zeta zeta_col uext_col st normals options
              flightconditions).gamma st.gamma_star (-1) ∧
      ∃ calls, (solve_discretised ext zeta zeta_col uext_col st normals options
          flightconditions).trace
        = st.trace ++ calls ++ [Event.reconstruct_gamma, Event.circulation_transfer (-1)] ∧
        Event.reconstruct_gamma ∉ calls ∧ ∀ n, Event.circulation_transfer n ∉ calls) ∧
    ((solve_horseshoe ext zeta zeta_col uext_col st normals options flightconditions).gamma
        = ext.reconstruct_gamma
            (ext.solve_system
              (ext.AIC (solve_horseshoe_Ktotal uext_col options) zeta zeta_col
                (ext.horseshoe_init zeta st.zeta_star flightconditions) uext_col normals options
                true
                (MatrixX.Zero (solve_horseshoe_Ktotal uext_col options)
                  (solve_horseshoe_Ktotal uext_col options)))
              (ext.RHS zeta_col (ext.horseshoe_init zeta st.zeta_star flightconditions) uext_col
                st.gamma_star normals options (solve_horseshoe_Ktotal uext_col options))
              options)
            st.gamma zeta_col (ext.horseshoe_init zeta st.zeta_star flightconditions) options ∧
      (solve_horseshoe ext zeta zeta_col uext_col st normals options flightconditions).gamma_star
        = Wake.Horseshoe.circulation_transfer
            (solve_horseshoe ext zeta zeta_col uext_col st normals options
              flightconditions).gamma st.gamma_star (-1) ∧
      (solve_horseshoe ext zeta zeta_col uext_col st normals options flightconditions).gamma_star
        = Wake.Horseshoe.circulation_transfer
            (ext.reconstruct_gamma
              (ext.solve_system
                (ext.AIC (solve_horseshoe_Ktotal uext_col options) zeta zeta_col
                  (ext.horseshoe_init zeta st.zeta_star flightconditions) uext_col normals
                  options true
                  (MatrixX.Zero (solve_horseshoe_Ktotal uext_col options)
                    (solve_horseshoe_Ktotal uext_col options)))
                (ext.RHS zeta_col (ext.horseshoe_init zeta st.zeta_star flightconditions)
                  uext_col st.gamma_star normals options
                  (solve_horseshoe_Ktotal uext_col options))
                options)
              st.gamma zeta_col (ext.horseshoe_init zeta st.zeta_star flightconditions) options)
            st.gamma_star (-1) ∧
      ∃ calls, (solve_horseshoe ext zeta zeta_col uext_col st normals options
          flightconditions).trace
        = st.trace ++ calls ++ [Event.reconstruct_gamma, Event.circulation_transfer (-1)] ∧
        Event.reconstruct_gamma ∉ calls ∧ ∀ n, Event.circulation_transfer n ∉ calls) ∧
    (∀ (gamma gamma_star : VecMatrixX K) (s : Nat), s < gamma.length → s < gamma_star.length →
      (∀ i j, i < (gamma_star.getD s default).rows →
        ((Wake.Horseshoe.circulation_transfer gamma gamma_star (-1)).getD s default).coeff i j
          = (gamma.getD s default).coeff ((gamma.getD s default).rows - 1) j) ∧
      (∀ j, ((Wake.Horseshoe.circulation_transfer gamma gamma_star 1).getD s default).coeff 0 j
          = (gamma.getD s default).coeff ((gamma.getD s default).rows - 1) j) ∧
      (∀ i j, 1 ≤ i →
        ((Wake.Horseshoe.circulation_transfer gamma gamma_star 1).getD s default).coeff i j
          = (gamma_star.getD s default).coeff i j)) := by
  refine ⟨rfl, ?_, ?_, ?_, ?_⟩
  · intro hS
    refine ⟨?_, [Event.solve_discretised, Event.RHS (solve_discretised_Ktotal uext_col options),
      Event.AIC (solve_discretised_Ktotal uext_col options) false
        (solve_discretised_Ktotal uext_col options) (solve_discretised_Ktotal uext_col options),
      Event.solve_system], ?_, by simp, by simp⟩
    · simp [solve_discretised, hS]
    · simp [solve_discretised, hS, MatrixX.Zero]
  · intro hS
    refine ⟨?_, [Event.solve_discretised, Event.RHS (solve_discretised_Ktotal uext_col options),
      Event.AIC (solve_discretised_Ktotal uext_col options) false
        (solve_discretised_Ktotal uext_col options) (solve_discretised_Ktotal uext_col options),
      Event.solve_system], ?_, by simp, by simp⟩
    · simp [solve_discretised, hS]
    · simp [solve_discretised, hS, MatrixX.Zero]
  · refine ⟨rfl, rfl, rfl, [Event.solve_horseshoe, Event.horseshoe_init,
      Event.RHS (solve_horseshoe_Ktotal uext_col options),
      Event.AIC (solve_horseshoe_Ktotal uext_col options) true
        (solve_horseshoe_Ktotal uext_col options) (solve_horseshoe_Ktotal uext_col options),
      Event.solve_system], ?_, by simp, by simp⟩
    simp [solve_horseshoe, MatrixX.Zero]
  · intro gamma gamma_star s hs hgs
    refine ⟨?_, ?_, ?_⟩
    · intro i j hi
      rw [circulation_transfer_getD gamma gamma_star (-1) s hs hgs]
      simp only [if_true]
      rw [if_pos hi]
    · intro j
      rw [circulation_transfer_getD gamma gamma_star 1 s hs hgs]
      simp
    · intro i j hi
      rw [circulation_transfer_getD gamma gamma_star 1 s hs hgs]
      have : ¬ i < 1 := by omega
      simp [this]

/-- C11, evaluated on the concrete instance: `solve_discretised` in the steady and in the
unsteady mode, and `solve_horseshoe`. -/
theorem C11_circulation_transfer_mode_witness :
    (solve_horseshoe demo_ext demo_zeta [] [] demo_state [] (demo_options false 3 0 2)
        demo_flightconditions).gamma_star
      = Wake.Horseshoe.circulation_transfer
          (demo_ext.reconstruct_gamma
            (demo_ext.solve_system
              (demo_ext.AIC 0 demo_zeta [] demo_state.zeta_star [] []
                (demo_options false 3 0 2) true (MatrixX.Zero 0 0))
              (demo_ext.RHS [] demo_state.zeta_star [] demo_state.gamma_star []
                (demo_options false 3 0 2) 0)
              (demo_options false 3 0 2))
            demo_state.gamma [] demo_state.zeta_star (demo_options false 3 0 2))
          demo_state.gamma_star (-1) ∧
    (demo_options false 3 0 2).Steady = true ∧
    (solve_discretised demo_ext demo_zeta [] [] demo_state [] (demo_options false 3 0 2)
        demo_flightconditions).gamma_star
      = Wake.Horseshoe.circulation_transfer
          (solve_discretised demo_ext demo_zeta [] [] demo_state [] (demo_options false 3 0 2)
            demo_flightconditions).gamma demo_state.gamma_star (-1) ∧
    ({ demo_options false 3 0 2 with Steady := false } : VMopts ℚ).Steady = false ∧
    (solve_discretised demo_ext demo_zeta [] [] demo_state []
        { demo_options false 3 0 2 with Steady := false } demo_flightconditions).gamma_star
      = Wake.Horseshoe.circulation_transfer
          (solve_discretised demo_ext demo_zeta [] [] demo_state []
            { demo_options false 3 0 2 with Steady := false } demo_flightconditions).gamma
          demo_state.gamma_star 1 :=
  ⟨(C11_circulation_transfer_mode demo_ext demo_zeta [] [] [] demo_state
      (demo_options false 3 0 2) demo_flightconditions).2.2.2.1.2.2.1,
    rfl,
    ((C11_circulation_transfer_mode demo_ext demo_zeta [] [] [] demo_state
      (demo_options false 3 0 2) demo_flightconditions).2.2.1 rfl).1,
    rfl,
    ((C11_circulation_transfer_mode demo_ext demo_zeta [] [] [] demo_state
      { demo_options false 3 0 2 with Steady := false } demo_flightconditions).2.1 rfl).1⟩

/-- C13, as stated, fails at iteration 1 of the concrete instance: the
`zeta_star_previous` of the check of iteration 1 still holds the wake captured before
the loop (x coordinate 1 in row 0), not the wake at the end of iteration 0 (whose row 0
is the trailing edge, x coordinate 0). -/
theorem C13_counterexample :
    ∃ ls0 ls1 : RollupState ℚ,
      rollup_check demo_ext demo_zeta demo_pre.1 demo_pre.2.1 demo_pre.2.2.1 demo_ini.1
        (demo_options false 3 0 2) demo_flightconditions demo_ini.2 0 = some ls0 ∧
      rollup_check demo_ext demo_zeta demo_pre.1 demo_pre.2.1 demo_pre.2.2.1 demo_ini.1
        (demo_options false 3 0 2) demo_flightconditions demo_ini.2 1 = some ls1 ∧
      (at2 ls1.zeta_star_previous 0 0).coeff 0 0 = 1 ∧
      (at2 ls0.st.zeta_star 0 0).coeff 0 0 = 0 ∧
      ls1.zeta_star_previous ≠ ls0.st.zeta_star := by
  obtain ⟨ls0, h0⟩ := rollup_check_some demo_ext demo_zeta demo_pre.1 demo_pre.2.1
    demo_pre.2.2.1 demo_ini.1 (demo_options false 3 0 2) demo_flightconditions (by decide)
    demo_ini.2 0
  obtain ⟨ls1, h1⟩ := rollup_check_some demo_ext demo_zeta demo_pre.1 demo_pre.2.1
    demo_pre.2.2.1 demo_ini.1 (demo_options false 3 0 2) demo_flightconditions (by decide)
    demo_ini.2 1
  have hp := rollup_check_previous_one demo_ext demo_zeta demo_pre.1 demo_pre.2.1
    demo_pre.2.2.1 demo_ini.1 (demo_options false 3 0 2) demo_flightconditions demo_ini.2 ls1 h1
  have hprev : demo_ini.2.zeta_star_previous = demo_state.zeta_star :=
    (rollup_init_previous demo_ext demo_uext (demo_options false 3 0 2) demo_pre.2.2.2
      (by decide)).1
  obtain ⟨l, hl, hb⟩ := rollup_check_inv demo_ext demo_zeta demo_pre.1 demo_pre.2.1
    demo_pre.2.2.1 demo_ini.1 (demo_options false 3 0 2) demo_flightconditions demo_ini.2 0
    ls0 h0
  simp only [rollup_start, Option.some.injEq] at hl
  subst hl
  have hshape := rollup_body_wake_shape demo_ext demo_zeta demo_pre.1 demo_pre.2.1
    demo_pre.2.2.1 demo_ini.1 (demo_options false 3 0 2) demo_flightconditions
    demo_convect_shape demo_displace_VecVecMat_shape 0 demo_ini.2 ls0 hb
  have hgrid : 0 < (ls0.st.zeta_star.getD 0 []).length := by
    rw [skeleton_getD _ _ (skeleton_of_shape _ _ hshape) 0]
    decide
  have hrow := rollup_body_first_row demo_ext demo_zeta demo_pre.1 demo_pre.2.1
    demo_pre.2.2.1 demo_ini.1 (demo_options false 3 0 2) demo_flightconditions 0 demo_ini.2
    ls0 hb 0 0 (by decide) (by decide) hgrid 0
  have h1v : (at2 ls1.zeta_star_previous 0 0).coeff 0 0 = 1 := by
    rw [hp, hprev]
    rfl
  have h0v : (at2 ls0.st.zeta_star 0 0).coeff 0 0 = 0 := by
    rw [hrow]
    rfl
  refine ⟨ls0, ls1, h0, h1, h1v, h0v, ?_⟩
  intro heq
  rw [heq, h0v] at h1v
  exact zero_ne_one h1v

/-- C13 (amended): `zeta_star_norm_first` is the norm of the freshly discretised wake,
captured once before the loop and the same at every check.  The `zeta_star_previous` used
by the check of iteration 1 is that freshly discretised wake (iteration 0 retains
nothing); at every iteration `i ≥ 2` it is the result of `copy_VecVecMat` of the wake at
the end of iteration `i - 1`, which is that wake itself when `convect` and
`displace_VecVecMat` return containers of the shape they were given. -/
theorem C13_previous_wake (ext : Externals K) (zeta uext : VecVecMatrixX K)
    (st : State K) (options : VMopts K) (flightconditions : FlightConditions K)
    (hconvect : ∀ zs u dt, shape_VecVecMat (ext.convect zs u dt) = shape_VecVecMat zs)
    (hdisplace : ∀ zs, shape_VecVecMat (ext.displace_VecVecMat zs) = shape_VecVecMat zs)
    (hn : options.n_rollup ≠ 0) :
    let pre := solver_horseshoe_stage ext zeta uext st options flightconditions
    let ini := rollup_init ext uext options pre.2.2.2
    let check := rollup_check ext zeta pre.1 pre.2.1 pre.2.2.1 ini.1 options flightconditions
      ini.2
    ini.2.st.zeta_star
      = (ext.to_discretised pre.2.2.2.zeta_star pre.2.2.2.gamma_star
          (ext.norm3 ⟨(at2 uext 0 0).coeff 0 0, (at2 uext 0 1).coeff 0 0,
            (at2 uext 0 2).coeff 0 0⟩ * options.dt)).1 ∧
    ini.2.zeta_star_norm_first = norm_VecVec_mat ext.norm ini.2.st.zeta_star ∧
    ini.2.zeta_star_previous = ini.2.st.zeta_star ∧
    (∀ i ls, check i = some ls → ls.zeta_star_norm_first = ini.2.zeta_star_norm_first) ∧
    (∀ ls, check 1 = some ls → ls.zeta_star_previous = ini.2.st.zeta_star) ∧
    (∀ i ls lsp, 2 ≤ i → check i = some ls → check (i - 1) = some lsp →
      ls.zeta_star_previous = copy_VecVecMat lsp.st.zeta_star lsp.zeta_star_previous ∧
      ls.zeta_star_previous = lsp.st.zeta_star) := by
  intro pre ini check
  obtain ⟨hprev, hfirst⟩ := rollup_init_previous ext uext options pre.2.2.2 hn
  have hzs : ini.2.st.zeta_star
      = (ext.to_discretised pre.2.2.2.zeta_star pre.2.2.2.gamma_star
          (ext.norm3 ⟨(at2 uext 0 0).coeff 0 0, (at2 uext 0 1).coeff 0 0,
            (at2 uext 0 2).coeff 0 0⟩ * options.dt)).1 := by
    show (rollup_init ext uext options pre.2.2.2).2.st.zeta_star = _
    unfold rollup_init
    split <;> rfl
  refine ⟨hzs, hfirst, hprev, ?_, ?_, ?_⟩
  · intro i ls h
    exact (rollup_check_trace ext zeta pre.1 pre.2.1 pre.2.2.1 ini.1 options flightconditions
      ini.2 i ls h).2.1
  · intro ls h
    rw [rollup_check_previous_one ext zeta pre.1 pre.2.1 pre.2.2.1 ini.1 options
      flightconditions ini.2 ls h]
    exact hprev
  · intro i ls lsp hi h hp
    obtain ⟨m, hm⟩ : ∃ m, i = m + 1 := ⟨i - 1, by omega⟩
    subst hm
    simp only [Nat.add_sub_cancel] at hp
    obtain ⟨hcopy, l0, h0, hb0⟩ := rollup_check_previous_succ ext zeta pre.1 pre.2.1
      pre.2.2.1 ini.1 options flightconditions ini.2 m (by omega) ls lsp h hp
    refine ⟨hcopy, ?_⟩
    rw [hcopy]
    apply copy_VecVecMat_eq
    obtain ⟨hz0, hp0⟩ := rollup_start_skeleton ext zeta pre.1 pre.2.1 pre.2.2.1 ini.1 options
      flightconditions hconvect hdisplace ini.2 (by rw [hprev]) m l0 h0
    have hz1 := rollup_body_wake_shape ext zeta pre.1 pre.2.1 pre.2.2.1 ini.1 options
      flightconditions hconvect hdisplace m l0 lsp hb0
    obtain ⟨-, hp1, -, -⟩ := rollup_body_fields ext zeta pre.1 pre.2.1 pre.2.2.1 ini.1
      options flightconditions m l0 lsp hb0
    rw [hp1, hp0]
    exact (skeleton_of_shape _ _ (hz1.trans hz0)).symm

/-- C13 (amended), evaluated on the concrete instance at iteration 2. -/
theorem C13_previous_wake_witness :
    (∀ zs u dt, shape_VecVecMat (demo_ext.convect zs u dt) = shape_VecVecMat zs) ∧
    (∀ zs, shape_VecVecMat (demo_ext.displace_VecVecMat zs) = shape_VecVecMat zs) ∧
    (demo_options false 3 0 2).n_rollup ≠ 0 ∧
    ∀ ls lsp,
      rollup_check demo_ext demo_zeta demo_pre.1 demo_pre.2.1 demo_pre.2.2.1 demo_ini.1
        (demo_options false 3 0 2) demo_flightconditions demo_ini.2 2 = some ls →
      rollup_check demo_ext demo_zeta demo_pre.1 demo_pre.2.1 demo_pre.2.2.1 demo_ini.1
        (demo_options false 3 0 2) demo_flightconditions demo_ini.2 1 = some lsp →
      ls.zeta_star_previous = lsp.st.zeta_star :=
  ⟨demo_convect_shape, demo_displace_VecVecMat_shape, by decide, fun ls lsp h hp =>
    ((C13_previous_wake demo_ext demo_zeta demo_uext demo_state (demo_options false 3 0 2)
      demo_flightconditions demo_convect_shape demo_displace_VecVecMat_shape
      (by decide)).2.2.2.2.2 2 ls lsp (le_refl 2) h hp).2⟩

/-- C14: `norm_VecVec_mat` is the sum, over all surfaces and all grids of a surface, of
the norm of the grid.  When that norm is the Euclidean one (the non-negative square root
of the sum of the squared entries) the aggregate is non-negative, it is zero exactly when
every entry of every grid is zero, and an empty container, a surface without grids and a
grid without entries contribute 0. -/
theorem C14_aggregate_norm (norm : MatrixX K → K) (mat : VecVecMatrixX K) :
    norm_VecVec_mat norm mat = (mat.map (fun surf => (surf.map norm).sum)).sum ∧
    norm_VecVec_mat norm [] = 0 ∧
    norm_VecVec_mat norm ([] :: mat) = norm_VecVec_mat norm mat ∧
    ((∀ surf ∈ mat, ∀ m ∈ surf, 0 ≤ norm m ∧ norm m * norm m = m.squaredNorm) →
      0 ≤ norm_VecVec_mat norm mat ∧
      (norm_VecVec_mat norm mat = 0
        ↔ ∀ surf ∈ mat, ∀ m ∈ surf, ∀ i j, i < m.rows → j < m.cols → m.coeff i j = 0) ∧
      (∀ surf ∈ mat, ∀ m ∈ surf, (m.rows = 0 ∨ m.cols = 0) → norm m = 0)) := by
  refine ⟨norm_VecVec_mat_eq_sum norm mat, ?_, ?_, ?_⟩
  · rw [norm_VecVec_mat_eq_sum]
    rfl
  · rw [norm_VecVec_mat_eq_sum, norm_VecVec_mat_eq_sum]
    simp
  · intro hnorm
    have hzero : ∀ surf ∈ mat, ∀ m ∈ surf,
        (norm m = 0 ↔ ∀ i j, i < m.rows → j < m.cols → m.coeff i j = 0) := by
      intro surf hs m hm
      rw [← squaredNorm_eq_zero_iff, ← (hnorm surf hs m hm).2]
      exact mul_self_eq_zero.symm
    have hsurf_nonneg : ∀ surf ∈ mat, 0 ≤ (surf.map norm).sum := by
      intro surf hs
      apply List.sum_nonneg
      intro x hx
      obtain ⟨m, hm, rfl⟩ := List.mem_map.1 hx
      exact (hnorm surf hs m hm).1
    have hsurf_zero : ∀ surf ∈ mat,
        ((surf.map norm).sum = 0 ↔ ∀ m ∈ surf, norm m = 0) := by
      intro surf hs
      rw [list_sum_eq_zero_iff_of_nonneg]
      · constructor
        · intro h m hm
          exact h (norm m) (List.mem_map.2 ⟨m, hm, rfl⟩)
        · intro h x hx
          obtain ⟨m, hm, rfl⟩ := List.mem_map.1 hx
          exact h m hm
      · intro x hx
        obtain ⟨m, hm, rfl⟩ := List.mem_map.1 hx
        exact (hnorm surf hs m hm).1
    have hall_nonneg : ∀ x ∈ mat.map (fun surf => (surf.map norm).sum), 0 ≤ x := by
      intro x hx
      obtain ⟨surf, hs, rfl⟩ := List.mem_map.1 hx
      exact hsurf_nonneg surf hs
    refine ⟨?_, ?_, ?_⟩
    · rw [norm_VecVec_mat_eq_sum]
      exact List.sum_nonneg hall_nonneg
    · rw [norm_VecVec_mat_eq_sum, list_sum_eq_zero_iff_of_nonneg _ hall_nonneg]
      constructor
      · intro h surf hs m hm
        have h1 := h _ (List.mem_map.2 ⟨surf, hs, rfl⟩)
        exact (hzero surf hs m hm).1 ((hsurf_zero surf hs).1 h1 m hm)
      · intro h x hx
        obtain ⟨surf, hs, rfl⟩ := List.mem_map.1 hx
        exact (hsurf_zero surf hs).2 (fun m hm => (hzero surf hs m hm).2 (h surf hs m hm))
    · intro surf hs m hm hempty
      rw [hzero surf hs m hm]
      intro i j hi hj
      rcases hempty with h0 | h0 <;> omega

/-- C14, evaluated over the reals, with the Euclidean norm, on a container of one
surface holding the 1 x 2 grid (3, 4) and of one surface without grids. -/
theorem C14_aggregate_norm_witness :
    (∀ surf ∈ ([[⟨1, 2, fun _ j => if j = 0 then 3 else 4⟩], []] : VecVecMatrixX ℝ),
      ∀ m ∈ surf, 0 ≤ (fun m : MatrixX ℝ => Real.sqrt m.squaredNorm) m ∧
        (fun m : MatrixX ℝ => Real.sqrt m.squaredNorm) m
          * (fun m : MatrixX ℝ => Real.sqrt m.squaredNorm) m = m.squaredNorm) ∧
    0 ≤ norm_VecVec_mat (fun m : MatrixX ℝ => Real.sqrt m.squaredNorm)
      ([[⟨1, 2, fun _ j => if j = 0 then 3 else 4⟩], []] : VecVecMatrixX ℝ) := by
  have h : ∀ surf ∈ ([[⟨1, 2, fun _ j => if j = 0 then 3 else 4⟩], []] : VecVecMatrixX ℝ),
      ∀ m ∈ surf, 0 ≤ (fun m : MatrixX ℝ => Real.sqrt m.squaredNorm) m ∧
        (fun m : MatrixX ℝ => Real.sqrt m.squaredNorm) m
          * (fun m : MatrixX ℝ => Real.sqrt m.squaredNorm) m = m.squaredNorm :=
    fun _ _ m _ => ⟨Real.sqrt_nonneg _, Real.mul_self_sqrt (squaredNorm_nonneg m)⟩
  exact ⟨h, ((C14_aggregate_norm (fun m : MatrixX ℝ => Real.sqrt m.squaredNorm)
    ([[⟨1, 2, fun _ j => if j = 0 then 3 else 4⟩], []] : VecVecMatrixX ℝ)).2.2.2 h).1⟩

/-- C15, on the code: `allocate_VecVecMat(mat, n_dim, dimensions, correction)` leaves one
entry per surface, but each entry holds `2 * n_dim` grids, not `n_dim`: the `resize(n_dim)`
is followed by one `push_back` per axis, so the `n_dim` zero grids of size
`(first + correction) x (second + correction)` are followed by `n_dim` empty grids. -/
theorem C15_allocate_grid_count (mat : VecVecMatrixX K) (n_dim : Nat)
    (dimensions : VecDimensions) (correction : Int) :
    (allocate_VecVecMat mat n_dim dimensions correction).length = dimensions.length ∧
    ∀ i, i < dimensions.length →
      (allocate_VecVecMat mat n_dim dimensions correction).getD i []
        = List.replicate n_dim (MatrixX.Zero
            (to_int (to_uint ((dimensions.getD i (0, 0)).1 + correction))).toNat
            (to_int (to_uint ((dimensions.getD i (0, 0)).2 + correction))).toNat)
          ++ List.replicate n_dim default ∧
      ((allocate_VecVecMat mat n_dim dimensions correction).getD i []).length = 2 * n_dim ∧
      (0 ≤ ((dimensions.getD i (0, 0)).1 : Int) + correction →
        ((dimensions.getD i (0, 0)).1 : Int) + correction < 2 ^ 31 →
        (to_int (to_uint ((dimensions.getD i (0, 0)).1 + correction))).toNat
          = (((dimensions.getD i (0, 0)).1 : Int) + correction).toNat) ∧
      (0 ≤ ((dimensions.getD i (0, 0)).2 : Int) + correction →
        ((dimensions.getD i (0, 0)).2 : Int) + correction < 2 ^ 31 →
        (to_int (to_uint ((dimensions.getD i (0, 0)).2 + correction))).toNat
          = (((dimensions.getD i (0, 0)).2 : Int) + correction).toNat) := by
  refine ⟨allocate_VecVecMat_length mat n_dim dimensions correction, ?_⟩
  intro i hi
  have h := allocate_VecVecMat_getD mat n_dim dimensions correction i hi
  rw [allocated_surface_eq] at h
  refine ⟨h, ?_, fun h0 h1 => to_int_to_uint_of_range _ h0 h1,
    fun h0 h1 => to_int_to_uint_of_range _ h0 h1⟩
  rw [h, List.length_append, List.length_replicate, List.length_replicate]
  omega

/-- C15, evaluated on the allocation of the collocation mesh of one surface with 2 x 2
corner points: six grids, three of size 1 x 1 and three empty ones. -/
theorem C15_allocate_grid_count_witness :
    (0 : Nat) < ([(2, 2)] : VecDimensions).length ∧
    ((allocate_VecVecMat ([] : VecVecMatrixX ℚ) Constants.NDIM [(2, 2)] (-1)).getD 0 []).length
      = 6 ∧
    shape_VecVecMat (allocate_VecVecMat ([] : VecVecMatrixX ℚ) Constants.NDIM [(2, 2)] (-1))
      = [[(1, 1), (1, 1), (1, 1), (0, 0), (0, 0), (0, 0)]] ∧
    shape_VecVecMat (Solver.generate_colocationMesh demo_zeta [])
      = [[(1, 1), (1, 1), (1, 1), (0, 0), (0, 0), (0, 0)]] :=
  ⟨by decide,
    ((C15_allocate_grid_count ([] : VecVecMatrixX ℚ) Constants.NDIM [(2, 2)] (-1)).2 0
      (by decide)).2.1,
    by decide, by decide⟩

/-- C16: `UVMopts2VMopts(uvm)` returns a `VMopts` whose `dt`, `NumCores`, `NumSurfaces`,
`ImageMethod`, `iterative_solver`, `iterative_tol` and `iterative_precond` are those of
`uvm` and whose `horseshoe` and `Steady` are false; every other field keeps the content
the uninitialised local started with, whatever `uvm` is. -/
theorem C16_UVMopts2VMopts {F : Type} (vm0 : VMopts F) (uvm uvm1 : UVMopts F) :
    (UVMopts2VMopts vm0 uvm).dt = uvm.dt ∧
    (UVMopts2VMopts vm0 uvm).NumCores = uvm.NumCores ∧
    (UVMopts2VMopts vm0 uvm).NumSurfaces = uvm.NumSurfaces ∧
    (UVMopts2VMopts vm0 uvm).ImageMethod = uvm.ImageMethod ∧
    (UVMopts2VMopts vm0 uvm).iterative_solver = uvm.iterative_solver ∧
    (UVMopts2VMopts vm0 uvm).iterative_tol = uvm.iterative_tol ∧
    (UVMopts2VMopts vm0 uvm).iterative_precond = uvm.iterative_precond ∧
    (UVMopts2VMopts vm0 uvm).horseshoe = false ∧
    (UVMopts2VMopts vm0 uvm).Steady = false ∧
    (UVMopts2VMopts vm0 uvm).n_rollup = vm0.n_rollup ∧
    (UVMopts2VMopts vm0 uvm).rollup_tolerance = vm0.rollup_tolerance ∧
    (UVMopts2VMopts vm0 uvm).rollup_aic_refresh = vm0.rollup_aic_refresh ∧
    (UVMopts2VMopts vm0 uvm).KJMeth = vm0.KJMeth ∧
    (UVMopts2VMopts vm0 uvm).NewAIC = vm0.NewAIC ∧
    (UVMopts2VMopts vm0 uvm).DelTime = vm0.DelTime ∧
    (UVMopts2VMopts vm0 uvm).Rollup = vm0.Rollup ∧
    (UVMopts2VMopts vm0 uvm).n_rollup = (UVMopts2VMopts vm0 uvm1).n_rollup ∧
    (UVMopts2VMopts vm0 uvm).rollup_tolerance = (UVMopts2VMopts vm0 uvm1).rollup_tolerance ∧
    (UVMopts2VMopts vm0 uvm).rollup_aic_refresh = (UVMopts2VMopts vm0 uvm1).rollup_aic_refresh ∧
    (UVMopts2VMopts vm0 uvm).KJMeth = (UVMopts2VMopts vm0 uvm1).KJMeth ∧
    (UVMopts2VMopts vm0 uvm).NewAIC = (UVMopts2VMopts vm0 uvm1).NewAIC ∧
    (UVMopts2VMopts vm0 uvm).DelTime = (UVMopts2VMopts vm0 uvm1).DelTime ∧
    (UVMopts2VMopts vm0 uvm).Rollup = (UVMopts2VMopts vm0 uvm1).Rollup :=
  ⟨rfl, rfl, rfl, rfl, rfl, rfl, rfl, rfl, rfl, rfl, rfl, rfl, rfl, rfl, rfl, rfl, rfl, rfl,
    rfl, rfl, rfl, rfl, rfl⟩

end claims

end Steady

end UVLM
